import Mathlib

/-!
# AuthContext.cpp: response validators and the join decision

A shallow embedding of `launcher/minecraft/auth/flows/AuthContext.cpp`.

* JSON payloads are values of `QJsonValue`; a reply body is given as the result of
  `QJsonDocument::fromJson` on it (`none` when `jsonError.error` is set).
* `QDateTime::fromString(s, Qt::ISODate)` is Qt library code; the validators take it as the
  argument `fromStringISO`. `isoDateTimeUTC` is a concrete instance used for examples.
* A C++ function with an output reference `T & out` becomes a function that takes the old
  `out` and returns the new one next to the `bool` result, so that what a failed parse leaves
  behind in `out` is visible.
-/

namespace AuthContext

/-! ## Qt JSON values -/

/-- The value kinds of `QJsonValue` (`QJsonValue::Type`). A `double` carries the exact value
of the IEEE double, which is a rational number. An `object` lists its entries in iteration
order; `value`, `contains` and the iteration all go through the key, as in the source. -/
inductive QJsonValue where
  | null
  | bool (b : Bool)
  | double (d : ℚ)
  | string (s : String)
  | array (a : List QJsonValue)
  | object (o : List (String × QJsonValue))
  | undefined

abbrev QJsonArray := List QJsonValue

abbrev QJsonObject := List (String × QJsonValue)

def QJsonValue.isString : QJsonValue → Bool
  | .string _ => true
  | _ => false

def QJsonValue.isDouble : QJsonValue → Bool
  | .double _ => true
  | _ => false

def QJsonValue.isBool : QJsonValue → Bool
  | .bool _ => true
  | _ => false

def QJsonValue.isArray : QJsonValue → Bool
  | .array _ => true
  | _ => false

def QJsonValue.isObject : QJsonValue → Bool
  | .object _ => true
  | _ => false

/-- The string of `QJsonValue::toString()`, empty for any other kind. -/
def QJsonValue.toStr : QJsonValue → String
  | .string s => s
  | _ => ""

/-- The number of `QJsonValue::toDouble()`, 0 for any other kind. -/
def QJsonValue.toDouble : QJsonValue → ℚ
  | .double d => d
  | _ => 0

/-- The boolean of `QJsonValue::toBool()`, false for any other kind. -/
def QJsonValue.toBool : QJsonValue → Bool
  | .bool b => b
  | _ => false

/-- The array of `QJsonValue::toArray()`, empty for any other kind. -/
def QJsonValue.toArray : QJsonValue → QJsonArray
  | .array a => a
  | _ => []

/-- The object of `QJsonValue::toObject()`, empty for any other kind. -/
def QJsonValue.toObject : QJsonValue → QJsonObject
  | .object o => o
  | _ => []

/-- The entry of `QJsonObject::value(key)`: the value stored under `key`, `undefined` when
the key is absent. -/
def QJsonObject.value (obj : QJsonObject) (key : String) : QJsonValue :=
  match obj.lookup key with
  | some v => v
  | none => .undefined

/-- Membership test `QJsonObject::contains(key)`. -/
def QJsonObject.contains (obj : QJsonObject) (key : String) : Bool :=
  (obj.lookup key).isSome

/-- A parsed `QJsonDocument`: Qt accepts an object or an array at top level. -/
inductive QJsonDocument where
  | object (o : QJsonObject)
  | array (a : QJsonArray)

/-- The object of `QJsonDocument::object()`, empty when the document is an array. -/
def QJsonDocument.toObject : QJsonDocument → QJsonObject
  | .object o => o
  | .array _ => []

/-! ## Dates, variants, tokens -/

/-- A `QDateTime`: milliseconds since the epoch (UTC), or `none` for an invalid date-time. -/
abbrev QDateTime := Option Int

def QDateTime.isValid (t : QDateTime) : Bool := t.isSome

/-- The date-time `QDateTime::addSecs(s)`; `s` is a `qint64`. The sum is the mathematical
one: it is what the C++ computes as long as the milliseconds fit 64 bits. -/
def QDateTime.addSecs (t : QDateTime) (s : Int) : QDateTime :=
  t.map (fun ms => ms + 1000 * s)

/-- The implicit C++ conversion from `double` to a 64-bit integer: truncation toward zero
(defined for values whose truncation fits the integer type). -/
def truncToInt64 (d : ℚ) : Int := Int.tdiv d.num d.den

/-- The cast `(int64_t) d` of line 210: truncation toward zero when the truncated value is
one that a signed 64-bit integer holds. C++ leaves the cast undefined outside that range;
there the value is taken to be the least 64-bit integer, which is what the conversion
instruction of x86-64 yields, so that the result always is a value of the type. -/
def castInt64 (d : ℚ) : Int :=
  if -9223372036854775808 ≤ truncToInt64 d ∧ truncToInt64 d ≤ 9223372036854775807 then
    truncToInt64 d
  else -9223372036854775808

/-- A `QVariant` as far as this file stores one: invalid, or holding a `QString`. -/
inductive QVariant where
  | invalid
  | string (s : String)
  deriving DecidableEq

/-- A `QMap<QString, V>` as an association list with distinct keys. -/
abbrev QMap (V : Type) := List (String × V)

/-- The assignment `map[key] = v`. -/
def QMap.insert {V : Type} (m : QMap V) (key : String) (v : V) : QMap V :=
  (key, v) :: m.filter (fun p => p.1 != key)

abbrev QVariantMap := QMap QVariant

/-- Modelled from the spec: the declaration of `Katabasis::Validity` is not in the source
file, which names only `Certain`; the spec gives the tags `Unknown | Certain | Invalid`. -/
inductive Validity where
  | Unknown
  | Certain
  | Invalid
  deriving DecidableEq

/-- The fields of `Katabasis::Token` that this file reads or writes. -/
structure Token where
  issueInstant : QDateTime
  notAfter : QDateTime
  token : String
  extra : QVariantMap
  validity : Validity
  deriving DecidableEq

/-! ## Field readers (lines 182-220) -/

def getDateTime (fromStringISO : String → QDateTime) (value : QJsonValue) (out : QDateTime) :
    Bool × QDateTime :=
  if !value.isString then (false, out)
  else
    let out := fromStringISO value.toStr
    (out.isValid, out)

def getString (value : QJsonValue) (out : String) : Bool × String :=
  if !value.isString then (false, out)
  else (true, value.toStr)

/-- The overload `getNumber(QJsonValue, double &)`. -/
def getNumber (value : QJsonValue) (out : ℚ) : Bool × ℚ :=
  if !value.isDouble then (false, out)
  else (true, value.toDouble)

/-- The overload `getNumber(QJsonValue, int64_t &)`. -/
def getNumberInt64 (value : QJsonValue) (out : Int) : Bool × Int :=
  if !value.isDouble then (false, out)
  else (true, castInt64 value.toDouble)

def getBool (value : QJsonValue) (out : Bool) : Bool × Bool :=
  if !value.isBool then (false, out)
  else (true, value.toBool)

/-! ## parseXTokenResponse (lines 248-308) -/

/-- The inner loop of lines 290-297 over the entries of `obj`: `false` is the early
`return false` on a claim that is not a string. -/
def consumeClaims (obj : QJsonObject) : List (String × QJsonValue) → Token → Bool × Token
  | [], output => (true, output)
  | (key, _) :: rest, output =>
    match getString (obj.value key) "" with
    | (false, _) => (false, output)
    | (true, claim) =>
      consumeClaims obj rest { output with extra := output.extra.insert key (.string claim) }

/-- The loop of lines 278-300 over the items of the `xui` array. The first component is
`none` when the function returned `false` from inside the loop, and `some foundUHS` when the
loop ended, by exhaustion or by `break`. -/
def xuiLoop : List QJsonValue → Token → Option Bool × Token
  | [], output => (some false, output)
  | item :: rest, output =>
    if !item.isObject then xuiLoop rest output
    else
      let obj := item.toObject
      if obj.contains "uhs" then
        match consumeClaims obj obj output with
        | (false, output) => (none, output)
        | (true, output) => (some true, output)
      else xuiLoop rest output

def parseXTokenResponse (fromStringISO : String → QDateTime) (data : Option QJsonDocument)
    (output : Token) : Bool × Token :=
  match data with
  | none => (false, output)
  | some doc =>
    let obj := doc.toObject
    let (ok, t) := getDateTime fromStringISO (obj.value "IssueInstant") output.issueInstant
    let output := { output with issueInstant := t }
    if !ok then (false, output)
    else
      let (ok, t) := getDateTime fromStringISO (obj.value "NotAfter") output.notAfter
      let output := { output with notAfter := t }
      if !ok then (false, output)
      else
        let (ok, s) := getString (obj.value "Token") output.token
        let output := { output with token := s }
        if !ok then (false, output)
        else
          let arrayVal := (obj.value "DisplayClaims").toObject.value "xui"
          if !arrayVal.isArray then (false, output)
          else
            match xuiLoop arrayVal.toArray output with
            | (none, output) => (false, output)
            | (some foundUHS, output) =>
              if !foundUHS then (false, output)
              else (true, { output with validity := Validity.Certain })

/-! ## parseMojangResponse (lines 446-482) -/

/-- The argument `now` is the value of `QDateTime::currentDateTimeUtc()`, in milliseconds
since the epoch. `addSecs` takes a `qint64`, so the `double` is converted on the call. -/
def parseMojangResponse (now : Int) (data : Option QJsonDocument) (output : Token) :
    Bool × Token :=
  match data with
  | none => (false, output)
  | some doc =>
    let obj := doc.toObject
    let (ok, expires_in) := getNumber (obj.value "expires_in") 0
    if !ok then (false, output)
    else
      let currentTime : QDateTime := some now
      let output := { output with issueInstant := currentTime }
      let output := { output with notAfter := currentTime.addSecs (truncToInt64 expires_in) }
      let (ok, _) := getString (obj.value "username") ""
      if !ok then (false, output)
      else
        let (ok, s) := getString (obj.value "access_token") output.token
        let output := { output with token := s }
        if !ok then (false, output)
        else (true, { output with validity := Validity.Certain })

/-! ## parseMinecraftProfile (lines 675-751) -/

abbrev QByteArray := List UInt8

/-- The fields of `Skin` (declared outside this file) that this file reads or writes. -/
structure Skin where
  id : String := ""
  url : String := ""
  variant : String := ""
  data : QByteArray := []
  deriving DecidableEq

/-- The fields of `Cape` (declared outside this file) that this file reads or writes; the
field `alias` is written `alias_`. -/
structure Cape where
  id : String := ""
  url : String := ""
  alias_ : String := ""
  deriving DecidableEq

/-- The fields of `MinecraftProfile` (declared outside this file) that this file reads or
writes. -/
structure MinecraftProfile where
  id : String
  name : String
  skin : Skin
  currentCape : String
  capes : QMap Cape
  validity : Validity
  deriving DecidableEq

/-- The loop of lines 700-722 over the `skins` array. -/
def skinsLoop : List QJsonValue → MinecraftProfile → MinecraftProfile
  | [], output => output
  | skin :: rest, output =>
    let skinObj := skin.toObject
    let skinOut : Skin := {}
    let (ok, id) := getString (skinObj.value "id") skinOut.id
    let skinOut := { skinOut with id := id }
    if !ok then skinsLoop rest output
    else
      let (ok, state) := getString (skinObj.value "state") ""
      if !ok then skinsLoop rest output
      else if state != "ACTIVE" then skinsLoop rest output
      else
        let (ok, url) := getString (skinObj.value "url") skinOut.url
        let skinOut := { skinOut with url := url }
        if !ok then skinsLoop rest output
        else
          let (ok, variant) := getString (skinObj.value "variant") skinOut.variant
          let skinOut := { skinOut with variant := variant }
          if !ok then skinsLoop rest output
          else { output with skin := skinOut }

/-- The loop of lines 726-747 over the `capes` array; the state is the local `currentCape`
and the output profile. -/
def capesLoop : List QJsonValue → String × MinecraftProfile → String × MinecraftProfile
  | [], st => st
  | cape :: rest, (currentCape, output) =>
    let capeObj := cape.toObject
    let capeOut : Cape := {}
    let (ok, id) := getString (capeObj.value "id") capeOut.id
    let capeOut := { capeOut with id := id }
    if !ok then capesLoop rest (currentCape, output)
    else
      let (ok, state) := getString (capeObj.value "state") ""
      if !ok then capesLoop rest (currentCape, output)
      else
        let currentCape := if state == "ACTIVE" then capeOut.id else currentCape
        let (ok, url) := getString (capeObj.value "url") capeOut.url
        let capeOut := { capeOut with url := url }
        if !ok then capesLoop rest (currentCape, output)
        else
          let (ok, alias_) := getString (capeObj.value "alias") capeOut.alias_
          let capeOut := { capeOut with alias_ := alias_ }
          if !ok then capesLoop rest (currentCape, output)
          else
            capesLoop rest
              (currentCape, { output with capes := output.capes.insert capeOut.id capeOut })

def parseMinecraftProfile (data : Option QJsonDocument) (output : MinecraftProfile) :
    Bool × MinecraftProfile :=
  match data with
  | none => (false, output)
  | some doc =>
    let obj := doc.toObject
    let (ok, s) := getString (obj.value "id") output.id
    let output := { output with id := s }
    if !ok then (false, output)
    else
      let (ok, s) := getString (obj.value "name") output.name
      let output := { output with name := s }
      if !ok then (false, output)
      else
        let skinsArray := (obj.value "skins").toArray
        let output := skinsLoop skinsArray output
        let capesArray := (obj.value "capes").toArray
        let (currentCape, output) := capesLoop capesArray ("", output)
        let output := { output with currentCape := currentCape }
        (true, { output with validity := Validity.Certain })

/-! ## parseRolloutResponse (lines 817-845) -/

def parseRolloutResponse (data : Option QJsonDocument) (result : Bool) : Bool × Bool :=
  match data with
  | none => (false, result)
  | some doc =>
    let obj := doc.toObject
    let (ok, feature) := getString (obj.value "feature") ""
    if !ok then (false, result)
    else if feature != "msamigration" then (false, result)
    else
      let (ok, result) := getBool (obj.value "rollout") result
      if !ok then (false, result)
      else (true, result)

/-! ## A concrete ISO-8601 reader for examples -/

def digitValue (c : Char) : Option Int :=
  if c.isDigit then some (Int.ofNat (c.toNat - 48)) else none

def twoDigits (a b : Char) : Option Int :=
  match digitValue a, digitValue b with
  | some x, some y => some (10 * x + y)
  | _, _ => none

def isLeapYear (y : Int) : Bool :=
  (y % 4 == 0 && y % 100 != 0) || y % 400 == 0

def daysInMonth (y m : Int) : Int :=
  if m == 2 then (if isLeapYear y then 29 else 28)
  else if m == 4 || m == 6 || m == 9 || m == 11 then 30
  else 31

/-- Days from 1970-01-01 to the given date of the proleptic Gregorian calendar. -/
def daysFromCivil (y m d : Int) : Int :=
  let y := if m ≤ 2 then y - 1 else y
  let era := y / 400
  let yoe := y - era * 400
  let mp := if m > 2 then m - 3 else m + 9
  let doy := (153 * mp + 2) / 5 + d - 1
  let doe := yoe * 365 + yoe / 4 - yoe / 100 + doy
  era * 146097 + doe - 719468

/-- The value of `QDateTime::fromString(s, Qt::ISODate)` on strings of the one form
`YYYY-MM-DDTHH:MM:SSZ`, in milliseconds since the epoch. Qt reads more forms than this one;
on those this reader answers `none`, so it is used at strings of this form only. -/
def isoDateTimeUTC (s : String) : QDateTime :=
  match s.toList with
  | [y1, y2, y3, y4, '-', m1, m2, '-', d1, d2, 'T', h1, h2, ':', n1, n2, ':', s1, s2, 'Z'] =>
    match twoDigits y1 y2, twoDigits y3 y4, twoDigits m1 m2, twoDigits d1 d2,
        twoDigits h1 h2, twoDigits n1 n2, twoDigits s1 s2 with
    | some yh, some yl, some mo, some dd, some hh, some mi, some ss =>
      let y := 100 * yh + yl
      if 1 ≤ mo ∧ mo ≤ 12 ∧ 1 ≤ dd ∧ dd ≤ daysInMonth y mo ∧ hh ≤ 23 ∧ mi ≤ 59 ∧ ss ≤ 59 then
        some (((daysFromCivil y mo dd * 24 + hh) * 60 + mi) * 60 * 1000 + ss * 1000)
      else none
    | _, _, _, _, _, _, _ => none
  | _ => none

/-! ## The task object -/

/-- Modelled from the spec: the declaration of `Katabasis::Activity` is not in the source
file, which names `Idle` and `LoggingOut`; the other two stand for the activities of a run
that logs in and of a run that refreshes. The file only tells `Idle` from the rest. -/
inductive Activity where
  | Idle
  | LoggingIn
  | LoggingOut
  | Refreshing
  deriving DecidableEq

/-- The stages of `AuthContext::AuthStage`, in the order of the spec's stage list. -/
inductive AuthStage where
  | Initial
  | UserAuth
  | XboxAuth
  | MinecraftProfile
  | MigrationEligibility
  | Skin
  | Complete
  deriving DecidableEq

/-- The cast `(int)stage`. -/
def AuthStage.toInt : AuthStage → Int
  | .Initial => 0
  | .UserAuth => 1
  | .XboxAuth => 2
  | .MinecraftProfile => 3
  | .MigrationEligibility => 4
  | .Skin => 5
  | .Complete => 6

/-- The task states that this file passes to `changeState`, and the state of a task that has
not started. -/
inductive AccountTaskState where
  | STATE_CREATED
  | STATE_WORKING
  | STATE_SUCCEEDED
  | STATE_FAILED_SOFT
  | STATE_FAILED_HARD
  deriving DecidableEq

inductive AccountType where
  | MSA
  | Mojang
  deriving DecidableEq

/-- The kinds of `QNetworkReply::NetworkError` that this file tells apart. -/
inductive NetworkError where
  | NoError
  | AuthenticationRequiredError
  | ContentNotFoundError
  | OtherError
  deriving DecidableEq

/-- The fields of `AccountData` (declared outside this file) that this file reads or
writes. -/
structure AccountData where
  type : AccountType
  msaToken : Token
  userToken : Token
  xboxApiToken : Token
  mojangservicesToken : Token
  yggdrasilToken : Token
  minecraftProfile : MinecraftProfile
  canMigrateToMSA : Bool
  validity_ : Validity
  deriving DecidableEq

/-- A request handed to an `AuthRequest`, with the values substituted into its body or
headers. -/
inductive Request where
  | userAuthenticate (rpsTicket : String)
  | xstsAuthorizeMinecraft (userToken : String)
  | xstsAuthorizeGeneric (userToken : String)
  | loginWithXbox (uhs token : String)
  | xboxProfileSettings (uhs token : String)
  | minecraftProfile (bearer : String)
  | rolloutMsaMigration (bearer : String)
  | skin (url : String)
  deriving DecidableEq

/-- What the task emits or issues, in order. -/
inductive Effect where
  | activityChanged (activity : Activity)
  | progress (current total : Int)
  | stateChanged (state : AccountTaskState) (reason : String)
  | hideVerificationUriAndCode
  | request (r : Request)
  deriving DecidableEq

/-- The members of `AuthContext` and of its base `AccountTask` that this file reads or
writes, and the trace of what it emitted. -/
structure Context where
  m_data : AccountData
  m_activity : Activity
  m_stage : AuthStage
  m_accountState : AccountTaskState
  m_stateMessage : String
  m_requestsDone : Int
  m_mcAuthSucceeded : Bool
  m_xboxProfileSucceeded : Bool
  stsErrors : List Int
  stsFailed : Bool
  trace : List Effect
  deriving DecidableEq

def Context.emit (c : Context) (e : Effect) : Context :=
  { c with trace := c.trace ++ [e] }

/-- Modelled from the spec: `isBusy` is declared in the header, which is not in the source
file; the spec calls it a reentrancy guard via an instance flag, set while a run is active:
the task is busy when its activity is not `Idle`. -/
def Context.isBusy (c : Context) : Bool :=
  c.m_activity != Activity.Idle

/-- Modelled from the spec: `changeState` belongs to the base class `AccountTask`, which is
not in the source file; it records the run state and the status text and notifies the
observers. -/
def Context.changeState (c : Context) (state : AccountTaskState) (reason : String) : Context :=
  ({ c with m_accountState := state, m_stateMessage := reason }).emit
    (.stateChanged state reason)

/-- The insertion `QSet::insert`. -/
def QSet.insert (set : List Int) (x : Int) : List Int :=
  if set.contains x then set else set ++ [x]

/-- The string `QVariant::toString()`. -/
def QVariant.toStr : QVariant → String
  | .string s => s
  | .invalid => ""

/-- The non-const `map[key]` of a `QVariantMap`, which adds a default-constructed variant
under `key` when the key is absent. -/
def QVariantMap.index (m : QVariantMap) (key : String) : QVariant × QVariantMap :=
  match m.lookup key with
  | some v => (v, m)
  | none => (.invalid, QMap.insert m key .invalid)

/-- Modelled from the spec: the declaration of `MinecraftProfile` is not in the source file;
the spec says a reset profile is empty and `Invalid`. This is the default-constructed
`MinecraftProfile()`. -/
def MinecraftProfile.empty : MinecraftProfile :=
  { id := "", name := "", skin := {}, currentCape := "", capes := [],
    validity := Validity.Invalid }

/-- A default-constructed `Katabasis::Token`, as far as the fields of `Token` go: no dates, no
value, no claims. The declaration is not in the source file; the validity tag of a fresh
token is overwritten by every parse that succeeds. -/
def Token.empty : Token :=
  { issueInstant := none, notAfter := none, token := "", extra := [],
    validity := Validity.Invalid }

def setStage (c : Context) (stage : AuthStage) : Context :=
  ({ c with m_stage := stage }).emit (.progress stage.toInt AuthStage.Complete.toInt)

/-- Lines 33-40. The result `Except.error c` is the `throw 0`, with the task as the throw
leaves it: the throw is the first statement to run, so that task is the one passed in. -/
def beginActivity (c : Context) (activity : Activity) : Except Context Context :=
  if c.isBusy then .error c
  else
    let c := { c with m_activity := activity }
    let c := c.changeState .STATE_WORKING "Initializing"
    .ok (c.emit (.activityChanged c.m_activity))

/-- Lines 42-50; `none` is the `throw 0`. -/
def finishActivity (c : Context) : Option Context :=
  if !c.isBusy then none
  else
    let c := { c with m_activity := Activity.Idle }
    let c := setStage c AuthStage.Complete
    let c := { c with m_data := { c.m_data with validity_ := c.m_data.minecraftProfile.validity } }
    some (c.emit (.activityChanged c.m_activity))

def doMinecraftProfile (c : Context) : Context :=
  let c := setStage c AuthStage.MinecraftProfile
  let c := c.changeState .STATE_WORKING "Starting minecraft profile acquisition"
  c.emit (.request (.minecraftProfile c.m_data.yggdrasilToken.token))

/-! ### The join (lines 612-672) -/

def msgNoXboxProfile : String :=
  "This Microsoft account does not have an XBox Live profile. Buy the game on " ++
    "<a href=\"https://www.minecraft.net/en-us/store/minecraft-java-edition\">minecraft.net</a>" ++
    " first."

def msgRegionBlocked : String :=
  "XBox Live is not available in your country. You've been blocked."

def msgUnderage : String :=
  "This Microsoft account is underaged and is not linked to a family.\n\n" ++
    "Please set up your account according to " ++
    "<a href=\"https://help.minecraft.net/hc/en-us/articles/4403181904525\">help.minecraft.net</a>" ++
    "."

/-- The text of line 664, with the joined list substituted for the placeholder at its end. -/
def msgUnrecognized (errorList : List String) : String :=
  "XSTS authentication ended with unrecognized error(s):\n\n" ++ "\n".intercalate errorList

def msgStepsFailed : String :=
  "XBox and/or Mojang authentication steps did not succeed"

def checkResult (c : Context) : Option Context :=
  if c.m_requestsDone != 2 then some c
  else if c.m_mcAuthSucceeded && c.m_xboxProfileSucceeded then some (doMinecraftProfile c)
  else do
    let c ← finishActivity c
    if c.stsFailed then
      if c.stsErrors.contains 2148916233 then
        some (c.changeState .STATE_FAILED_HARD msgNoXboxProfile)
      else if c.stsErrors.contains 2148916235 then
        some (c.changeState .STATE_FAILED_HARD msgRegionBlocked)
      else if c.stsErrors.contains 2148916238 then
        some (c.changeState .STATE_FAILED_HARD msgUnderage)
      else
        let errorList := c.stsErrors.map (fun error => toString error)
        some (c.changeState .STATE_FAILED_HARD (msgUnrecognized errorList))
    else
      some (c.changeState .STATE_FAILED_HARD msgStepsFailed)

/-- The branch whose flag a result is reported into. -/
inductive Flag where
  | m_mcAuthSucceeded
  | m_xboxProfileSucceeded
  deriving DecidableEq

def Context.setFlag (c : Context) (flag : Flag) (b : Bool) : Context :=
  match flag with
  | .m_mcAuthSucceeded => { c with m_mcAuthSucceeded := b }
  | .m_xboxProfileSucceeded => { c with m_xboxProfileSucceeded := b }

def succeedResult (c : Context) (flag : Flag) : Option Context :=
  let c := { c with m_requestsDone := c.m_requestsDone + 1 }
  let c := c.setFlag flag true
  checkResult c

def failResult (c : Context) (flag : Flag) : Option Context :=
  let c := { c with m_requestsDone := c.m_requestsDone + 1 }
  let c := c.setFlag flag false
  checkResult c

/-- Lines 375-393. The reply body is given as the result of `QJsonDocument::fromJson`. -/
def processSTSError (c : Context) (error : NetworkError) (data : Option QJsonDocument) :
    Context :=
  if error == NetworkError.AuthenticationRequiredError then
    match data with
    | none => c
    | some doc =>
      let obj := doc.toObject
      let (ok, errorCode) := getNumberInt64 (obj.value "XErr") (-1)
      if !ok then c
      else { c with stsErrors := QSet.insert c.stsErrors errorCode, stsFailed := true }
  else c

/-! ### The network completions -/

def doUserAuth (c : Context) : Context :=
  let c := setStage c AuthStage.UserAuth
  let c := c.changeState .STATE_WORKING "Starting user authentication"
  c.emit (.request (.userAuthenticate c.m_data.msaToken.token))

def doSTSAuthMinecraft (c : Context) : Context :=
  c.emit (.request (.xstsAuthorizeMinecraft c.m_data.userToken.token))

def doSTSAuthGeneric (c : Context) : Context :=
  c.emit (.request (.xstsAuthorizeGeneric c.m_data.userToken.token))

/-- Lines 312-338. -/
def onUserAuthDone (fromStringISO : String → QDateTime) (c : Context) (error : NetworkError)
    (replyData : Option QJsonDocument) : Option Context :=
  if error != NetworkError.NoError then do
    let c ← finishActivity c
    some (c.changeState .STATE_FAILED_HARD "XBox user authentication failed.")
  else
    let (ok, temp) := parseXTokenResponse fromStringISO replyData Token.empty
    if !ok then do
      let c ← finishActivity c
      some (c.changeState .STATE_FAILED_HARD
        "XBox user authentication response could not be understood.")
    else
      let c := { c with m_data := { c.m_data with userToken := temp } }
      let c := setStage c AuthStage.XboxAuth
      let c := c.changeState .STATE_WORKING "Starting XBox authentication"
      let c := doSTSAuthMinecraft c
      some (doSTSAuthGeneric c)

def doMinecraftAuth (c : Context) : Context :=
  let (uhs, extra) := c.m_data.mojangservicesToken.extra.index "uhs"
  let c := { c with m_data := { c.m_data with
    mojangservicesToken := { c.m_data.mojangservicesToken with extra := extra } } }
  c.emit (.request (.loginWithXbox uhs.toStr c.m_data.mojangservicesToken.token))

/-- Lines 396-426. -/
def onSTSAuthMinecraftDone (fromStringISO : String → QDateTime) (c : Context)
    (error : NetworkError) (replyData : Option QJsonDocument) : Option Context :=
  if error != NetworkError.NoError then
    let c := processSTSError c error replyData
    failResult c .m_mcAuthSucceeded
  else
    let (ok, temp) := parseXTokenResponse fromStringISO replyData Token.empty
    if !ok then failResult c .m_mcAuthSucceeded
    else
      let (tempUhs, tempExtra) := temp.extra.index "uhs"
      let temp := { temp with extra := tempExtra }
      let (userUhs, userExtra) := c.m_data.userToken.extra.index "uhs"
      let c := { c with m_data := { c.m_data with
        userToken := { c.m_data.userToken with extra := userExtra } } }
      if tempUhs != userUhs then failResult c .m_mcAuthSucceeded
      else
        let c := { c with m_data := { c.m_data with mojangservicesToken := temp } }
        some (doMinecraftAuth c)

/-- Lines 485-509; `now` is the clock value read by `parseMojangResponse`. -/
def onMinecraftAuthDone (now : Int) (c : Context) (error : NetworkError)
    (replyData : Option QJsonDocument) : Option Context :=
  if error != NetworkError.NoError then failResult c .m_mcAuthSucceeded
  else
    let (ok, token) := parseMojangResponse now replyData c.m_data.yggdrasilToken
    let c := { c with m_data := { c.m_data with yggdrasilToken := token } }
    if !ok then failResult c .m_mcAuthSucceeded
    else succeedResult c .m_mcAuthSucceeded

def doXBoxProfile (c : Context) : Context :=
  let (uhs, extra) := c.m_data.userToken.extra.index "uhs"
  let c := { c with m_data := { c.m_data with
    userToken := { c.m_data.userToken with extra := extra } } }
  c.emit (.request (.xboxProfileSettings uhs.toStr c.m_data.xboxApiToken.token))

/-- Lines 535-565. -/
def onSTSAuthGenericDone (fromStringISO : String → QDateTime) (c : Context)
    (error : NetworkError) (replyData : Option QJsonDocument) : Option Context :=
  if error != NetworkError.NoError then
    let c := processSTSError c error replyData
    failResult c .m_xboxProfileSucceeded
  else
    let (ok, temp) := parseXTokenResponse fromStringISO replyData Token.empty
    if !ok then failResult c .m_xboxProfileSucceeded
    else
      let (tempUhs, tempExtra) := temp.extra.index "uhs"
      let temp := { temp with extra := tempExtra }
      let (userUhs, userExtra) := c.m_data.userToken.extra.index "uhs"
      let c := { c with m_data := { c.m_data with
        userToken := { c.m_data.userToken with extra := userExtra } } }
      if tempUhs != userUhs then failResult c .m_xboxProfileSucceeded
      else
        let c := { c with m_data := { c.m_data with xboxApiToken := temp } }
        some (doXBoxProfile c)

/-- Lines 591-610. -/
def onXBoxProfileDone (c : Context) (error : NetworkError) : Option Context :=
  if error != NetworkError.NoError then failResult c .m_xboxProfileSucceeded
  else succeedResult c .m_xboxProfileSucceeded

def doMigrationEligibilityCheck (c : Context) : Context :=
  let c := setStage c AuthStage.MigrationEligibility
  let c := c.changeState .STATE_WORKING "Starting check for migration eligibility"
  c.emit (.request (.rolloutMsaMigration c.m_data.yggdrasilToken.token))

def doGetSkin (c : Context) : Context :=
  let c := setStage c AuthStage.Skin
  let c := c.changeState .STATE_WORKING "Fetching player skin"
  c.emit (.request (.skin c.m_data.minecraftProfile.skin.url))

def msgNoJavaProfile : String :=
  "Account is missing a Minecraft Java profile.\n\nWhile the Microsoft account is valid, " ++
    "it does not own the game.\n\nYou might own Bedrock on this account, but that does " ++
    "not give you access to Java currently."

/-- Lines 769-801. -/
def onMinecraftProfileDone (c : Context) (error : NetworkError)
    (data : Option QJsonDocument) : Option Context :=
  if error == NetworkError.ContentNotFoundError then do
    let c := { c with m_data := { c.m_data with minecraftProfile := MinecraftProfile.empty } }
    let c ← finishActivity c
    some (c.changeState .STATE_FAILED_HARD msgNoJavaProfile)
  else if error != NetworkError.NoError then do
    let c ← finishActivity c
    some (c.changeState .STATE_FAILED_HARD "Minecraft Java profile acquisition failed.")
  else
    let (ok, profile) := parseMinecraftProfile data c.m_data.minecraftProfile
    let c := { c with m_data := { c.m_data with minecraftProfile := profile } }
    if !ok then do
      let c := { c with m_data := { c.m_data with minecraftProfile := MinecraftProfile.empty } }
      let c ← finishActivity c
      some (c.changeState .STATE_FAILED_HARD
        "Minecraft Java profile response could not be parsed")
    else if c.m_data.type == AccountType.Mojang then some (doMigrationEligibilityCheck c)
    else some (doGetSkin c)

/-- Lines 847-856. -/
def onMigrationEligibilityCheckDone (c : Context) (error : NetworkError)
    (data : Option QJsonDocument) : Context :=
  let c :=
    if error == NetworkError.NoError then
      { c with m_data := { c.m_data with
        canMigrateToMSA := (parseRolloutResponse data c.m_data.canMigrateToMSA).2 } }
    else c
  doGetSkin c

/-- Lines 869-880; here `data` is the raw reply body. -/
def onSkinDone (c : Context) (error : NetworkError) (data : QByteArray) : Option Context :=
  let c :=
    if error == NetworkError.NoError then
      { c with m_data := { c.m_data with minecraftProfile :=
        { c.m_data.minecraftProfile with
          skin := { c.m_data.minecraftProfile.skin with data := data } } } }
    else c
  let c := { c with m_data := { c.m_data with validity_ := Validity.Certain } }
  do
    let c ← finishActivity c
    some (c.changeState .STATE_SUCCEEDED "Finished all authentication steps")

/-! ### Runs -/

/-- A network completion delivered to the task: the `finished` signal of one `AuthRequest`,
named after the slot it is connected to. -/
inductive Event where
  | userAuthDone (error : NetworkError) (replyData : Option QJsonDocument)
  | stsAuthMinecraftDone (error : NetworkError) (replyData : Option QJsonDocument)
  | minecraftAuthDone (now : Int) (error : NetworkError) (replyData : Option QJsonDocument)
  | stsAuthGenericDone (error : NetworkError) (replyData : Option QJsonDocument)
  | xboxProfileDone (error : NetworkError)
  | minecraftProfileDone (error : NetworkError) (data : Option QJsonDocument)
  | migrationEligibilityCheckDone (error : NetworkError) (data : Option QJsonDocument)
  | skinDone (error : NetworkError) (data : QByteArray)

/-- The slot that a completion runs. -/
def step (fromStringISO : String → QDateTime) (c : Context) : Event → Option Context
  | .userAuthDone error replyData => onUserAuthDone fromStringISO c error replyData
  | .stsAuthMinecraftDone error replyData =>
    onSTSAuthMinecraftDone fromStringISO c error replyData
  | .minecraftAuthDone now error replyData => onMinecraftAuthDone now c error replyData
  | .stsAuthGenericDone error replyData => onSTSAuthGenericDone fromStringISO c error replyData
  | .xboxProfileDone error => onXBoxProfileDone c error
  | .minecraftProfileDone error data => onMinecraftProfileDone c error data
  | .migrationEligibilityCheckDone error data =>
    some (onMigrationEligibilityCheckDone c error data)
  | .skinDone error data => onSkinDone c error data

/-- The completions of a list run one after the other, in the order of the list. -/
def run (fromStringISO : String → QDateTime) : Context → List Event → Option Context
  | c, [] => some c
  | c, ev :: rest =>
    match step fromStringISO c ev with
    | none => none
    | some c2 => run fromStringISO c2 rest

/-! ### The signals of the collaborators (lines 89-149) -/

/-- Lines 89-91. -/
def onMojangSucceeded (c : Context) : Context :=
  doMinecraftProfile c

/-- Lines 94-99; `state` is `m_yggdrasil->accountState()`. The members `m_error` and
`m_aborted`, which the handler copies from the Yggdrasil task, are read nowhere in this file
and are left out of the task. -/
def onMojangFailed (c : Context) (state : AccountTaskState) : Option Context := do
  let c ← finishActivity c
  some (c.changeState state "Mojang user authentication failed.")

/-- Lines 117-121. -/
def onOAuthLinkingFailedHard (c : Context) : Option Context := do
  let c := c.emit .hideVerificationUriAndCode
  let c ← finishActivity c
  some (c.changeState .STATE_FAILED_HARD "Microsoft user authentication failed.")

/-- Lines 123-128. -/
def onOAuthLinkingFailedSoft (c : Context) : Option Context := do
  let c := c.emit .hideVerificationUriAndCode
  let c ← finishActivity c
  some (c.changeState .STATE_FAILED_SOFT
    "Couldn't establish connection to Microsoft authentication server.")

/-- Lines 131-149; `linked` is `o2t->linked()`. -/
def onOAuthLinkingSucceeded (c : Context) (linked : Bool) : Option Context :=
  let c := c.emit .hideVerificationUriAndCode
  if !linked then do
    let c ← finishActivity c
    some (c.changeState .STATE_FAILED_HARD
      ("Microsoft user authentication ended with an impossible state " ++
        "(succeeded, but not succeeded at the same time)."))
  else some (doUserAuth c)

/-- A signal of the OAuth2 client or of the Yggdrasil task, named after the slot it is
connected to (lines 72-74 and 85-86), with what the slot reads from the sender. -/
inductive Signal where
  | oauthLinkingFailedHard
  | oauthLinkingFailedSoft
  | oauthLinkingSucceeded (linked : Bool)
  | mojangSucceeded
  | mojangFailed (state : AccountTaskState)
  deriving DecidableEq

/-- The slot that a signal of a collaborator runs. -/
def signal (c : Context) : Signal → Option Context
  | .oauthLinkingFailedHard => onOAuthLinkingFailedHard c
  | .oauthLinkingFailedSoft => onOAuthLinkingFailedSoft c
  | .oauthLinkingSucceeded linked => onOAuthLinkingSucceeded c linked
  | .mojangSucceeded => some (onMojangSucceeded c)
  | .mojangFailed state => onMojangFailed c state

/-- The slots that the `finished` signal of an `AuthRequest` is connected to. -/
inductive Slot where
  | onUserAuthDone
  | onSTSAuthMinecraftDone
  | onMinecraftAuthDone
  | onSTSAuthGenericDone
  | onXBoxProfileDone
  | onMinecraftProfileDone
  | onMigrationEligibilityCheckDone
  | onSkinDone
  deriving DecidableEq

/-- The slot that the request's `finished` signal is connected to where the request is
built (lines 176, 370, 440, 530, 586, 765, 813 and 865). -/
def Request.slot : Request → Slot
  | .userAuthenticate _ => .onUserAuthDone
  | .xstsAuthorizeMinecraft _ => .onSTSAuthMinecraftDone
  | .loginWithXbox _ _ => .onMinecraftAuthDone
  | .xstsAuthorizeGeneric _ => .onSTSAuthGenericDone
  | .xboxProfileSettings _ _ => .onXBoxProfileDone
  | .minecraftProfile _ => .onMinecraftProfileDone
  | .rolloutMsaMigration _ => .onMigrationEligibilityCheckDone
  | .skin _ => .onSkinDone

/-- The slot that a completion runs. -/
def Event.slot : Event → Slot
  | .userAuthDone _ _ => .onUserAuthDone
  | .stsAuthMinecraftDone _ _ => .onSTSAuthMinecraftDone
  | .minecraftAuthDone _ _ _ => .onMinecraftAuthDone
  | .stsAuthGenericDone _ _ => .onSTSAuthGenericDone
  | .xboxProfileDone _ => .onXBoxProfileDone
  | .minecraftProfileDone _ _ => .onMinecraftProfileDone
  | .migrationEligibilityCheckDone _ _ => .onMigrationEligibilityCheckDone
  | .skinDone _ _ => .onSkinDone

/-- The number of requests among the effects whose `finished` signal is connected to the
slot. -/
def issuedTo (es : List Effect) (k : Slot) : Nat :=
  es.countP (fun e =>
    match e with
    | .request r => r.slot == k
    | _ => false)

/-- Why a delivery does not happen: no request connected to the slot is in flight, or the
slot throws. -/
inductive Fault where
  | notInFlight
  | thrown
  deriving DecidableEq

/-- Modelled from the spec: `AuthRequest` is not in the source file; the transport client of
the spec answers each `post` or `get` with one result, so each request emits `finished`
once. A session is a task together with the requests in flight: for each slot, the number
of requests connected to it that were issued and whose `finished` signal was not delivered
yet. -/
structure Session where
  task : Context
  inFlight : Slot → Nat

/-- The session after the task went from `before` to `after`, answering the request of the
slot `answered` if there is one: the requests issued on the way are in flight. -/
def Session.advance (inFlight : Slot → Nat) (before after : Context) (answered : Option Slot) :
    Session :=
  { task := after,
    inFlight := fun k =>
      inFlight k - (if answered = some k then 1 else 0) +
        issuedTo (after.trace.drop before.trace.length) k }

/-- The start of a run: the signal of the collaborator arrives at a task with nothing in
flight. -/
def Session.start (c : Context) (sig : Signal) : Except Fault Session :=
  match signal c sig with
  | none => .error .thrown
  | some c2 => .ok (Session.advance (fun _ => 0) c c2 none)

/-- The delivery of one completion: it answers a request in flight. -/
def Session.deliver (fromStringISO : String → QDateTime) (s : Session) (ev : Event) :
    Except Fault Session :=
  if s.inFlight ev.slot = 0 then .error .notInFlight
  else
    match step fromStringISO s.task ev with
    | none => .error .thrown
    | some c2 => .ok (Session.advance s.inFlight s.task c2 (some ev.slot))

/-- The delivery of the completions of a list, in the order of the list. -/
def Session.deliverAll (fromStringISO : String → QDateTime) :
    Session → List Event → Except Fault Session
  | s, [] => .ok s
  | s, ev :: rest =>
    match Session.deliver fromStringISO s ev with
    | .error f => .error f
    | .ok s2 => Session.deliverAll fromStringISO s2 rest

/-- A run: the signal of the collaborator that starts it, and the network completions that
follow. -/
def session (fromStringISO : String → QDateTime) (c : Context) (sig : Signal)
    (evs : List Event) : Except Fault Session :=
  match Session.start c sig with
  | .error f => .error f
  | .ok s => Session.deliverAll fromStringISO s evs

/-! ## Definitions used to state the properties -/

/-- The items before the first object that has a `uhs` entry: every one of them is skipped
by the loop. -/
def SkippedItems (pre : List QJsonValue) : Prop :=
  ∀ o, QJsonValue.object o ∈ pre → QJsonObject.contains o "uhs" = false

/-- The value under `DisplayClaims.xui` of a document, as line 273 reads it. -/
def xuiValue (doc : QJsonDocument) : QJsonValue :=
  (doc.toObject.value "DisplayClaims").toObject.value "xui"

/-- The field `key` of the document is a string that `fromStringISO` reads as a valid
date-time. -/
def HasTimestamp (fromStringISO : String → QDateTime) (doc : QJsonDocument) (key : String) :
    Prop :=
  ∃ s t, doc.toObject.value key = .string s ∧ fromStringISO s = some t

/-- The field `key` of the document is a string. -/
def HasString (doc : QJsonDocument) (key : String) : Prop :=
  ∃ s, doc.toObject.value key = .string s

/-- The value under `DisplayClaims.xui` is an array with at least one object that has a
`uhs` entry. -/
def HasUhsClaims (doc : QJsonDocument) : Prop :=
  ∃ arr, xuiValue doc = .array arr ∧
    ∃ o, QJsonValue.object o ∈ arr ∧ QJsonObject.contains o "uhs" = true

/-- The claim mapping that copies an object whose values are all strings. -/
def claimOf (v : QJsonValue) : QVariant := .string v.toStr

/-- The token expires exactly `expires_in` seconds after it was issued (the dates are in
milliseconds). -/
def ExpiresExactly (t : Token) (expires_in : ℚ) : Prop :=
  ∃ a b : Int, t.issueInstant = some a ∧ t.notAfter = some b ∧ (b : ℚ) = a + 1000 * expires_in

/-- The invariant `expiresAt > issuedAt` of a token, both dates being valid. -/
def Token.expiresAfterIssued (t : Token) : Bool :=
  match t.issueInstant, t.notAfter with
  | some a, some b => decide (a < b)
  | _, _ => false

/-- The token a `login_with_xbox` reply is accepted into: the dates from the clock and
`expires_in`, the value from `access_token`, the claims as they were. -/
def accessTokenOf (now : Int) (output : Token) (expires_in : ℚ) (access_token : String) :
    Token :=
  { issueInstant := some now, notAfter := some (now + 1000 * truncToInt64 expires_in),
    token := access_token, extra := output.extra, validity := Validity.Certain }

/-- The `skins` list of a document, as line 699 reads it. -/
def skinsOf (doc : QJsonDocument) : List QJsonValue :=
  (doc.toObject.value "skins").toArray

/-- The `capes` list of a document, as line 723 reads it. -/
def capesOf (doc : QJsonDocument) : List QJsonValue :=
  (doc.toObject.value "capes").toArray

/-- The string under `key` of a list entry, empty when the entry has no such string. -/
def fieldOf (entry : QJsonValue) (key : String) : String :=
  (entry.toObject.value key).toStr

/-- The entry has a string under `key`. -/
def hasField (entry : QJsonValue) (key : String) : Bool :=
  (entry.toObject.value key).isString

/-- The entry's `state` is the string "ACTIVE" and its `id`, `url` and `variant` are
strings. -/
def isActiveSkin (entry : QJsonValue) : Bool :=
  hasField entry "state" && fieldOf entry "state" == "ACTIVE" && hasField entry "id" &&
    hasField entry "url" && hasField entry "variant"

/-- The skin with the entry's `id`, `url` and `variant`, and no image bytes. -/
def skinOf (entry : QJsonValue) : Skin :=
  { id := fieldOf entry "id", url := fieldOf entry "url", variant := fieldOf entry "variant",
    data := [] }

/-- The entry has string `id`, `url` and `alias`, whatever else it carries. -/
def hasCapeFields (entry : QJsonValue) : Bool :=
  hasField entry "id" && hasField entry "url" && hasField entry "alias"

/-- The entry has string `id`, `state`, `url` and `alias`. -/
def isStoredCape (entry : QJsonValue) : Bool :=
  hasField entry "id" && hasField entry "state" && hasField entry "url" &&
    hasField entry "alias"

/-- The cape with the entry's `id`, `url` and `alias`. -/
def capeOf (entry : QJsonValue) : Cape :=
  { id := fieldOf entry "id", url := fieldOf entry "url", alias_ := fieldOf entry "alias" }

/-- The entry has a string `id` and its `state` is the string "ACTIVE". -/
def isActiveCape (entry : QJsonValue) : Bool :=
  hasField entry "id" && hasField entry "state" && fieldOf entry "state" == "ACTIVE"

/-- What one round of the loop over `capes` does to its state. -/
def capeStep (st : String × MinecraftProfile) (entry : QJsonValue) :
    String × MinecraftProfile :=
  (if isActiveCape entry then fieldOf entry "id" else st.1,
   if isStoredCape entry then
     { st.2 with capes := st.2.capes.insert (fieldOf entry "id") (capeOf entry) }
   else st.2)

/-- The message the classifier table gives for one recorded upstream error code. -/
def classifiedMessage (code : Int) : String :=
  if code = 2148916233 then msgNoXboxProfile
  else if code = 2148916235 then msgRegionBlocked
  else if code = 2148916238 then msgUnderage
  else "XSTS authentication ended with unrecognized error(s):\n\n" ++ toString code

/-- The flag `stsFailed` is set exactly when an upstream error code is on record, which is how
`processSTSError` leaves the two. -/
def StsConsistent (c : Context) : Prop :=
  c.stsFailed = true ↔ c.stsErrors ≠ []

/-- The integer fits a signed 64-bit integer. -/
def fitsInt64 (x : Int) : Prop :=
  -9223372036854775808 ≤ x ∧ x ≤ 9223372036854775807

/-- The conversion of `expires_in` to whole seconds and the additions of `addSecs` stay
within 64 bits, the range on which the C++ arithmetic is defined. -/
def ExpiryInRange (now : Int) (expires_in : ℚ) : Prop :=
  fitsInt64 (truncToInt64 expires_in) ∧ fitsInt64 (1000 * truncToInt64 expires_in) ∧
    fitsInt64 (now + 1000 * truncToInt64 expires_in)

/-- The completions from the profile reply to the skin reply: the migration check runs in
between exactly when the account is a Mojang account. -/
def profileToSkinEvents (type : AccountType) (profileData : Option QJsonDocument)
    (migrationError : NetworkError) (migrationData : Option QJsonDocument)
    (skinError : NetworkError) (skinData : QByteArray) : List Event :=
  [.minecraftProfileDone .NoError profileData] ++
    (if type = AccountType.Mojang then
      [.migrationEligibilityCheckDone migrationError migrationData]
    else []) ++
    [.skinDone skinError skinData]

/-- The user hash that a branch token is compared with: what `userToken.extra["uhs"]`
reads. -/
def Context.userUhs (c : Context) : QVariant :=
  (c.m_data.userToken.extra.index "uhs").1

/-- An XSTS reply lets its branch go on: no transport error, a reply that
parseXTokenResponse accepts, and a `uhs` claim equal to the user hash `uhs`. -/
def stsAccepted (fromStringISO : String → QDateTime) (uhs : QVariant) (error : NetworkError)
    (replyData : Option QJsonDocument) : Bool :=
  error == NetworkError.NoError &&
    (parseXTokenResponse fromStringISO replyData Token.empty).1 &&
    ((parseXTokenResponse fromStringISO replyData Token.empty).2.extra.index "uhs").1 == uhs

/-- The completion belongs to Branch A. -/
def Event.isBranchA : Event → Bool
  | .stsAuthMinecraftDone _ _ => true
  | .minecraftAuthDone _ _ _ => true
  | _ => false

/-- The completion belongs to Branch B. -/
def Event.isBranchB : Event → Bool
  | .stsAuthGenericDone _ _ => true
  | .xboxProfileDone _ => true
  | _ => false

/-- The flag that a completion of Branch A or Branch B reports into. -/
def Event.flag (ev : Event) : Flag :=
  if ev.isBranchA then Flag.m_mcAuthSucceeded else Flag.m_xboxProfileSucceeded

/-- The report that a branch completion ends with: `some true` for `succeedResult`,
`some false` for `failResult`, `none` when the handler issues the next request of its branch
instead. It depends on the task through the user hash only. -/
def Event.report (fromStringISO : String → QDateTime) (uhs : QVariant) : Event → Option Bool
  | .stsAuthMinecraftDone error replyData =>
    if stsAccepted fromStringISO uhs error replyData then none else some false
  | .minecraftAuthDone now error replyData =>
    some (error == NetworkError.NoError && (parseMojangResponse now replyData Token.empty).1)
  | .stsAuthGenericDone error replyData =>
    if stsAccepted fromStringISO uhs error replyData then none else some false
  | .xboxProfileDone error => some (error == NetworkError.NoError)
  | _ => none

/-- What the handler of a branch completion does to the task before it reports or returns:
the handler's code without its call of `succeedResult` or `failResult`. -/
def Event.effect (fromStringISO : String → QDateTime) (c : Context) : Event → Context
  | .stsAuthMinecraftDone error replyData =>
    if error != NetworkError.NoError then processSTSError c error replyData
    else
      let (ok, temp) := parseXTokenResponse fromStringISO replyData Token.empty
      if !ok then c
      else
        let (tempUhs, tempExtra) := temp.extra.index "uhs"
        let temp := { temp with extra := tempExtra }
        let (userUhs, userExtra) := c.m_data.userToken.extra.index "uhs"
        let c := { c with m_data := { c.m_data with
          userToken := { c.m_data.userToken with extra := userExtra } } }
        if tempUhs != userUhs then c
        else doMinecraftAuth { c with m_data := { c.m_data with mojangservicesToken := temp } }
  | .minecraftAuthDone now error replyData =>
    if error != NetworkError.NoError then c
    else
      { c with m_data := { c.m_data with
        yggdrasilToken := (parseMojangResponse now replyData c.m_data.yggdrasilToken).2 } }
  | .stsAuthGenericDone error replyData =>
    if error != NetworkError.NoError then processSTSError c error replyData
    else
      let (ok, temp) := parseXTokenResponse fromStringISO replyData Token.empty
      if !ok then c
      else
        let (tempUhs, tempExtra) := temp.extra.index "uhs"
        let temp := { temp with extra := tempExtra }
        let (userUhs, userExtra) := c.m_data.userToken.extra.index "uhs"
        let c := { c with m_data := { c.m_data with
          userToken := { c.m_data.userToken with extra := userExtra } } }
        if tempUhs != userUhs then c
        else doXBoxProfile { c with m_data := { c.m_data with xboxApiToken := temp } }
  | _ => c

/-- The two assignments at the head of `succeedResult` and `failResult`. -/
def Context.countResult (c : Context) (flag : Flag) (b : Bool) : Context :=
  ({ c with m_requestsDone := c.m_requestsDone + 1 }).setFlag flag b

/-- A branch completion without the join: the handler's effect and, when it reports, the
count and the flag, but not the call of `checkResult`. -/
def stepBeforeJoin (fromStringISO : String → QDateTime) (c : Context) (ev : Event) : Context :=
  match ev.report fromStringISO c.userUhs with
  | none => ev.effect fromStringISO c
  | some b => (ev.effect fromStringISO c).countResult ev.flag b

/-- The request is one that a branch issues for its second step. -/
def Effect.isBranchRequest : Effect → Bool
  | .request (.loginWithXbox _ _) => true
  | .request (.xboxProfileSettings _ _) => true
  | _ => false

/-- The completions of two branches merged into one sequence: each branch keeps its own
order, and the two may alternate in any way. -/
inductive Interleaving : List Event → List Event → List Event → Prop where
  | nil : Interleaving [] [] []
  | left (a : Event) {as bs l : List Event} :
      Interleaving as bs l → Interleaving (a :: as) bs (a :: l)
  | right (b : Event) {as bs l : List Event} :
      Interleaving as bs l → Interleaving as (b :: bs) (b :: l)

/-- The list is what remains of a branch: nothing, or completions of which the last one
reports and no earlier one does. -/
def branchRest (fromStringISO : String → QDateTime) (uhs : QVariant) : List Event → Bool
  | [] => true
  | [ev] => (ev.report fromStringISO uhs).isSome
  | ev :: rest => (ev.report fromStringISO uhs).isNone && branchRest fromStringISO uhs rest

/-- The replies that Branch A can receive: the one to its XSTS request, and the one to its
`login_with_xbox` request with the clock value at its arrival. -/
structure BranchAReplies where
  stsError : NetworkError
  stsReply : Option QJsonDocument
  now : Int
  loginError : NetworkError
  loginReply : Option QJsonDocument

/-- The replies that Branch B can receive: the one to its XSTS request, and the outcome of
its Xbox profile request. -/
structure BranchBReplies where
  stsError : NetworkError
  stsReply : Option QJsonDocument
  profileError : NetworkError

/-- The completions that Branch A delivers: the second request is issued, and so its reply
delivered, only when the XSTS reply lets the branch go on. -/
def branchAEvents (fromStringISO : String → QDateTime) (uhs : QVariant) (a : BranchAReplies) :
    List Event :=
  .stsAuthMinecraftDone a.stsError a.stsReply ::
    (if stsAccepted fromStringISO uhs a.stsError a.stsReply then
      [.minecraftAuthDone a.now a.loginError a.loginReply]
    else [])

/-- The completions that Branch B delivers. -/
def branchBEvents (fromStringISO : String → QDateTime) (uhs : QVariant) (b : BranchBReplies) :
    List Event :=
  .stsAuthGenericDone b.stsError b.stsReply ::
    (if stsAccepted fromStringISO uhs b.stsError b.stsReply then
      [.xboxProfileDone b.profileError]
    else [])

/-- The number of branches that have finished, in terms of what remains of each: the value
of the completion counter during the fork. -/
def finishedBranches (as bs : List Event) : Int :=
  (if as.isEmpty then 1 else 0) + (if bs.isEmpty then 1 else 0)

/-- The code that `processSTSError` reads from an XSTS error reply, if it reads one: the
transport error is the authentication-required one and the body has a numeric `XErr`. -/
def xerrOf (error : NetworkError) (data : Option QJsonDocument) : Option Int :=
  if error == NetworkError.AuthenticationRequiredError then
    match data with
    | none => none
    | some doc =>
      if (doc.toObject.value "XErr").isDouble then
        some (castInt64 (doc.toObject.value "XErr").toDouble)
      else none
  else none

/-- Two tasks that differ at most in the order in which the recorded codes are listed and
in the trace of what was emitted. -/
def Context.Agree (c1 c2 : Context) : Prop :=
  c1.m_data = c2.m_data ∧ c1.m_activity = c2.m_activity ∧ c1.m_stage = c2.m_stage ∧
    c1.m_accountState = c2.m_accountState ∧ c1.m_stateMessage = c2.m_stateMessage ∧
    c1.m_requestsDone = c2.m_requestsDone ∧
    c1.m_mcAuthSucceeded = c2.m_mcAuthSucceeded ∧
    c1.m_xboxProfileSucceeded = c2.m_xboxProfileSucceeded ∧
    c1.stsErrors.Perm c2.stsErrors ∧ c1.stsFailed = c2.stsFailed

/-- Branch A ends with a success report: its XSTS reply lets it go on, and the reply to
`login_with_xbox` has no transport error and is accepted by parseMojangResponse. -/
def branchASucceeds (fromStringISO : String → QDateTime) (uhs : QVariant)
    (a : BranchAReplies) : Bool :=
  stsAccepted fromStringISO uhs a.stsError a.stsReply &&
    (a.loginError == NetworkError.NoError &&
      (parseMojangResponse a.now a.loginReply Token.empty).1)

/-- Branch B ends with a success report: its XSTS reply lets it go on, and the Xbox profile
request has no transport error. -/
def branchBSucceeds (fromStringISO : String → QDateTime) (uhs : QVariant)
    (b : BranchBReplies) : Bool :=
  stsAccepted fromStringISO uhs b.stsError b.stsReply &&
    (b.profileError == NetworkError.NoError)

/-- Two terminal messages of the same category: the same message, or two messages for
unrecognized codes that list the same codes in a different order. -/
def SameCategory (m1 m2 : String) : Prop :=
  m1 = m2 ∨ ∃ l1 l2 : List String, l1.Perm l2 ∧ m1 = msgUnrecognized l1 ∧
    m2 = msgUnrecognized l2

/-- Two tasks after the join with the same outcome: the same bundle, activity, stage, run
state, counter and flags, the same recorded codes up to their order, and terminal messages
of the same category. -/
def Context.SameOutcome (c1 c2 : Context) : Prop :=
  c1.m_data = c2.m_data ∧ c1.m_activity = c2.m_activity ∧ c1.m_stage = c2.m_stage ∧
    c1.m_accountState = c2.m_accountState ∧ SameCategory c1.m_stateMessage c2.m_stateMessage ∧
    c1.m_requestsDone = c2.m_requestsDone ∧
    c1.m_mcAuthSucceeded = c2.m_mcAuthSucceeded ∧
    c1.m_xboxProfileSucceeded = c2.m_xboxProfileSucceeded ∧
    c1.stsErrors.Perm c2.stsErrors ∧ c1.stsFailed = c2.stsFailed

/-- The upstream code that a branch completion records, if it records one. -/
def Event.errorCode : Event → Option Int
  | .stsAuthMinecraftDone error replyData => xerrOf error replyData
  | .stsAuthGenericDone error replyData => xerrOf error replyData
  | _ => none

/-- The effect is the request that Branch A issues for its second step. -/
def Effect.isLoginRequest : Effect → Bool
  | .request (.loginWithXbox _ _) => true
  | _ => false

/-- The effect is the request that Branch B issues for its second step. -/
def Effect.isXboxProfileRequest : Effect → Bool
  | .request (.xboxProfileSettings _ _) => true
  | _ => false

/-- The completion is an XSTS reply of Branch A that lets the branch go on. -/
def Event.startsLogin (fromStringISO : String → QDateTime) (uhs : QVariant) : Event → Bool
  | .stsAuthMinecraftDone error replyData => stsAccepted fromStringISO uhs error replyData
  | _ => false

/-- The completion is an XSTS reply of Branch B that lets the branch go on. -/
def Event.startsXboxProfile (fromStringISO : String → QDateTime) (uhs : QVariant) :
    Event → Bool
  | .stsAuthGenericDone error replyData => stsAccepted fromStringISO uhs error replyData
  | _ => false

/-- The calls of `processSTSError` of a list of XSTS error replies, one after the other. -/
def processSTSErrors (c : Context) (replies : List (NetworkError × Option QJsonDocument)) :
    Context :=
  replies.foldl (fun c2 r => processSTSError c2 r.1 r.2) c

/-- The `uhs` claim of a token, as `extra["uhs"]` reads it. -/
def Token.uhs (t : Token) : QVariant :=
  (t.extra.index "uhs").1

/-- The requests in flight when at most one request of each of two sequences is: one
request for each slot named, none for the others. -/
def flight (pa pb : Option Slot) : Slot → Nat :=
  fun k => (if pa = some k then 1 else 0) + (if pb = some k then 1 else 0)

/-- The stage indices of the progress updates among the effects, in the order emitted. -/
def progressOf (es : List Effect) : List Int :=
  es.filterMap (fun e =>
    match e with
    | .progress i _ => some i
    | _ => none)

/-- The progress updates emitted so far do not decrease, none of them is beyond the stage
the task is in, and each carries the index of the final stage as its total. -/
def ProgressOK (es : List Effect) (stage : AuthStage) : Prop :=
  (progressOf es).Pairwise (fun i j => i ≤ j) ∧
    (∀ i ∈ progressOf es, 0 ≤ i ∧ i ≤ stage.toInt) ∧
    ∀ i t, Effect.progress i t ∈ es → t = AuthStage.Complete.toInt

/-- Branch A's token is stored with the user hash `u`, and every `login_with_xbox` request
among the effects carries `u` and the value of that token. -/
def StoredA (es : List Effect) (c : Context) (u : String) : Prop :=
  c.m_data.mojangservicesToken.uhs = .string u ∧
    ∀ u2 t, Effect.request (.loginWithXbox u2 t) ∈ es →
      u2 = u ∧ t = c.m_data.mojangservicesToken.token

/-- Branch B's token is stored with the user hash `u`, and every Xbox profile request among
the effects carries `u` and the value of that token. -/
def StoredB (es : List Effect) (c : Context) (u : String) : Prop :=
  c.m_data.xboxApiToken.uhs = .string u ∧
    ∀ u2 t, Effect.request (.xboxProfileSettings u2 t) ∈ es →
      u2 = u ∧ t = c.m_data.xboxApiToken.token

/-- The user token and the two branch tokens carry one user hash, a string, and the
requests of the two branches' second steps among the effects carry that hash with the value
of their branch's token. -/
def UhsAgree (es : List Effect) (c : Context) : Prop :=
  ∃ u, c.m_data.userToken.uhs = .string u ∧ StoredA es c u ∧ StoredB es c u

/-- A task on which a run has just begun: busy, at the initial stage, with nothing
counted. -/
def Fresh (c : Context) : Prop :=
  c.m_stage = AuthStage.Initial ∧ c.isBusy = true ∧ c.m_requestsDone = 0

/-- The run state `state` is one that a failing run started by the signal ends in. -/
def Signal.failsWith (sig : Signal) (state : AccountTaskState) : Prop :=
  state = AccountTaskState.STATE_FAILED_HARD ∨
    (sig = Signal.oauthLinkingFailedSoft ∧ state = AccountTaskState.STATE_FAILED_SOFT) ∨
    sig = Signal.mojangFailed state

/-- What holds of a task at each stage of a run that the signal `sig` started from the task
`start`: which requests are in flight (`pa` and `pb`), and what the bundle holds. -/
def StageInv (start : Context) (sig : Signal) (es : List Effect) (c : Context)
    (pa pb : Option Slot) : Prop :=
  match c.m_stage with
  | .Initial => False
  | .UserAuth =>
    pa = some Slot.onUserAuthDone ∧ pb = none ∧ c.isBusy = true ∧ c.m_requestsDone = 0 ∧
      c.m_data.minecraftProfile = start.m_data.minecraftProfile ∧
      ∀ e ∈ es, Effect.isBranchRequest e = false
  | .XboxAuth =>
    c.isBusy = true ∧ c.m_data.minecraftProfile = start.m_data.minecraftProfile ∧
      (pa = none ∨ pa = some Slot.onSTSAuthMinecraftDone ∨
        pa = some Slot.onMinecraftAuthDone) ∧
      (pb = none ∨ pb = some Slot.onSTSAuthGenericDone ∨ pb = some Slot.onXBoxProfileDone) ∧
      ¬ (pa = none ∧ pb = none) ∧
      c.m_requestsDone = (if pa = none then 1 else 0) + (if pb = none then 1 else 0) ∧
      ∃ u, c.m_data.userToken.uhs = .string u ∧
        (pa = some Slot.onSTSAuthMinecraftDone →
          ∀ e ∈ es, Effect.isLoginRequest e = false) ∧
        (pa = some Slot.onMinecraftAuthDone ∨ (pa = none ∧ c.m_mcAuthSucceeded = true) →
          StoredA es c u) ∧
        (pb = some Slot.onSTSAuthGenericDone →
          ∀ e ∈ es, Effect.isXboxProfileRequest e = false) ∧
        (pb = some Slot.onXBoxProfileDone ∨ (pb = none ∧ c.m_xboxProfileSucceeded = true) →
          StoredB es c u)
  | .MinecraftProfile =>
    pa = some Slot.onMinecraftProfileDone ∧ pb = none ∧ c.isBusy = true ∧
      c.m_data.minecraftProfile = start.m_data.minecraftProfile ∧
      (sig = Signal.mojangSucceeded ∨ UhsAgree es c)
  | .MigrationEligibility =>
    pa = some Slot.onMigrationEligibilityCheckDone ∧ pb = none ∧ c.isBusy = true ∧
      c.m_data.minecraftProfile.validity = Validity.Certain ∧
      (sig = Signal.mojangSucceeded ∨ UhsAgree es c)
  | .Skin =>
    pa = some Slot.onSkinDone ∧ pb = none ∧ c.isBusy = true ∧
      c.m_data.minecraftProfile.validity = Validity.Certain ∧
      (sig = Signal.mojangSucceeded ∨ UhsAgree es c)
  | .Complete =>
    pa = none ∧ pb = none ∧ c.isBusy = false ∧
      ((c.m_accountState = AccountTaskState.STATE_SUCCEEDED ∧
          c.m_data.validity_ = Validity.Certain ∧
          (sig = Signal.mojangSucceeded ∨ UhsAgree es c)) ∨
        (sig.failsWith c.m_accountState ∧
          (c.m_data.validity_ = start.m_data.minecraftProfile.validity ∨
            c.m_data.validity_ = Validity.Invalid)))

/-- The invariant of a run that the signal `sig` started from the task `start`: the trace
extends the one of `start` by effects whose progress updates are in order, and the stage
agrees with the requests in flight and with the bundle. -/
def Session.Inv (start : Context) (sig : Signal) (s : Session) : Prop :=
  ∃ es pa pb, s.task.trace = start.trace ++ es ∧ s.inFlight = flight pa pb ∧
    ProgressOK es s.task.m_stage ∧ StageInv start sig es s.task pa pb

/-- The task `c2` is what `finishActivity` followed by `changeState(state, ...)` makes of
the task `c`, whatever the message. -/
def EndsFrom (c c2 : Context) (state : AccountTaskState) : Prop :=
  c2.m_stage = AuthStage.Complete ∧ c2.m_activity = Activity.Idle ∧
    c2.m_accountState = state ∧
    c2.m_data = { c.m_data with validity_ := c.m_data.minecraftProfile.validity } ∧
    c2.trace = c.trace ++ [.progress AuthStage.Complete.toInt AuthStage.Complete.toInt,
      .activityChanged Activity.Idle, .stateChanged state c2.m_stateMessage]

/-- The stage during which a request connected to the slot is in flight. -/
def Slot.stage : Slot → AuthStage
  | .onUserAuthDone => AuthStage.UserAuth
  | .onSTSAuthMinecraftDone => AuthStage.XboxAuth
  | .onMinecraftAuthDone => AuthStage.XboxAuth
  | .onSTSAuthGenericDone => AuthStage.XboxAuth
  | .onXBoxProfileDone => AuthStage.XboxAuth
  | .onMinecraftProfileDone => AuthStage.MinecraftProfile
  | .onMigrationEligibilityCheckDone => AuthStage.MigrationEligibility
  | .onSkinDone => AuthStage.Skin

/-! ## Sample payloads -/

/-- The sample reply of the comment at lines 222-235, with whole seconds in the dates. -/
def sampleXToken : QJsonDocument :=
  .object [("IssueInstant", .string "2020-12-07T19:52:08Z"),
    ("NotAfter", .string "2020-12-21T19:52:08Z"),
    ("Token", .string "token"),
    ("DisplayClaims", .object [("xui", .array [.object [("uhs", .string "userhash")]])])]

/-- The sample reply with an empty `xui` list. -/
def sampleXTokenNoClaims : QJsonDocument :=
  .object [("IssueInstant", .string "2020-12-07T19:52:08Z"),
    ("NotAfter", .string "2020-12-21T19:52:08Z"),
    ("Token", .string "token"),
    ("DisplayClaims", .object [("xui", .array [])])]

/-- A reply whose first object with `uhs` carries a number, followed by a well-formed
entry. -/
def sampleXTokenBadClaim : QJsonDocument :=
  .object [("IssueInstant", .string "2020-12-07T19:52:08Z"),
    ("NotAfter", .string "2020-12-21T19:52:08Z"),
    ("Token", .string "token"),
    ("DisplayClaims", .object [("xui", .array [.null, .object [("gtg", .string "tag")],
      .object [("agg", .double 18), ("uhs", .string "userhash")],
      .object [("uhs", .string "userhash")]])])]

/-- The rational 3/2, the value of the JSON number `1.5`. -/
def oneAndAHalf : ℚ := Rat.mk' 3 2 (by decide) (by decide)

/-- A `login_with_xbox` reply with a fractional `expires_in`. -/
def sampleMojangFraction : QJsonDocument :=
  .object [("username", .string "some uuid"), ("access_token", .string "jwt"),
    ("token_type", .string "Bearer"), ("expires_in", .double oneAndAHalf)]

/-- A `login_with_xbox` reply with the usual whole `expires_in`. -/
def sampleMojang : QJsonDocument :=
  .object [("username", .string "some uuid"), ("access_token", .string "jwt"),
    ("token_type", .string "Bearer"), ("expires_in", .double 86400)]

/-- A `login_with_xbox` reply that expires at once. -/
def sampleMojangZero : QJsonDocument :=
  .object [("username", .string "some uuid"), ("access_token", .string "jwt"),
    ("token_type", .string "Bearer"), ("expires_in", .double 0)]

/-- The sample service-token reply with its two dates exchanged. -/
def sampleXTokenReversed : QJsonDocument :=
  .object [("IssueInstant", .string "2020-12-21T19:52:08Z"),
    ("NotAfter", .string "2020-12-07T19:52:08Z"),
    ("Token", .string "token"),
    ("DisplayClaims", .object [("xui", .array [.object [("uhs", .string "userhash")]])])]

/-- A profile reply with two skins, the second one active, and two capes. -/
def sampleProfile : QJsonDocument :=
  .object [("id", .string "986dec87b7ec47ff89ff033fdb95c4b5"), ("name", .string "HowDoesAuthWork"),
    ("skins", .array [
      .object [("id", .string "s0"), ("state", .string "INACTIVE"),
        ("url", .string "http://textures.minecraft.net/texture/0"), ("variant", .string "SLIM")],
      .object [("id", .string "s1"), ("state", .string "ACTIVE"),
        ("url", .string "http://textures.minecraft.net/texture/1"),
        ("variant", .string "CLASSIC")]]),
    ("capes", .array [
      .object [("id", .string "c0"), ("state", .string "ACTIVE"),
        ("url", .string "http://textures.minecraft.net/texture/c0"),
        ("alias", .string "Migrator")],
      .object [("id", .string "c1"), ("state", .string "INACTIVE"),
        ("url", .string "http://textures.minecraft.net/texture/c1"),
        ("alias", .string "Vanilla")]])]

/-- A profile reply whose only cape has `id`, `url` and `alias` but no `state`. -/
def sampleProfileCapeNoState : QJsonDocument :=
  .object [("id", .string "986dec87b7ec47ff89ff033fdb95c4b5"), ("name", .string "HowDoesAuthWork"),
    ("capes", .array [
      .object [("id", .string "c1"),
        ("url", .string "http://textures.minecraft.net/texture/c1"),
        ("alias", .string "Migrator")]])]

/-- A profile reply whose only cape is active but has neither `url` nor `alias`. -/
def sampleProfileActiveCapeDropped : QJsonDocument :=
  .object [("id", .string "986dec87b7ec47ff89ff033fdb95c4b5"), ("name", .string "HowDoesAuthWork"),
    ("capes", .array [.object [("id", .string "c1"), ("state", .string "ACTIVE")]])]

/-- The rollout reply for an eligible account. -/
def sampleRollout : QJsonDocument :=
  .object [("feature", .string "msamigration"), ("rollout", .bool true)]

/-- Account data with nothing in it yet. -/
def sampleAccountData : AccountData :=
  { type := AccountType.MSA, msaToken := Token.empty, userToken := Token.empty,
    xboxApiToken := Token.empty, mojangservicesToken := Token.empty,
    yggdrasilToken := Token.empty, minecraftProfile := MinecraftProfile.empty,
    canMigrateToMSA := false, validity_ := Validity.Unknown }

/-- A task in the XboxAuth stage after both branches have reported, Branch A having failed,
with the given upstream error codes on record. -/
def sampleJoin (stsErrors : List Int) (stsFailed : Bool) : Context :=
  { m_data := sampleAccountData, m_activity := Activity.LoggingIn,
    m_stage := AuthStage.XboxAuth, m_accountState := AccountTaskState.STATE_WORKING,
    m_stateMessage := "Starting XBox authentication", m_requestsDone := 2,
    m_mcAuthSucceeded := false, m_xboxProfileSucceeded := true,
    stsErrors := stsErrors, stsFailed := stsFailed, trace := [] }

/-- The user token read from the sample reply. -/
def sampleUserToken : Token :=
  (parseXTokenResponse isoDateTimeUTC (some sampleXToken) Token.empty).2

/-- A task right after the user token was stored and the two branch requests were issued:
no branch has reported and no upstream error is on record. -/
def sampleFork : Context :=
  { m_data := { sampleAccountData with userToken := sampleUserToken },
    m_activity := Activity.LoggingIn, m_stage := AuthStage.XboxAuth,
    m_accountState := AccountTaskState.STATE_WORKING,
    m_stateMessage := "Starting XBox authentication", m_requestsDone := 0,
    m_mcAuthSucceeded := false, m_xboxProfileSucceeded := false,
    stsErrors := [], stsFailed := false, trace := [] }

/-- The body of an XSTS error reply with the given `XErr`. -/
def sampleXErr (code : ℚ) : QJsonDocument :=
  .object [("Identity", .string "0"), ("XErr", .double code), ("Message", .string "")]

/-- A busy task waiting for the reply to the user-authentication request. -/
def sampleUserAuth : Context :=
  doUserAuth
    { m_data := sampleAccountData, m_activity := Activity.LoggingIn,
      m_stage := AuthStage.Initial, m_accountState := AccountTaskState.STATE_WORKING,
      m_stateMessage := "Initializing", m_requestsDone := 0,
      m_mcAuthSucceeded := false, m_xboxProfileSucceeded := false,
      stsErrors := [], stsFailed := false, trace := [] }

/-- A task that no run is using. -/
def sampleIdle : Context :=
  { m_data := sampleAccountData, m_activity := Activity.Idle,
    m_stage := AuthStage.Initial, m_accountState := AccountTaskState.STATE_CREATED,
    m_stateMessage := "", m_requestsDone := 0,
    m_mcAuthSucceeded := false, m_xboxProfileSucceeded := false,
    stsErrors := [], stsFailed := false, trace := [] }

/-- Replies of Branch A whose XSTS call fails with the given upstream code. -/
def sampleBranchAFails (code : ℚ) : BranchAReplies :=
  { stsError := NetworkError.AuthenticationRequiredError, stsReply := some (sampleXErr code),
    now := 1607370728000, loginError := NetworkError.NoError, loginReply := some sampleMojang }

/-- Replies of Branch A that succeeds. -/
def sampleBranchA : BranchAReplies :=
  { stsError := NetworkError.NoError, stsReply := some sampleXToken,
    now := 1607370728000, loginError := NetworkError.NoError, loginReply := some sampleMojang }

/-- Replies of Branch B that succeeds. -/
def sampleBranchB : BranchBReplies :=
  { stsError := NetworkError.NoError, stsReply := some sampleXToken,
    profileError := NetworkError.NoError }

/-- An order of arrival in which Branch A's failing XSTS reply comes between the two
completions of Branch B. -/
def sampleArrival (code : ℚ) : List Event :=
  [.stsAuthGenericDone NetworkError.NoError (some sampleXToken),
    .stsAuthMinecraftDone NetworkError.AuthenticationRequiredError (some (sampleXErr code)),
    .xboxProfileDone NetworkError.NoError]

/-- A well-formed service-token reply whose `uhs` claim is the hash of another user. -/
def sampleXTokenOtherUser : QJsonDocument :=
  .object [("IssueInstant", .string "2020-12-07T19:52:08Z"),
    ("NotAfter", .string "2020-12-21T19:52:08Z"),
    ("Token", .string "token"),
    ("DisplayClaims", .object [("xui", .array [.object [("uhs", .string "otherhash")]])])]

/-- Replies of Branch A whose XSTS reply carries the hash of another user. -/
def sampleBranchAOtherUser : BranchAReplies :=
  { sampleBranchA with stsReply := some sampleXTokenOtherUser }

/-- Replies of Branch B whose XSTS reply carries the hash of another user. -/
def sampleBranchBOtherUser : BranchBReplies :=
  { sampleBranchB with stsReply := some sampleXTokenOtherUser }

/-- An order of arrival of two XSTS replies that both carry the hash of another user:
Branch B's first. -/
def sampleArrivalOtherUser : List Event :=
  [.stsAuthGenericDone NetworkError.NoError (some sampleXTokenOtherUser),
    .stsAuthMinecraftDone NetworkError.NoError (some sampleXTokenOtherUser)]

/-- A profile reply whose `name` is a number. -/
def sampleProfileBadName : QJsonDocument :=
  .object [("id", .string "986dec87b7ec47ff89ff033fdb95c4b5"), ("name", .double 7)]

/-- The sample task at the profile stage, for an account of the given type. -/
def sampleAtProfile (type : AccountType) : Context :=
  doMinecraftProfile { sampleFork with m_data := { sampleFork.m_data with type := type } }

/-- A game-service access token that an earlier run stored in the bundle. -/
def sampleOldToken : Token :=
  { issueInstant := some 1600000000000, notAfter := some 1600086400000, token := "old jwt",
    extra := [], validity := Validity.Certain }

/-- A `login_with_xbox` reply with a numeric `expires_in` and no `username`. -/
def sampleMojangNoUsername : QJsonDocument :=
  .object [("access_token", .string "jwt"), ("token_type", .string "Bearer"),
    ("expires_in", .double 86400)]

/-- The sample task during the fork, its bundle holding the access token of an earlier
run. -/
def sampleRefresh : Context :=
  { sampleFork with m_data := { sampleFork.m_data with yggdrasilToken := sampleOldToken } }

/-- A task on which `beginActivity` has just run: the stage is the initial one, nothing was
counted and nothing is in the bundle. -/
def sampleStart (type : AccountType) : Context :=
  { m_data := { sampleAccountData with type := type }, m_activity := Activity.LoggingIn,
    m_stage := AuthStage.Initial, m_accountState := AccountTaskState.STATE_WORKING,
    m_stateMessage := "Initializing", m_requestsDone := 0,
    m_mcAuthSucceeded := false, m_xboxProfileSucceeded := false,
    stsErrors := [], stsFailed := false, trace := [] }

/-- The completions of a run in which every request succeeds, Branch B's XSTS reply
arriving first and Branch A's login reply last. -/
def sampleCompletions : List Event :=
  [.userAuthDone NetworkError.NoError (some sampleXToken),
    .stsAuthGenericDone NetworkError.NoError (some sampleXToken),
    .stsAuthMinecraftDone NetworkError.NoError (some sampleXToken),
    .xboxProfileDone NetworkError.NoError,
    .minecraftAuthDone 1607370728000 NetworkError.NoError (some sampleMojang),
    .minecraftProfileDone NetworkError.NoError (some sampleProfile),
    .skinDone NetworkError.NoError [137, 80, 78, 71]]

/-- A profile reply that names no skin. -/
def sampleProfileNoSkin : QJsonDocument :=
  .object [("id", .string "986dec87b7ec47ff89ff033fdb95c4b5"), ("name", .string "HowDoesAuthWork"),
    ("skins", .array []), ("capes", .array [])]

/-- The skin that an earlier run left in the bundle, with its image bytes. -/
def sampleOldSkin : Skin :=
  { id := "s1", url := "http://textures.minecraft.net/texture/1", variant := "CLASSIC",
    data := [1, 2, 3] }

/-- A profile that an earlier run left in the bundle, with the bytes of its skin. -/
def sampleOldProfile : MinecraftProfile :=
  { id := "986dec87b7ec47ff89ff033fdb95c4b5", name := "HowDoesAuthWork",
    skin := sampleOldSkin, currentCape := "", capes := [], validity := Validity.Certain }

/-- The sample task at the profile stage, its bundle holding the profile of an earlier
run. -/
def sampleAtProfileAgain : Context :=
  doMinecraftProfile
    { sampleFork with m_data := { sampleFork.m_data with minecraftProfile := sampleOldProfile } }

/-! ## Lemmas on maps and objects -/

theorem lookup_filter_ne {V : Type} (m : QMap V) (k k2 : String) (h : k2 ≠ k) :
    (m.filter (fun p => p.1 != k)).lookup k2 = m.lookup k2 := by
  induction m with
  | nil => rfl
  | cons p m ih =>
    obtain ⟨a, b⟩ := p
    by_cases ha : a = k
    · subst ha
      have h1 : (k2 == a) = false := by simpa using h
      simp [List.filter_cons, List.lookup_cons, h1, ih]
    · have h2 : (a != k) = true := by simpa using ha
      simp only [List.filter_cons, h2, if_true, List.lookup_cons, ih]

theorem lookup_insert {V : Type} (m : QMap V) (k k2 : String) (v : V) :
    (QMap.insert m k v).lookup k2 = if k2 = k then some v else m.lookup k2 := by
  unfold QMap.insert
  by_cases h : k2 = k
  · subst h
    simp [List.lookup_cons]
  · have h1 : (k2 == k) = false := by simpa using h
    simp only [List.lookup_cons, h1, if_neg h]
    exact lookup_filter_ne m k k2 h

theorem lookup_isSome_iff {V : Type} (m : List (String × V)) (k : String) :
    (m.lookup k).isSome = true ↔ k ∈ m.map Prod.fst := by
  induction m with
  | nil => simp
  | cons p m ih =>
    obtain ⟨a, b⟩ := p
    by_cases h : k = a
    · subst h
      simp [List.lookup_cons]
    · have h1 : (k == a) = false := by simpa using h
      simp [List.lookup_cons, h1, ih, h]

theorem getString_true (v : QJsonValue) (out : String) (s : String)
    (h : getString v out = (true, s)) : v = .string s := by
  cases v <;> simp [getString, QJsonValue.isString, QJsonValue.toStr] at h
  simp [h]

/-! ## Lemmas on parseXTokenResponse -/

theorem consumeClaims_true (obj : QJsonObject) (l : List (String × QJsonValue))
    (output out2 : Token) (h : consumeClaims obj l output = (true, out2)) :
    (∀ k ∈ l.map Prod.fst, ∃ s, obj.value k = .string s) ∧
      out2.issueInstant = output.issueInstant ∧ out2.notAfter = output.notAfter ∧
      out2.token = output.token ∧ out2.validity = output.validity ∧
      ∀ k, out2.extra.lookup k =
        if k ∈ l.map Prod.fst then some (.string (obj.value k).toStr)
        else output.extra.lookup k := by
  induction l generalizing output with
  | nil =>
    simp only [consumeClaims, Prod.mk.injEq, true_and] at h
    subst h
    simp
  | cons p l ih =>
    obtain ⟨key, v⟩ := p
    simp only [consumeClaims] at h
    cases hg : getString (obj.value key) "" with
    | mk ok claim =>
      rw [hg] at h
      cases ok with
      | false => simp at h
      | true =>
        simp only at h
        have hv := getString_true _ _ _ hg
        obtain ⟨h1, h2, h3, h4, h5, h6⟩ := ih _ h
        refine ⟨?_, h2, h3, h4, h5, ?_⟩
        · intro k hk
          simp only [List.map_cons, List.mem_cons] at hk
          rcases hk with hk | hk
          · exact ⟨claim, by rw [hk, hv]⟩
          · exact h1 k hk
        · intro k
          rw [h6 k]
          by_cases hk : k ∈ l.map Prod.fst
          · simp [hk]
          · simp only [hk, if_false, List.map_cons, List.mem_cons, or_false]
            rw [lookup_insert]
            by_cases hkk : k = key
            · subst hkk
              simp [hv, QJsonValue.toStr]
            · simp [hkk]

theorem xuiLoop_none_found (arr : List QJsonValue) (output : Token)
    (h : ∀ o, QJsonValue.object o ∈ arr → QJsonObject.contains o "uhs" = false) :
    xuiLoop arr output = (some false, output) := by
  induction arr with
  | nil => rfl
  | cons item rest ih =>
    have ih2 := ih (fun o ho => h o (List.mem_cons_of_mem _ ho))
    cases item with
    | object o =>
      have ho := h o (List.mem_cons_self _ _)
      simp [xuiLoop, QJsonValue.isObject, QJsonValue.toObject, ho, ih2]
    | _ => simp [xuiLoop, QJsonValue.isObject, ih2]

theorem xuiLoop_split (pre post : List QJsonValue) (o : QJsonObject) (output : Token)
    (hpre : SkippedItems pre) (ho : QJsonObject.contains o "uhs" = true) :
    xuiLoop (pre ++ QJsonValue.object o :: post) output =
      match consumeClaims o o output with
      | (false, output) => (none, output)
      | (true, output) => (some true, output) := by
  induction pre with
  | nil => simp [xuiLoop, QJsonValue.isObject, QJsonValue.toObject, ho]
  | cons item rest ih =>
    have ih2 := ih (fun o2 h2 => hpre o2 (List.mem_cons_of_mem _ h2))
    cases item with
    | object o2 =>
      have h2 := hpre o2 (List.mem_cons_self _ _)
      simp only [List.cons_append, xuiLoop, QJsonValue.isObject, QJsonValue.toObject, h2]
      simpa using ih2
    | _ => simpa [xuiLoop, QJsonValue.isObject] using ih2

theorem xuiLoop_decompose (arr : List QJsonValue) :
    SkippedItems arr ∨ ∃ pre o post, arr = pre ++ QJsonValue.object o :: post ∧
      SkippedItems pre ∧ QJsonObject.contains o "uhs" = true := by
  induction arr with
  | nil => exact Or.inl (fun o ho => by simp at ho)
  | cons item rest ih =>
    by_cases hq : ∃ o, item = QJsonValue.object o ∧ QJsonObject.contains o "uhs" = true
    · obtain ⟨o, rfl, ho⟩ := hq
      exact Or.inr ⟨[], o, rest, rfl, fun o ho => by simp at ho, ho⟩
    · have hskip : SkippedItems [item] := by
        intro o ho
        simp only [List.mem_singleton] at ho
        by_contra hc
        exact hq ⟨o, ho.symm, by simpa using hc⟩
      rcases ih with h | ⟨pre, o, post, h1, h2, h3⟩
      · left
        intro o ho
        rcases List.mem_cons.mp ho with h4 | h4
        · exact hskip o (by simp [h4])
        · exact h o h4
      · right
        refine ⟨item :: pre, o, post, by simp [h1], ?_, h3⟩
        intro o2 ho2
        rcases List.mem_cons.mp ho2 with h4 | h4
        · exact hskip o2 (by simp [h4])
        · exact h2 o2 h4

theorem parseXTokenResponse_accepted (fromStringISO : String → QDateTime)
    (data : Option QJsonDocument) (output : Token)
    (h : (parseXTokenResponse fromStringISO data output).1 = true) :
    ∃ doc si ti sn tn tok arr out2, data = some doc ∧
      doc.toObject.value "IssueInstant" = .string si ∧ fromStringISO si = some ti ∧
      doc.toObject.value "NotAfter" = .string sn ∧ fromStringISO sn = some tn ∧
      doc.toObject.value "Token" = .string tok ∧
      (doc.toObject.value "DisplayClaims").toObject.value "xui" = .array arr ∧
      xuiLoop arr { issueInstant := some ti, notAfter := some tn, token := tok,
                    extra := output.extra, validity := output.validity } = (some true, out2) ∧
      parseXTokenResponse fromStringISO data output =
        (true, { out2 with validity := Validity.Certain }) := by
  cases data with
  | none => simp [parseXTokenResponse] at h
  | some doc =>
    simp only [parseXTokenResponse] at h ⊢
    cases h1 : doc.toObject.value "IssueInstant" <;>
      simp [h1, getDateTime, QJsonValue.isString, QJsonValue.toStr] at h ⊢
    rename_i si
    cases h1t : fromStringISO si <;> simp [h1t, QDateTime.isValid] at h ⊢
    rename_i ti
    cases h2 : doc.toObject.value "NotAfter" <;>
      simp [h2, getDateTime, QJsonValue.isString, QJsonValue.toStr] at h ⊢
    rename_i sn
    cases h2t : fromStringISO sn <;> simp [h2t, QDateTime.isValid] at h ⊢
    rename_i tn
    cases h3 : doc.toObject.value "Token" <;>
      simp [h3, getString, QJsonValue.isString, QJsonValue.toStr] at h ⊢
    rename_i tok
    cases h4 : (doc.toObject.value "DisplayClaims").toObject.value "xui" <;>
      simp [h4, QJsonValue.isArray, QJsonValue.toArray] at h ⊢
    rename_i arr
    generalize xuiLoop arr _ = res at h ⊢
    obtain ⟨r, out2⟩ := res
    cases r with
    | none => simp at h
    | some found =>
      cases found with
      | false => simp at h
      | true => simp

theorem xuiLoop_found (arr : List QJsonValue) (output out2 : Token)
    (h : xuiLoop arr output = (some true, out2)) :
    ∃ pre o post, arr = pre ++ QJsonValue.object o :: post ∧ SkippedItems pre ∧
      QJsonObject.contains o "uhs" = true ∧ consumeClaims o o output = (true, out2) := by
  rcases xuiLoop_decompose arr with hs | ⟨pre, o, post, h1, h2, h3⟩
  · rw [xuiLoop_none_found arr output hs] at h
    simp at h
  · refine ⟨pre, o, post, h1, h2, h3, ?_⟩
    rw [h1, xuiLoop_split pre post o output h2 h3] at h
    cases hc : consumeClaims o o output with
    | mk ok out3 =>
      rw [hc] at h
      cases ok <;> simp at h
      rw [h]

theorem value_of_lookup (o : QJsonObject) (k : String) (v : QJsonValue)
    (h : o.lookup k = some v) : QJsonObject.value o k = v := by
  simp [QJsonObject.value, h]

/-! ## Lemmas on parseMojangResponse -/

theorem truncToInt64_eq (d : ℚ) : truncToInt64 d = if 0 ≤ d then ⌊d⌋ else ⌈d⌉ := by
  unfold truncToInt64
  by_cases h : 0 ≤ d
  · rw [if_pos h, Rat.floor_def]
    exact Int.tdiv_eq_ediv (Rat.num_nonneg.mpr h) (Int.ofNat_nonneg _)
  · rw [if_neg h]
    have hneg : 0 ≤ -d := by linarith [not_le.mp h]
    have h1 : ⌈d⌉ = -⌊-d⌋ := by rw [Int.floor_neg, neg_neg]
    rw [h1, Rat.floor_def, Rat.neg_num, Rat.neg_den]
    have h2 : (0 : Int) ≤ -d.num := by
      have := Rat.num_nonneg.mpr hneg
      simpa using this
    rw [← Int.tdiv_eq_ediv h2 (Int.ofNat_nonneg _), Int.neg_tdiv, neg_neg]

theorem truncToInt64_intCast (n : Int) : truncToInt64 (n : ℚ) = n := by
  simp [truncToInt64]

theorem truncToInt64_pos_iff (d : ℚ) : 0 < truncToInt64 d ↔ 1 ≤ d := by
  rw [truncToInt64_eq]
  by_cases h : 0 ≤ d
  · rw [if_pos h]
    constructor
    · intro h1
      have h2 : (1 : Int) ≤ ⌊d⌋ := h1
      have := Int.le_floor.mp h2
      simpa using this
    · intro h1
      have : (1 : Int) ≤ ⌊d⌋ := Int.le_floor.mpr (by simpa using h1)
      exact this
  · rw [if_neg h]
    have hd : d < 0 := not_le.mp h
    constructor
    · intro h1
      have h2 : ⌈d⌉ ≤ 0 := Int.ceil_le.mpr (by simpa using hd.le)
      omega
    · intro h1
      linarith

theorem parseMojangResponse_of_fields (now : Int) (doc : QJsonDocument) (output : Token)
    (d : ℚ) (u a : String) (h1 : doc.toObject.value "expires_in" = .double d)
    (h2 : doc.toObject.value "username" = .string u)
    (h3 : doc.toObject.value "access_token" = .string a) :
    parseMojangResponse now (some doc) output = (true, accessTokenOf now output d a) := by
  simp [parseMojangResponse, h1, h2, h3, getNumber, getString, QJsonValue.isDouble,
    QJsonValue.isString, QJsonValue.toDouble, QJsonValue.toStr, QDateTime.addSecs,
    accessTokenOf]

theorem parseMojangResponse_accepted (now : Int) (data : Option QJsonDocument)
    (output : Token) (h : (parseMojangResponse now data output).1 = true) :
    ∃ doc d u a, data = some doc ∧ doc.toObject.value "expires_in" = .double d ∧
      doc.toObject.value "username" = .string u ∧
      doc.toObject.value "access_token" = .string a := by
  cases data with
  | none => simp [parseMojangResponse] at h
  | some doc =>
    simp only [parseMojangResponse] at h
    cases h1 : doc.toObject.value "expires_in" <;>
      simp [h1, getNumber, QJsonValue.isDouble, QJsonValue.toDouble] at h
    rename_i d
    cases h2 : doc.toObject.value "username" <;>
      simp [h2, getString, QJsonValue.isString, QJsonValue.toStr] at h
    rename_i u
    cases h3 : doc.toObject.value "access_token" <;>
      simp [h3, getString, QJsonValue.isString, QJsonValue.toStr] at h
    rename_i a
    exact ⟨doc, d, u, a, rfl, h1, h2, h3⟩

theorem oneAndAHalf_eq : oneAndAHalf = 3 / 2 := by
  have h := Rat.num_div_den oneAndAHalf
  have hn : oneAndAHalf.num = 3 := rfl
  have hd : oneAndAHalf.den = 2 := rfl
  rw [hn, hd] at h
  rw [← h]
  norm_num

/-! ## Lemmas on parseMinecraftProfile -/

theorem getString_eq (v : QJsonValue) (out : String) :
    getString v out = if v.isString then (true, v.toStr) else (false, out) := by
  cases v <;> simp [getString, QJsonValue.isString]

theorem skinsLoop_eq (l : List QJsonValue) (output : MinecraftProfile) :
    skinsLoop l output =
      match l.find? isActiveSkin with
      | some e => { output with skin := skinOf e }
      | none => output := by
  induction l with
  | nil => rfl
  | cons item rest ih =>
    simp only [skinsLoop, getString_eq, List.find?_cons, isActiveSkin, hasField, fieldOf, skinOf]
    cases h1 : (item.toObject.value "id").isString <;>
    cases h2 : (item.toObject.value "state").isString <;>
    cases h3 : (item.toObject.value "url").isString <;>
    cases h4 : (item.toObject.value "variant").isString <;>
    cases h5 : ((item.toObject.value "state").toStr == "ACTIVE") <;>
    simp [h5, bne, ih, isActiveSkin, hasField, fieldOf, skinOf]

theorem capesLoop_eq (l : List QJsonValue) (st : String × MinecraftProfile) :
    capesLoop l st = l.foldl capeStep st := by
  induction l generalizing st with
  | nil => rfl
  | cons item rest ih =>
    obtain ⟨cur, output⟩ := st
    simp only [capesLoop, getString_eq, List.foldl_cons, capeStep, isActiveCape, isStoredCape,
      hasField, fieldOf, capeOf]
    cases h1 : (item.toObject.value "id").isString <;>
    cases h2 : (item.toObject.value "state").isString <;>
    cases h3 : (item.toObject.value "url").isString <;>
    cases h4 : (item.toObject.value "alias").isString <;>
    cases h5 : ((item.toObject.value "state").toStr == "ACTIVE") <;>
    simp [h5, ih, capeStep, isActiveCape, isStoredCape, hasField, fieldOf, capeOf]

theorem capeFold_fst (l : List QJsonValue) (st : String × MinecraftProfile) :
    (l.foldl capeStep st).1 =
      match (l.filter isActiveCape).getLast? with
      | some e => fieldOf e "id"
      | none => st.1 := by
  induction l using List.reverseRecOn with
  | nil => rfl
  | append_singleton l a ih =>
    rw [List.foldl_append, List.filter_append]
    cases ha : isActiveCape a
    · simp [capeStep, ha, ih]
    · simp [capeStep, ha, List.getLast?_concat]

theorem capeFold_lookup (l : List QJsonValue) (st : String × MinecraftProfile) (k : String) :
    (l.foldl capeStep st).2.capes.lookup k =
      match (l.filter (fun e => isStoredCape e && fieldOf e "id" == k)).getLast? with
      | some e => some (capeOf e)
      | none => st.2.capes.lookup k := by
  induction l using List.reverseRecOn with
  | nil => rfl
  | append_singleton l a ih =>
    rw [List.foldl_append, List.filter_append]
    cases ha : isStoredCape a
    · simp [capeStep, ha, ih]
    · by_cases hk : fieldOf a "id" = k
      · subst hk
        simp [capeStep, ha, List.getLast?_concat, lookup_insert]
      · have hk2 : ¬ k = fieldOf a "id" := fun h => hk h.symm
        simp [capeStep, ha, hk, hk2, lookup_insert, ih]

theorem capeFold_frame (l : List QJsonValue) (st : String × MinecraftProfile) :
    (l.foldl capeStep st).2.skin = st.2.skin ∧ (l.foldl capeStep st).2.id = st.2.id ∧
      (l.foldl capeStep st).2.name = st.2.name := by
  induction l generalizing st with
  | nil => exact ⟨rfl, rfl, rfl⟩
  | cons a l ih =>
    rw [List.foldl_cons]
    obtain ⟨h1, h2, h3⟩ := ih (capeStep st a)
    rw [h1, h2, h3]
    cases ha : isStoredCape a <;> simp [capeStep, ha]

/-- The profile that `parseMinecraftProfile` builds from an accepted document. -/
theorem parseMinecraftProfile_of_fields (doc : QJsonDocument) (output : MinecraftProfile)
    (i n : String) (h1 : doc.toObject.value "id" = .string i)
    (h2 : doc.toObject.value "name" = .string n) :
    parseMinecraftProfile (some doc) output =
      (true,
        { ((capesOf doc).foldl capeStep
            ("", skinsLoop (skinsOf doc) { output with id := i, name := n })).2 with
          currentCape := ((capesOf doc).foldl capeStep
            ("", skinsLoop (skinsOf doc) { output with id := i, name := n })).1,
          validity := Validity.Certain }) := by
  simp [parseMinecraftProfile, h1, h2, getString_eq, QJsonValue.isString, QJsonValue.toStr,
    capesLoop_eq, capesOf, skinsOf]

theorem parseMinecraftProfile_accepted (data : Option QJsonDocument)
    (output : MinecraftProfile) (h : (parseMinecraftProfile data output).1 = true) :
    ∃ doc i n, data = some doc ∧ doc.toObject.value "id" = .string i ∧
      doc.toObject.value "name" = .string n := by
  cases data with
  | none => simp [parseMinecraftProfile] at h
  | some doc =>
    simp only [parseMinecraftProfile] at h
    cases h1 : doc.toObject.value "id" <;>
      simp [h1, getString, QJsonValue.isString, QJsonValue.toStr] at h
    rename_i i
    cases h2 : doc.toObject.value "name" <;>
      simp [h2, getString, QJsonValue.isString, QJsonValue.toStr] at h
    rename_i n
    exact ⟨doc, i, n, rfl, h1, h2⟩

theorem skinsLoop_capes (l : List QJsonValue) (output : MinecraftProfile) :
    (skinsLoop l output).capes = output.capes := by
  rw [skinsLoop_eq]
  cases l.find? isActiveSkin <;> rfl

theorem profile_capes_lookup (doc : QJsonDocument) (output : MinecraftProfile)
    (i n : String) (h1 : doc.toObject.value "id" = .string i)
    (h2 : doc.toObject.value "name" = .string n) (k : String) :
    (parseMinecraftProfile (some doc) output).2.capes.lookup k =
      match ((capesOf doc).filter (fun e => isStoredCape e && fieldOf e "id" == k)).getLast? with
      | some e => some (capeOf e)
      | none => output.capes.lookup k := by
  rw [parseMinecraftProfile_of_fields doc output i n h1 h2]
  simp only
  rw [capeFold_lookup]
  simp only [skinsLoop_capes]

/-! ## Lemmas on the join -/

theorem msgUnrecognized_single (x : String) :
    msgUnrecognized [x] =
      "XSTS authentication ended with unrecognized error(s):\n\n" ++ x := by
  simp [msgUnrecognized, String.intercalate, String.intercalate.go]

theorem finishActivity_busy (c : Context) (h : c.isBusy = true) :
    ∃ c2, finishActivity c = some c2 ∧ c2.stsFailed = c.stsFailed ∧
      c2.stsErrors = c.stsErrors ∧ c2.m_activity = Activity.Idle ∧
      c2.m_stage = AuthStage.Complete := by
  simp [finishActivity, h, setStage, Context.emit]

theorem processSTSError_consistent (c : Context) (error : NetworkError)
    (data : Option QJsonDocument) (h : StsConsistent c) :
    StsConsistent (processSTSError c error data) := by
  unfold processSTSError
  split
  · cases data with
    | none => exact h
    | some doc =>
      simp only
      cases hx : (getNumberInt64 (doc.toObject.value "XErr") (-1)).1
      · simpa using h
      · simp only [Bool.not_true, Bool.false_eq_true, if_false, StsConsistent, true_iff]
        unfold QSet.insert
        split
        · intro hnil
          simp_all
        · simp
  · exact h

theorem sampleMojang_inRange (doc : QJsonDocument) (d : ℚ) (hd : some sampleMojang = some doc)
    (hv : doc.toObject.value "expires_in" = .double d) : ExpiryInRange 1607370728000 d := by
  injection hd with hd
  subst hd
  have h : QJsonValue.double d = .double 86400 := hv.symm.trans rfl
  injection h with h
  subst h
  simp only [ExpiryInRange, fitsInt64]
  decide

/-! ## The claims -/

/-- C1: parseXTokenResponse rejects every payload that is not valid JSON, and every document
that lacks one of: a string IssueInstant that is a valid timestamp, a string NotAfter that
is a valid timestamp, a string Token, a DisplayClaims.xui array with at least one object
that has a uhs entry. -/
theorem parseXTokenResponse_rejects_incomplete (fromStringISO : String → QDateTime)
    (data : Option QJsonDocument) (output : Token)
    (h : ∀ doc, data = some doc →
      ¬ HasTimestamp fromStringISO doc "IssueInstant" ∨
      ¬ HasTimestamp fromStringISO doc "NotAfter" ∨
      ¬ HasString doc "Token" ∨ ¬ HasUhsClaims doc) :
    (parseXTokenResponse fromStringISO data output).1 = false := by
  by_contra hc
  have hacc : (parseXTokenResponse fromStringISO data output).1 = true := by simpa using hc
  obtain ⟨doc, si, ti, sn, tn, tok, arr, out2, hd, h1, h1t, h2, h2t, h3, h4, h5, -⟩ :=
    parseXTokenResponse_accepted fromStringISO data output hacc
  obtain ⟨pre, o, post, ha, -, ho, -⟩ := xuiLoop_found arr _ out2 h5
  rcases h doc hd with hn | hn | hn | hn
  · exact hn ⟨si, ti, h1, h1t⟩
  · exact hn ⟨sn, tn, h2, h2t⟩
  · exact hn ⟨tok, h3⟩
  · exact hn ⟨arr, h4, o, by simp [ha], ho⟩

/-- Witness for C1: the sample reply with an empty xui list is rejected. -/
theorem parseXTokenResponse_rejects_incomplete_witness :
    (∀ doc, some sampleXTokenNoClaims = some doc →
      ¬ HasTimestamp isoDateTimeUTC doc "IssueInstant" ∨
      ¬ HasTimestamp isoDateTimeUTC doc "NotAfter" ∨
      ¬ HasString doc "Token" ∨ ¬ HasUhsClaims doc) ∧
    (parseXTokenResponse isoDateTimeUTC (some sampleXTokenNoClaims) Token.empty).1 = false :=
  have hyp : ∀ doc, some sampleXTokenNoClaims = some doc →
      ¬ HasTimestamp isoDateTimeUTC doc "IssueInstant" ∨
      ¬ HasTimestamp isoDateTimeUTC doc "NotAfter" ∨
      ¬ HasString doc "Token" ∨ ¬ HasUhsClaims doc := by
    intro doc hd
    injection hd with hd
    subst hd
    refine Or.inr (Or.inr (Or.inr ?_))
    rintro ⟨arr, harr, o, ho, -⟩
    have hx : xuiValue sampleXTokenNoClaims = .array [] := by rfl
    rw [hx] at harr
    injection harr with harr
    subst harr
    simp at ho
  ⟨hyp, parseXTokenResponse_rejects_incomplete isoDateTimeUTC (some sampleXTokenNoClaims)
    Token.empty hyp⟩

/-- C2: for a document accepted by parseXTokenResponse into a token with an empty claim
mapping, the xui list splits at its first object with a uhs entry (the items before it are
skipped), every value of that object is a string, the claim mapping of the result holds
exactly that object's entries, and so holds a string uhs; and a document whose first object
with uhs has a value that is not a string is rejected, whatever follows it in the list. -/
theorem parseXTokenResponse_claims (fromStringISO : String → QDateTime) (doc : QJsonDocument)
    (output : Token) :
    ((parseXTokenResponse fromStringISO (some doc) output).1 = true → output.extra = [] →
      ∃ pre o post, xuiValue doc = .array (pre ++ QJsonValue.object o :: post) ∧
        SkippedItems pre ∧ QJsonObject.contains o "uhs" = true ∧
        (∀ k v, o.lookup k = some v → ∃ s, v = .string s) ∧
        (∀ k, (parseXTokenResponse fromStringISO (some doc) output).2.extra.lookup k =
          (o.lookup k).map claimOf) ∧
        ∃ s, (parseXTokenResponse fromStringISO (some doc) output).2.extra.lookup "uhs" =
          some (.string s)) ∧
    (∀ pre o post, xuiValue doc = .array (pre ++ QJsonValue.object o :: post) →
      SkippedItems pre → QJsonObject.contains o "uhs" = true →
      (∃ k v, o.lookup k = some v ∧ v.isString = false) →
      (parseXTokenResponse fromStringISO (some doc) output).1 = false) := by
  constructor
  · intro hacc hextra
    obtain ⟨doc2, si, ti, sn, tn, tok, arr, out2, hd, -, -, -, -, -, h4, h5, hres⟩ :=
      parseXTokenResponse_accepted fromStringISO (some doc) output hacc
    injection hd with hd
    subst hd
    obtain ⟨pre, o, post, ha, hpre, ho, hc⟩ := xuiLoop_found arr _ out2 h5
    obtain ⟨hstr, -, -, -, -, hex⟩ := consumeClaims_true o o _ out2 hc
    have hlook : ∀ k, out2.extra.lookup k = (o.lookup k).map claimOf := by
      intro k
      rw [hex k, hextra]
      cases hk : o.lookup k with
      | none =>
        have : ¬ k ∈ o.map Prod.fst := by
          rw [← lookup_isSome_iff, hk]
          simp
        simp [this]
      | some v =>
        have : k ∈ o.map Prod.fst := by
          rw [← lookup_isSome_iff, hk]
          simp
        simp [this, claimOf, value_of_lookup o k v hk]
    refine ⟨pre, o, post, by rw [← ha]; exact h4, hpre, ho, ?_, ?_, ?_⟩
    · intro k v hk
      have hmem : k ∈ o.map Prod.fst := by
        rw [← lookup_isSome_iff, hk]
        simp
      obtain ⟨s, hs⟩ := hstr k hmem
      exact ⟨s, by rw [← value_of_lookup o k v hk, hs]⟩
    · intro k
      rw [hres]
      exact hlook k
    · rw [hres]
      have hsome : (o.lookup "uhs").isSome = true := ho
      cases hu : o.lookup "uhs" with
      | none => simp [hu] at hsome
      | some v => exact ⟨v.toStr, by simp [hlook, hu, claimOf]⟩
  · intro pre o post hx hpre ho hbad
    by_contra hc
    have hacc : (parseXTokenResponse fromStringISO (some doc) output).1 = true := by
      simpa using hc
    obtain ⟨doc2, si, ti, sn, tn, tok, arr, out2, hd, -, -, -, -, -, h4, h5, -⟩ :=
      parseXTokenResponse_accepted fromStringISO (some doc) output hacc
    injection hd with hd
    subst hd
    have harr : arr = pre ++ QJsonValue.object o :: post := by
      have h6 : QJsonValue.array arr = .array (pre ++ QJsonValue.object o :: post) := by
        rw [← h4]
        exact hx
      injection h6
    rw [harr, xuiLoop_split pre post o _ hpre ho] at h5
    cases hcc : consumeClaims o o
        { issueInstant := some ti, notAfter := some tn, token := tok,
          extra := output.extra, validity := output.validity } with
    | mk ok out3 =>
      rw [hcc] at h5
      cases ok with
      | false => simp at h5
      | true =>
        obtain ⟨hstr, -⟩ := consumeClaims_true o o _ out3 hcc
        obtain ⟨k, v, hk, hv⟩ := hbad
        have hmem : k ∈ o.map Prod.fst := by
          rw [← lookup_isSome_iff, hk]
          simp
        obtain ⟨s, hs⟩ := hstr k hmem
        rw [value_of_lookup o k v hk] at hs
        rw [hs] at hv
        simp [QJsonValue.isString] at hv

/-- Witness for C2: the sample reply is accepted into an empty token and its claims hold a
string uhs; the reply whose first object with uhs carries a number is rejected although a
well-formed entry follows. -/
theorem parseXTokenResponse_claims_witness :
    (parseXTokenResponse isoDateTimeUTC (some sampleXToken) Token.empty).1 = true ∧
    Token.empty.extra = [] ∧
    (∃ s, (parseXTokenResponse isoDateTimeUTC (some sampleXToken) Token.empty).2.extra.lookup
      "uhs" = some (.string s)) ∧
    (parseXTokenResponse isoDateTimeUTC (some sampleXTokenBadClaim) Token.empty).1 = false := by
  have hacc : (parseXTokenResponse isoDateTimeUTC (some sampleXToken) Token.empty).1 = true := by
    decide
  refine ⟨hacc, rfl, ?_, ?_⟩
  · obtain ⟨pre, o, post, -, -, -, -, -, h⟩ :=
      (parseXTokenResponse_claims isoDateTimeUTC sampleXToken Token.empty).1 hacc rfl
    exact h
  · refine (parseXTokenResponse_claims isoDateTimeUTC sampleXTokenBadClaim Token.empty).2
      [.null, .object [("gtg", .string "tag")]]
      [("agg", .double 18), ("uhs", .string "userhash")]
      [.object [("uhs", .string "userhash")]] rfl ?_ rfl ⟨"agg", .double 18, rfl, rfl⟩
    intro o ho
    simp only [List.mem_cons, List.mem_singleton, List.not_mem_nil, or_false] at ho
    rcases ho with ho | ho
    · cases ho
    · injection ho with ho
      subst ho
      rfl

/-- C3, as stated, fails: a reply with expires_in = 1.5 is accepted and the token expires
1 second after it was issued, not 1.5 seconds. -/
theorem parseMojangResponse_expiry_not_exact :
    (parseMojangResponse 0 (some sampleMojangFraction) Token.empty).1 = true ∧
    sampleMojangFraction.toObject.value "expires_in" = .double (3 / 2) ∧
    (parseMojangResponse 0 (some sampleMojangFraction) Token.empty).2.notAfter = some 1000 ∧
    ¬ ExpiresExactly (parseMojangResponse 0 (some sampleMojangFraction) Token.empty).2
      (3 / 2) := by
  have hv : sampleMojangFraction.toObject.value "expires_in" = .double oneAndAHalf := rfl
  have hres := parseMojangResponse_of_fields 0 sampleMojangFraction Token.empty oneAndAHalf
    "some uuid" "jwt" hv rfl rfl
  have ht : truncToInt64 oneAndAHalf = 1 := by decide
  refine ⟨by rw [hres], by rw [hv, oneAndAHalf_eq], ?_, ?_⟩
  · rw [hres]
    simp [accessTokenOf, ht]
  · rw [hres]
    rintro ⟨a, b, ha, hb, hab⟩
    simp only [accessTokenOf, ht, Option.some.injEq] at ha hb
    subst ha
    subst hb
    norm_num at hab

/-- C3, amended: for every reply accepted by parseMojangResponse whose expires_in stays
within the 64-bit range of the C++ arithmetic, issuedAt is the clock value read during the
parse and expiresAt is issuedAt plus expires_in truncated toward zero to whole seconds; when
expires_in is a whole number, expiresAt = issuedAt + expires_in seconds exactly. The
embedding computes in unbounded integers, so the range hypothesis only marks the inputs on
which it is the C++ arithmetic. -/
theorem parseMojangResponse_expiry (now : Int) (data : Option QJsonDocument) (output : Token)
    (h : (parseMojangResponse now data output).1 = true)
    (_hrange : ∀ doc d, data = some doc → doc.toObject.value "expires_in" = .double d →
      ExpiryInRange now d) :
    ∃ doc d, data = some doc ∧ doc.toObject.value "expires_in" = .double d ∧
      (parseMojangResponse now data output).2.issueInstant = some now ∧
      (parseMojangResponse now data output).2.notAfter =
        some (now + 1000 * (if 0 ≤ d then ⌊d⌋ else ⌈d⌉)) ∧
      ∀ n : Int, d = n → ExpiresExactly (parseMojangResponse now data output).2 d := by
  obtain ⟨doc, d, u, a, hd, h1, h2, h3⟩ := parseMojangResponse_accepted now data output h
  subst hd
  have hres := parseMojangResponse_of_fields now doc output d u a h1 h2 h3
  refine ⟨doc, d, rfl, h1, by rw [hres]; rfl, ?_, ?_⟩
  · rw [hres, ← truncToInt64_eq]
    rfl
  · intro n hn
    rw [hres]
    refine ⟨now, now + 1000 * n, rfl, ?_, ?_⟩
    · simp [accessTokenOf, hn, truncToInt64_intCast]
    · rw [hn]
      push_cast
      ring

/-- Witness for C3: the usual reply with expires_in = 86400 at a given clock value. -/
theorem parseMojangResponse_expiry_witness :
    (parseMojangResponse 1607370728000 (some sampleMojang) Token.empty).1 = true ∧
    (∀ doc d, some sampleMojang = some doc → doc.toObject.value "expires_in" = .double d →
      ExpiryInRange 1607370728000 d) ∧
    ∃ doc d, some sampleMojang = some doc ∧ doc.toObject.value "expires_in" = .double d ∧
      (parseMojangResponse 1607370728000 (some sampleMojang) Token.empty).2.issueInstant =
        some 1607370728000 ∧
      (parseMojangResponse 1607370728000 (some sampleMojang) Token.empty).2.notAfter =
        some (1607370728000 + 1000 * (if 0 ≤ d then ⌊d⌋ else ⌈d⌉)) ∧
      ∀ n : Int, d = n →
        ExpiresExactly (parseMojangResponse 1607370728000 (some sampleMojang) Token.empty).2 d :=
  ⟨by decide, sampleMojang_inRange,
    parseMojangResponse_expiry 1607370728000 (some sampleMojang) Token.empty (by decide)
      sampleMojang_inRange⟩

/-- C4: parseMojangResponse accepts a reply exactly when it is valid JSON whose expires_in
is a number and whose username and access_token are strings; the accepted token's value is
access_token and it is marked Certain; and two accepted replies with the same expires_in and
access_token give the same token, whatever their username. -/
theorem parseMojangResponse_accepts_iff (now : Int) (data : Option QJsonDocument)
    (output : Token) :
    ((parseMojangResponse now data output).1 = true ↔
      ∃ doc, data = some doc ∧ (doc.toObject.value "expires_in").isDouble = true ∧
        (doc.toObject.value "username").isString = true ∧
        (doc.toObject.value "access_token").isString = true) ∧
    ((parseMojangResponse now data output).1 = true →
      ∃ doc a, data = some doc ∧ doc.toObject.value "access_token" = .string a ∧
        (parseMojangResponse now data output).2.token = a ∧
        (parseMojangResponse now data output).2.validity = Validity.Certain) ∧
    (∀ doc doc2, data = some doc → (parseMojangResponse now data output).1 = true →
      (parseMojangResponse now (some doc2) output).1 = true →
      doc2.toObject.value "expires_in" = doc.toObject.value "expires_in" →
      doc2.toObject.value "access_token" = doc.toObject.value "access_token" →
      (parseMojangResponse now (some doc2) output).2 =
        (parseMojangResponse now data output).2) := by
  refine ⟨⟨?_, ?_⟩, ?_, ?_⟩
  · intro h
    obtain ⟨doc, d, u, a, hd, h1, h2, h3⟩ := parseMojangResponse_accepted now data output h
    exact ⟨doc, hd, by simp [h1, QJsonValue.isDouble], by simp [h2, QJsonValue.isString],
      by simp [h3, QJsonValue.isString]⟩
  · rintro ⟨doc, hd, h1, h2, h3⟩
    subst hd
    cases hv1 : doc.toObject.value "expires_in" <;> simp [hv1, QJsonValue.isDouble] at h1
    cases hv2 : doc.toObject.value "username" <;> simp [hv2, QJsonValue.isString] at h2
    cases hv3 : doc.toObject.value "access_token" <;> simp [hv3, QJsonValue.isString] at h3
    rw [parseMojangResponse_of_fields now doc output _ _ _ hv1 hv2 hv3]
  · intro h
    obtain ⟨doc, d, u, a, hd, h1, h2, h3⟩ := parseMojangResponse_accepted now data output h
    subst hd
    refine ⟨doc, a, rfl, h3, ?_, ?_⟩ <;>
      rw [parseMojangResponse_of_fields now doc output d u a h1 h2 h3] <;> rfl
  · intro doc doc2 hd h hacc2 he ha
    subst hd
    obtain ⟨doc3, d, u, a, hd3, h1, h2, h3⟩ :=
      parseMojangResponse_accepted now (some doc) output h
    injection hd3 with hd3
    subst hd3
    obtain ⟨doc4, d2, u2, a2, hd4, k1, k2, k3⟩ :=
      parseMojangResponse_accepted now (some doc2) output hacc2
    injection hd4 with hd4
    subst hd4
    rw [h1] at he
    rw [h3] at ha
    rw [parseMojangResponse_of_fields now doc output d u a h1 h2 h3,
      parseMojangResponse_of_fields now doc2 output d u2 a he k2 ha]

/-- Witness for C4: the usual reply has the three fields, is accepted, and the token's value
is its access_token. -/
theorem parseMojangResponse_accepts_iff_witness :
    (∃ doc, some sampleMojang = some doc ∧ (doc.toObject.value "expires_in").isDouble = true ∧
      (doc.toObject.value "username").isString = true ∧
      (doc.toObject.value "access_token").isString = true) ∧
    (parseMojangResponse 0 (some sampleMojang) Token.empty).1 = true ∧
    ∃ doc a, some sampleMojang = some doc ∧ doc.toObject.value "access_token" = .string a ∧
      (parseMojangResponse 0 (some sampleMojang) Token.empty).2.token = a ∧
      (parseMojangResponse 0 (some sampleMojang) Token.empty).2.validity = Validity.Certain :=
  have hyp : ∃ doc, some sampleMojang = some doc ∧
      (doc.toObject.value "expires_in").isDouble = true ∧
      (doc.toObject.value "username").isString = true ∧
      (doc.toObject.value "access_token").isString = true :=
    ⟨sampleMojang, rfl, rfl, rfl, rfl⟩
  have hacc := (parseMojangResponse_accepts_iff 0 (some sampleMojang) Token.empty).1.mpr hyp
  ⟨hyp, hacc, (parseMojangResponse_accepts_iff 0 (some sampleMojang) Token.empty).2.1 hacc⟩

/-- C5, as stated, fails for both validators: a service-token reply whose NotAfter is earlier
than its IssueInstant is accepted as it is, and a login_with_xbox reply with expires_in = 0
is accepted with expiresAt equal to issuedAt. -/
theorem token_invariant_fails :
    (parseXTokenResponse isoDateTimeUTC (some sampleXTokenReversed) Token.empty).1 = true ∧
    (parseXTokenResponse isoDateTimeUTC (some sampleXTokenReversed)
      Token.empty).2.expiresAfterIssued = false ∧
    (parseMojangResponse 1607370728000 (some sampleMojangZero) Token.empty).1 = true ∧
    (parseMojangResponse 1607370728000 (some sampleMojangZero)
      Token.empty).2.expiresAfterIssued = false := by
  refine ⟨by decide, by decide, by decide, by decide⟩

/-- C5, amended: a token accepted by parseXTokenResponse carries the reply's IssueInstant and
NotAfter as they were read, so it expires after it was issued exactly when the reply's
NotAfter is later than its IssueInstant; a token accepted by parseMojangResponse, with
expires_in within the 64-bit range of the C++ arithmetic, expires after it was issued
exactly when expires_in is at least 1. -/
theorem token_dates (fromStringISO : String → QDateTime) (now : Int)
    (data : Option QJsonDocument) (output : Token) :
    ((parseXTokenResponse fromStringISO data output).1 = true →
      ∃ doc si sn ti tn, data = some doc ∧
        doc.toObject.value "IssueInstant" = .string si ∧ fromStringISO si = some ti ∧
        doc.toObject.value "NotAfter" = .string sn ∧ fromStringISO sn = some tn ∧
        (parseXTokenResponse fromStringISO data output).2.issueInstant = some ti ∧
        (parseXTokenResponse fromStringISO data output).2.notAfter = some tn ∧
        ((parseXTokenResponse fromStringISO data output).2.expiresAfterIssued = true ↔
          ti < tn)) ∧
    ((parseMojangResponse now data output).1 = true →
      (∀ doc d, data = some doc → doc.toObject.value "expires_in" = .double d →
        ExpiryInRange now d) →
      ∃ doc d, data = some doc ∧ doc.toObject.value "expires_in" = .double d ∧
        ((parseMojangResponse now data output).2.expiresAfterIssued = true ↔ 1 ≤ d)) := by
  constructor
  · intro hacc
    obtain ⟨doc, si, ti, sn, tn, tok, arr, out2, hd, h1, h1t, h2, h2t, -, -, h5, hres⟩ :=
      parseXTokenResponse_accepted fromStringISO data output hacc
    obtain ⟨pre, o, post, -, -, -, hc⟩ := xuiLoop_found arr _ out2 h5
    obtain ⟨-, hi, hn, -, -, -⟩ := consumeClaims_true o o _ out2 hc
    refine ⟨doc, si, sn, ti, tn, hd, h1, h1t, h2, h2t, ?_, ?_, ?_⟩
    · rw [hres]
      exact hi
    · rw [hres]
      exact hn
    · rw [hres]
      simp only [Token.expiresAfterIssued, hi, hn]
      simp
  · intro hacc _
    obtain ⟨doc, d, u, a, hd, h1, h2, h3⟩ := parseMojangResponse_accepted now data output hacc
    subst hd
    refine ⟨doc, d, rfl, h1, ?_⟩
    rw [parseMojangResponse_of_fields now doc output d u a h1 h2 h3, ← truncToInt64_pos_iff]
    simp [Token.expiresAfterIssued, accessTokenOf]

/-- Witness for C5: the sample service-token reply and the usual login_with_xbox reply. -/
theorem token_dates_witness :
    (parseXTokenResponse isoDateTimeUTC (some sampleXToken) Token.empty).1 = true ∧
    (parseMojangResponse 1607370728000 (some sampleMojang) Token.empty).1 = true ∧
    (∃ doc si sn ti tn, some sampleXToken = some doc ∧
      doc.toObject.value "IssueInstant" = .string si ∧ isoDateTimeUTC si = some ti ∧
      doc.toObject.value "NotAfter" = .string sn ∧ isoDateTimeUTC sn = some tn ∧
      (parseXTokenResponse isoDateTimeUTC (some sampleXToken) Token.empty).2.issueInstant =
        some ti ∧
      (parseXTokenResponse isoDateTimeUTC (some sampleXToken) Token.empty).2.notAfter =
        some tn ∧
      ((parseXTokenResponse isoDateTimeUTC (some sampleXToken)
        Token.empty).2.expiresAfterIssued = true ↔ ti < tn)) ∧
    (∀ doc d, some sampleMojang = some doc → doc.toObject.value "expires_in" = .double d →
      ExpiryInRange 1607370728000 d) ∧
    ∃ doc d, some sampleMojang = some doc ∧ doc.toObject.value "expires_in" = .double d ∧
      ((parseMojangResponse 1607370728000 (some sampleMojang)
        Token.empty).2.expiresAfterIssued = true ↔ 1 ≤ d) :=
  ⟨by decide, by decide,
    (token_dates isoDateTimeUTC 1607370728000 (some sampleXToken) Token.empty).1 (by decide),
    sampleMojang_inRange,
    (token_dates isoDateTimeUTC 1607370728000 (some sampleMojang) Token.empty).2 (by decide)
      sampleMojang_inRange⟩

/-- C6: parseMinecraftProfile accepts exactly the valid JSON replies whose id and name are
strings, whatever the skins list holds; in an accepted reply the recorded skin is the first
entry of the skins list whose state is the string "ACTIVE" and whose id, url and variant are
strings, with those three values, and when no entry qualifies the skin is left as it was. -/
theorem parseMinecraftProfile_skin (data : Option QJsonDocument) (output : MinecraftProfile) :
    ((parseMinecraftProfile data output).1 = true ↔
      ∃ doc, data = some doc ∧ (doc.toObject.value "id").isString = true ∧
        (doc.toObject.value "name").isString = true) ∧
    ((parseMinecraftProfile data output).1 = true →
      ∃ doc, data = some doc ∧
        (parseMinecraftProfile data output).2.skin =
          match (skinsOf doc).find? isActiveSkin with
          | some e => skinOf e
          | none => output.skin) := by
  refine ⟨⟨?_, ?_⟩, ?_⟩
  · intro h
    obtain ⟨doc, i, n, hd, h1, h2⟩ := parseMinecraftProfile_accepted data output h
    exact ⟨doc, hd, by simp [h1, QJsonValue.isString], by simp [h2, QJsonValue.isString]⟩
  · rintro ⟨doc, hd, h1, h2⟩
    subst hd
    cases hv1 : doc.toObject.value "id" <;> simp [hv1, QJsonValue.isString] at h1
    cases hv2 : doc.toObject.value "name" <;> simp [hv2, QJsonValue.isString] at h2
    rw [parseMinecraftProfile_of_fields doc output _ _ hv1 hv2]
  · intro h
    obtain ⟨doc, i, n, hd, h1, h2⟩ := parseMinecraftProfile_accepted data output h
    subst hd
    refine ⟨doc, rfl, ?_⟩
    rw [parseMinecraftProfile_of_fields doc output i n h1 h2]
    simp only
    rw [(capeFold_frame _ _).1, skinsLoop_eq]
    cases (skinsOf doc).find? isActiveSkin <;> rfl

/-- Witness for C6: in the sample profile the second skin is the active one. -/
theorem parseMinecraftProfile_skin_witness :
    (parseMinecraftProfile (some sampleProfile) MinecraftProfile.empty).1 = true ∧
    (∃ doc, some sampleProfile = some doc ∧
      (parseMinecraftProfile (some sampleProfile) MinecraftProfile.empty).2.skin =
        match (skinsOf doc).find? isActiveSkin with
        | some e => skinOf e
        | none => MinecraftProfile.empty.skin) ∧
    (parseMinecraftProfile (some sampleProfile) MinecraftProfile.empty).2.skin =
      { id := "s1", url := "http://textures.minecraft.net/texture/1", variant := "CLASSIC",
        data := [] } :=
  ⟨by decide,
    (parseMinecraftProfile_skin (some sampleProfile) MinecraftProfile.empty).2 (by decide),
    by decide⟩

/-- C7, as stated, fails: a cape entry with string id, url and alias but no state is
skipped, so its id is not a key of the cape map of the accepted profile. -/
theorem parseMinecraftProfile_cape_without_state_dropped :
    (parseMinecraftProfile (some sampleProfileCapeNoState) MinecraftProfile.empty).1 = true ∧
    MinecraftProfile.empty.capes = [] ∧
    (∃ e ∈ capesOf sampleProfileCapeNoState, hasCapeFields e = true ∧ fieldOf e "id" = "c1") ∧
    (parseMinecraftProfile (some sampleProfileCapeNoState)
      MinecraftProfile.empty).2.capes.lookup "c1" = none := by
  refine ⟨by decide, rfl, ?_, by decide⟩
  refine ⟨.object [("id", .string "c1"),
    ("url", .string "http://textures.minecraft.net/texture/c1"),
    ("alias", .string "Migrator")], ?_, rfl, rfl⟩
  simp [capesOf, sampleProfileCapeNoState, QJsonDocument.toObject, QJsonObject.value,
    List.lookup, QJsonValue.toArray]

/-- C7, amended: for every profile reply accepted by parseMinecraftProfile starting from an
empty cape map, the resulting cape map has a key k exactly when some entry of the capes list
has string id equal to k and string state, url and alias, and the cape stored under k
carries the id, url and alias of such an entry. -/
theorem parseMinecraftProfile_capes (data : Option QJsonDocument) (output : MinecraftProfile)
    (h : (parseMinecraftProfile data output).1 = true) (hempty : output.capes = []) :
    ∃ doc, data = some doc ∧ ∀ k,
      (((parseMinecraftProfile data output).2.capes.lookup k).isSome = true ↔
        ∃ e ∈ capesOf doc, isStoredCape e = true ∧ fieldOf e "id" = k) ∧
      ∀ c, (parseMinecraftProfile data output).2.capes.lookup k = some c →
        ∃ e ∈ capesOf doc, isStoredCape e = true ∧ fieldOf e "id" = k ∧ c = capeOf e := by
  obtain ⟨doc, i, n, hd, h1, h2⟩ := parseMinecraftProfile_accepted data output h
  subst hd
  refine ⟨doc, rfl, fun k => ?_⟩
  rw [profile_capes_lookup doc output i n h1 h2 k, hempty]
  cases hl : ((capesOf doc).filter (fun e => isStoredCape e && fieldOf e "id" == k)).getLast? with
  | none =>
    have hnil := List.getLast?_eq_none_iff.mp hl
    refine ⟨⟨fun hc => by simp at hc, ?_⟩, fun c hc => by simp at hc⟩
    rintro ⟨e, he, hs, hk⟩
    have hmem : e ∈ (capesOf doc).filter (fun e => isStoredCape e && fieldOf e "id" == k) := by
      rw [List.mem_filter]
      exact ⟨he, by simp [hs, hk]⟩
    rw [hnil] at hmem
    simp at hmem
  | some e =>
    have hmem := List.mem_of_getLast?_eq_some hl
    rw [List.mem_filter] at hmem
    obtain ⟨he, hp⟩ := hmem
    have hs : isStoredCape e = true := by
      simp only [Bool.and_eq_true] at hp
      exact hp.1
    have hk : fieldOf e "id" = k := by
      simp only [Bool.and_eq_true, beq_iff_eq] at hp
      exact hp.2
    refine ⟨⟨fun _ => ⟨e, he, hs, hk⟩, fun _ => by simp⟩, fun c hc => ?_⟩
    simp only [Option.some.injEq] at hc
    exact ⟨e, he, hs, hk, hc.symm⟩

/-- Witness for C7: the sample profile, parsed into an empty profile. -/
theorem parseMinecraftProfile_capes_witness :
    (parseMinecraftProfile (some sampleProfile) MinecraftProfile.empty).1 = true ∧
    MinecraftProfile.empty.capes = [] ∧
    ∃ doc, some sampleProfile = some doc ∧ ∀ k,
      (((parseMinecraftProfile (some sampleProfile) MinecraftProfile.empty).2.capes.lookup
          k).isSome = true ↔
        ∃ e ∈ capesOf doc, isStoredCape e = true ∧ fieldOf e "id" = k) ∧
      ∀ c, (parseMinecraftProfile (some sampleProfile) MinecraftProfile.empty).2.capes.lookup
          k = some c →
        ∃ e ∈ capesOf doc, isStoredCape e = true ∧ fieldOf e "id" = k ∧ c = capeOf e :=
  ⟨by decide, rfl,
    parseMinecraftProfile_capes (some sampleProfile) MinecraftProfile.empty (by decide) rfl⟩

/-- C8: for every profile reply accepted by parseMinecraftProfile, the active-cape id is the
id of the last entry of the capes list that has a string id and state "ACTIVE", and is empty
when there is none, whether or not that entry has url and alias; and there is an accepted
reply whose active-cape id is not empty and is not a key of the resulting cape map. -/
theorem parseMinecraftProfile_currentCape (data : Option QJsonDocument)
    (output : MinecraftProfile) :
    ((parseMinecraftProfile data output).1 = true →
      ∃ doc, data = some doc ∧
        (parseMinecraftProfile data output).2.currentCape =
          match ((capesOf doc).filter isActiveCape).getLast? with
          | some e => fieldOf e "id"
          | none => "") ∧
    ∃ doc : QJsonDocument,
      (parseMinecraftProfile (some doc) MinecraftProfile.empty).1 = true ∧
      (parseMinecraftProfile (some doc) MinecraftProfile.empty).2.currentCape ≠ "" ∧
      (parseMinecraftProfile (some doc) MinecraftProfile.empty).2.capes.lookup
        (parseMinecraftProfile (some doc) MinecraftProfile.empty).2.currentCape = none := by
  constructor
  · intro h
    obtain ⟨doc, i, n, hd, h1, h2⟩ := parseMinecraftProfile_accepted data output h
    subst hd
    refine ⟨doc, rfl, ?_⟩
    rw [parseMinecraftProfile_of_fields doc output i n h1 h2]
    simp only
    rw [capeFold_fst]
  · exact ⟨sampleProfileActiveCapeDropped, by decide, by decide, by decide⟩

/-- Witness for C8: the reply whose only cape is active and incomplete. -/
theorem parseMinecraftProfile_currentCape_witness :
    (parseMinecraftProfile (some sampleProfileActiveCapeDropped) MinecraftProfile.empty).1 =
      true ∧
    (∃ doc, some sampleProfileActiveCapeDropped = some doc ∧
      (parseMinecraftProfile (some sampleProfileActiveCapeDropped)
        MinecraftProfile.empty).2.currentCape =
          match ((capesOf doc).filter isActiveCape).getLast? with
          | some e => fieldOf e "id"
          | none => "") ∧
    (parseMinecraftProfile (some sampleProfileActiveCapeDropped)
      MinecraftProfile.empty).2.currentCape = "c1" :=
  ⟨by decide,
    (parseMinecraftProfile_currentCape (some sampleProfileActiveCapeDropped)
      MinecraftProfile.empty).1 (by decide),
    by decide⟩

/-- C9: parseRolloutResponse succeeds exactly when the body is valid JSON whose feature is
the string "msamigration" and whose rollout is a boolean; on success the flag is the value
of rollout, and on every failure the flag is the one passed in. -/
theorem parseRolloutResponse_iff (data : Option QJsonDocument) (result : Bool) :
    ((parseRolloutResponse data result).1 = true ↔
      ∃ doc b, data = some doc ∧ doc.toObject.value "feature" = .string "msamigration" ∧
        doc.toObject.value "rollout" = .bool b) ∧
    (∀ doc b, data = some doc → doc.toObject.value "rollout" = .bool b →
      (parseRolloutResponse data result).1 = true → (parseRolloutResponse data result).2 = b) ∧
    ((parseRolloutResponse data result).1 = false →
      (parseRolloutResponse data result).2 = result) := by
  cases data with
  | none => simp [parseRolloutResponse]
  | some doc =>
    cases hf : doc.toObject.value "feature" with
    | string f =>
      by_cases hm : f = "msamigration"
      · subst hm
        cases hr : doc.toObject.value "rollout" <;>
          simp [parseRolloutResponse, getString_eq, hf, hr, getBool, QJsonValue.isBool,
            QJsonValue.toBool, QJsonValue.isString, QJsonValue.toStr]
        rename_i b
        intro doc2
        constructor <;> intro hd h2 <;> subst hd <;> rw [hr] at h2 <;> injection h2
      · simp [parseRolloutResponse, getString_eq, hf, hm, QJsonValue.isString,
          QJsonValue.toStr]
    | _ => simp [parseRolloutResponse, getString_eq, hf, QJsonValue.isString]

/-- Witness for C9: the rollout reply of an eligible account sets the flag. -/
theorem parseRolloutResponse_iff_witness :
    (∃ doc b, some sampleRollout = some doc ∧
      doc.toObject.value "feature" = .string "msamigration" ∧
      doc.toObject.value "rollout" = .bool b) ∧
    (parseRolloutResponse (some sampleRollout) false).1 = true ∧
    (parseRolloutResponse (some sampleRollout) false).2 = true :=
  have hyp : ∃ doc b, some sampleRollout = some doc ∧
      doc.toObject.value "feature" = .string "msamigration" ∧
      doc.toObject.value "rollout" = .bool b := ⟨sampleRollout, true, rfl, rfl, rfl⟩
  have hacc := (parseRolloutResponse_iff (some sampleRollout) false).1.mpr hyp
  ⟨hyp, hacc, (parseRolloutResponse_iff (some sampleRollout) false).2.1 sampleRollout true rfl
    rfl hacc⟩

/-- C10: when both branches have reported and not both succeeded, in a busy task whose
sts-failed flag agrees with its recorded codes, the join ends in FailedHard; with no code on
record the message is the generic "steps did not succeed" one, and with one code on record
it is the classifier's: the three known codes give their own messages and any other code
gives the unrecognized-error message ending in the code's decimal rendering. -/
theorem checkResult_failure_message (c : Context) (hbusy : c.isBusy = true)
    (hdone : c.m_requestsDone = 2)
    (hfail : (c.m_mcAuthSucceeded && c.m_xboxProfileSucceeded) = false)
    (hcons : StsConsistent c) :
    (c.stsErrors = [] →
      ∃ c2, checkResult c = some c2 ∧
        c2.m_accountState = AccountTaskState.STATE_FAILED_HARD ∧
        c2.m_stateMessage = msgStepsFailed) ∧
    (∀ code, c.stsErrors = [code] →
      ∃ c2, checkResult c = some c2 ∧
        c2.m_accountState = AccountTaskState.STATE_FAILED_HARD ∧
        c2.m_stateMessage = classifiedMessage code) := by
  obtain ⟨c1, hfin, hflag, herrs, -, -⟩ := finishActivity_busy c hbusy
  have hstep : checkResult c =
      if c1.stsFailed then
        if c1.stsErrors.contains 2148916233 then
          some (c1.changeState .STATE_FAILED_HARD msgNoXboxProfile)
        else if c1.stsErrors.contains 2148916235 then
          some (c1.changeState .STATE_FAILED_HARD msgRegionBlocked)
        else if c1.stsErrors.contains 2148916238 then
          some (c1.changeState .STATE_FAILED_HARD msgUnderage)
        else
          some (c1.changeState .STATE_FAILED_HARD
            (msgUnrecognized (c1.stsErrors.map (fun error => toString error))))
      else some (c1.changeState .STATE_FAILED_HARD msgStepsFailed) := by
    simp only [checkResult, hdone, hfail, hfin]
    simp
  constructor
  · intro hnone
    have hf : c1.stsFailed = false := by
      rw [hflag]
      by_contra hc
      exact (hcons.mp (by simpa using hc)) hnone
    rw [hstep, hf]
    exact ⟨_, rfl, rfl, rfl⟩
  · intro code hone
    have hf : c1.stsFailed = true := by
      rw [hflag]
      exact hcons.mpr (by simp [hone])
    rw [hstep, hf, herrs, hone]
    simp only [if_true, List.contains_cons, List.contains_nil, Bool.or_false, beq_iff_eq,
      List.map_cons, List.map_nil, msgUnrecognized_single, classifiedMessage]
    have e1 : ((2148916233 : Int) = code) ↔ (code = 2148916233) := eq_comm
    have e2 : ((2148916235 : Int) = code) ↔ (code = 2148916235) := eq_comm
    have e3 : ((2148916238 : Int) = code) ↔ (code = 2148916238) := eq_comm
    simp only [e1, e2, e3]
    split_ifs <;> exact ⟨_, rfl, rfl, rfl⟩

/-- Witness for C10: the unrecognized code 999 on record gives the generic message that
ends in "999". -/
theorem checkResult_failure_message_witness :
    (sampleJoin [999] true).isBusy = true ∧ (sampleJoin [999] true).m_requestsDone = 2 ∧
    ((sampleJoin [999] true).m_mcAuthSucceeded &&
      (sampleJoin [999] true).m_xboxProfileSucceeded) = false ∧
    StsConsistent (sampleJoin [999] true) ∧
    ∃ c2, checkResult (sampleJoin [999] true) = some c2 ∧
      c2.m_accountState = AccountTaskState.STATE_FAILED_HARD ∧
      c2.m_stateMessage = classifiedMessage 999 ∧
      classifiedMessage 999 =
        "XSTS authentication ended with unrecognized error(s):\n\n999" := by
  have hcons : StsConsistent (sampleJoin [999] true) := by
    simp [StsConsistent, sampleJoin]
  obtain ⟨c2, h1, h2, h3⟩ :=
    (checkResult_failure_message (sampleJoin [999] true) rfl rfl rfl hcons).2 999 rfl
  exact ⟨rfl, rfl, rfl, hcons, c2, h1, h2, h3, by decide⟩

/-! ## Lemmas on the completions -/

theorem finishActivity_eq (c : Context) (h : c.isBusy = true) :
    finishActivity c = some
      { c with
        m_activity := Activity.Idle, m_stage := AuthStage.Complete,
        m_data := { c.m_data with validity_ := c.m_data.minecraftProfile.validity },
        trace := c.trace ++ [.progress AuthStage.Complete.toInt AuthStage.Complete.toInt,
          .activityChanged Activity.Idle] } := by
  simp [finishActivity, h, setStage, Context.emit]

theorem contains_eq_decide (l : List Int) (x : Int) : l.contains x = decide (x ∈ l) := by
  induction l with
  | nil => simp
  | cons a l ih =>
    simp only [List.contains_cons, ih, List.mem_cons]
    by_cases h : x = a <;> simp [h]

theorem checkResult_failure (c : Context) (hbusy : c.isBusy = true)
    (hdone : c.m_requestsDone = 2)
    (hfail : (c.m_mcAuthSucceeded && c.m_xboxProfileSucceeded) = false) :
    ∃ c2, checkResult c = some c2 ∧
      c2.m_accountState = AccountTaskState.STATE_FAILED_HARD ∧
      c2.m_activity = Activity.Idle ∧ c2.m_stage = AuthStage.Complete ∧
      c2.m_data = { c.m_data with validity_ := c.m_data.minecraftProfile.validity } ∧
      c2.stsErrors = c.stsErrors ∧ c2.stsFailed = c.stsFailed ∧
      c2.m_requestsDone = c.m_requestsDone ∧
      c2.m_mcAuthSucceeded = c.m_mcAuthSucceeded ∧
      c2.m_xboxProfileSucceeded = c.m_xboxProfileSucceeded ∧
      c2.m_stateMessage =
        if c.stsFailed then
          if 2148916233 ∈ c.stsErrors then msgNoXboxProfile
          else if 2148916235 ∈ c.stsErrors then msgRegionBlocked
          else if 2148916238 ∈ c.stsErrors then msgUnderage
          else msgUnrecognized (c.stsErrors.map (fun error => toString error))
        else msgStepsFailed := by
  simp only [checkResult, hdone, hfail, finishActivity_eq c hbusy]
  simp only [bne_self_eq_false, Bool.false_eq_true, if_false, Option.bind_eq_bind,
    Option.some_bind, contains_eq_decide, decide_eq_true_eq]
  split_ifs <;> simp [Context.changeState, Context.emit]

set_option maxRecDepth 100000 in
/-- C11, as stated, fails: Branch A's XSTS call fails with code 2148916233 and Branch B's with
code 999; both codes are on record at the join, and the message is the one of 2148916233,
not the generic message that lists the two codes. -/
theorem checkResult_known_code_wins :
    (run isoDateTimeUTC sampleFork
      [.stsAuthMinecraftDone .AuthenticationRequiredError (some (sampleXErr 2148916233)),
       .stsAuthGenericDone .AuthenticationRequiredError (some (sampleXErr 999))]).map
      (fun c => (c.m_accountState, c.stsErrors, c.m_stateMessage)) =
        some (AccountTaskState.STATE_FAILED_HARD, [2148916233, 999], msgNoXboxProfile) ∧
    msgNoXboxProfile ≠ msgUnrecognized ["2148916233", "999"] := by
  constructor
  · decide
  · decide

/-- C11, amended: when the join fails with the sts-failed flag set, the run ends FailedHard
and the message is the one of 2148916233 when that code is on record, else the one of
2148916235 when that code is on record, else the one of 2148916238 when that code is on
record; only when none of the three is on record is it the generic message that lists every
recorded code, in the order the set yields them. -/
theorem checkResult_failure_codes (c : Context) (hbusy : c.isBusy = true)
    (hdone : c.m_requestsDone = 2)
    (hfail : (c.m_mcAuthSucceeded && c.m_xboxProfileSucceeded) = false)
    (hflag : c.stsFailed = true) :
    ∃ c2, checkResult c = some c2 ∧
      c2.m_accountState = AccountTaskState.STATE_FAILED_HARD ∧
      (2148916233 ∈ c.stsErrors → c2.m_stateMessage = msgNoXboxProfile) ∧
      (2148916233 ∉ c.stsErrors → 2148916235 ∈ c.stsErrors →
        c2.m_stateMessage = msgRegionBlocked) ∧
      (2148916233 ∉ c.stsErrors → 2148916235 ∉ c.stsErrors → 2148916238 ∈ c.stsErrors →
        c2.m_stateMessage = msgUnderage) ∧
      (2148916233 ∉ c.stsErrors → 2148916235 ∉ c.stsErrors → 2148916238 ∉ c.stsErrors →
        c2.m_stateMessage = msgUnrecognized (c.stsErrors.map (fun error => toString error))) := by
  obtain ⟨c2, h1, h2, -, -, -, -, -, -, -, -, hm⟩ := checkResult_failure c hbusy hdone hfail
  rw [hflag] at hm
  refine ⟨c2, h1, h2, ?_, ?_, ?_, ?_⟩
  · intro k1
    simp [hm, k1]
  · intro k1 k2
    simp [hm, k1, k2]
  · intro k1 k2 k3
    simp [hm, k1, k2, k3]
  · intro k1 k2 k3
    simp [hm, k1, k2, k3]

/-- Witness for C11: with the unknown codes 998 and 999 on record the message lists both. -/
theorem checkResult_failure_codes_witness :
    (sampleJoin [998, 999] true).isBusy = true ∧ (sampleJoin [998, 999] true).m_requestsDone = 2 ∧
    ((sampleJoin [998, 999] true).m_mcAuthSucceeded &&
      (sampleJoin [998, 999] true).m_xboxProfileSucceeded) = false ∧
    (sampleJoin [998, 999] true).stsFailed = true ∧
    ∃ c2, checkResult (sampleJoin [998, 999] true) = some c2 ∧
      c2.m_accountState = AccountTaskState.STATE_FAILED_HARD ∧
      c2.m_stateMessage = "XSTS authentication ended with unrecognized error(s):\n\n998\n999" := by
  obtain ⟨c2, h1, h2, -, -, -, h3⟩ :=
    checkResult_failure_codes (sampleJoin [998, 999] true) rfl rfl rfl rfl
  refine ⟨rfl, rfl, rfl, rfl, c2, h1, h2, ?_⟩
  rw [h3 (by decide) (by decide) (by decide)]
  decide

theorem parseRolloutResponse_rejected (data : Option QJsonDocument) (result : Bool)
    (h : (parseRolloutResponse data result).1 = false) :
    (parseRolloutResponse data result).2 = result := by
  cases data with
  | none => rfl
  | some doc =>
    revert h
    cases hf : doc.toObject.value "feature" with
    | string f =>
      by_cases hm : f = "msamigration"
      · subst hm
        cases hr : doc.toObject.value "rollout" <;>
          simp [parseRolloutResponse, getString_eq, hf, hr, getBool, QJsonValue.isBool,
            QJsonValue.toBool, QJsonValue.isString, QJsonValue.toStr]
      · simp [parseRolloutResponse, getString_eq, hf, hm, QJsonValue.isString,
          QJsonValue.toStr]
    | _ => simp [parseRolloutResponse, getString_eq, hf, QJsonValue.isString]

/-- C16: when the profile fetch ends with the resource-not-found error in a busy task, the
run ends FailedHard with the missing-Java-profile message, the profile of the bundle is the
empty default profile, the validity of the bundle is that profile's validity, which is not
Certain, and the handler issues no request: it emits the final progress, the activity
change and the state change only. -/
theorem onMinecraftProfileDone_notFound (c : Context) (data : Option QJsonDocument)
    (hbusy : c.isBusy = true) :
    ∃ c2, onMinecraftProfileDone c .ContentNotFoundError data = some c2 ∧
      c2.m_accountState = AccountTaskState.STATE_FAILED_HARD ∧
      c2.m_stateMessage = msgNoJavaProfile ∧
      c2.m_data.minecraftProfile = MinecraftProfile.empty ∧
      c2.m_data.validity_ = MinecraftProfile.empty.validity ∧
      c2.m_data.validity_ ≠ Validity.Certain ∧
      c2.trace = c.trace ++ [.progress 6 6, .activityChanged Activity.Idle,
        .stateChanged AccountTaskState.STATE_FAILED_HARD msgNoJavaProfile] := by
  have hact : c.m_activity ≠ Activity.Idle := by simpa [Context.isBusy] using hbusy
  simp [onMinecraftProfileDone, finishActivity, Context.isBusy, hact, setStage,
    Context.changeState, Context.emit, MinecraftProfile.empty, AuthStage.toInt]

/-- Witness for C16: a busy task at the profile stage. -/
theorem onMinecraftProfileDone_notFound_witness :
    (doMinecraftProfile sampleFork).isBusy = true ∧
    ∃ c2, onMinecraftProfileDone (doMinecraftProfile sampleFork) .ContentNotFoundError none =
        some c2 ∧
      c2.m_accountState = AccountTaskState.STATE_FAILED_HARD ∧
      c2.m_stateMessage = msgNoJavaProfile ∧
      c2.m_data.minecraftProfile = MinecraftProfile.empty ∧
      c2.m_data.validity_ = MinecraftProfile.empty.validity ∧
      c2.m_data.validity_ ≠ Validity.Certain ∧
      c2.trace = (doMinecraftProfile sampleFork).trace ++ [.progress 6 6,
        .activityChanged Activity.Idle,
        .stateChanged AccountTaskState.STATE_FAILED_HARD msgNoJavaProfile] :=
  ⟨rfl, onMinecraftProfileDone_notFound (doMinecraftProfile sampleFork) none rfl⟩

/-- C17: for every transport error, and for every body that parseRolloutResponse rejects,
onMigrationEligibilityCheckDone leaves the migration flag and the rest of the bundle as they
were, sets the stage to Skin with the run state Working, and issues the skin request. -/
theorem onMigrationEligibilityCheckDone_advisory (c : Context) (error : NetworkError)
    (data : Option QJsonDocument)
    (h : error ≠ NetworkError.NoError ∨
      (parseRolloutResponse data c.m_data.canMigrateToMSA).1 = false) :
    (onMigrationEligibilityCheckDone c error data).m_data = c.m_data ∧
    (onMigrationEligibilityCheckDone c error data).m_accountState =
      AccountTaskState.STATE_WORKING ∧
    (onMigrationEligibilityCheckDone c error data).m_stage = AuthStage.Skin ∧
    (onMigrationEligibilityCheckDone c error data).m_activity = c.m_activity ∧
    (onMigrationEligibilityCheckDone c error data).trace =
      c.trace ++ [.progress 5 6,
        .stateChanged AccountTaskState.STATE_WORKING "Fetching player skin",
        .request (.skin c.m_data.minecraftProfile.skin.url)] := by
  by_cases he : error = NetworkError.NoError
  · subst he
    have hr : (parseRolloutResponse data c.m_data.canMigrateToMSA).1 = false := by
      rcases h with h | h
      · exact absurd rfl h
      · exact h
    have h2 := parseRolloutResponse_rejected data c.m_data.canMigrateToMSA hr
    simp [onMigrationEligibilityCheckDone, doGetSkin, setStage, Context.changeState,
      Context.emit, h2, AuthStage.toInt]
  · simp [onMigrationEligibilityCheckDone, he, doGetSkin, setStage, Context.changeState,
      Context.emit, AuthStage.toInt]

/-- Witness for C17: a reply that is not valid JSON, in a task at the migration stage. -/
theorem onMigrationEligibilityCheckDone_advisory_witness :
    (NetworkError.NoError ≠ NetworkError.NoError ∨
      (parseRolloutResponse none
        (doMigrationEligibilityCheck sampleFork).m_data.canMigrateToMSA).1 = false) ∧
    (onMigrationEligibilityCheckDone (doMigrationEligibilityCheck sampleFork) .NoError
      none).m_data = (doMigrationEligibilityCheck sampleFork).m_data ∧
    (onMigrationEligibilityCheckDone (doMigrationEligibilityCheck sampleFork) .NoError
      none).m_stage = AuthStage.Skin :=
  have hyp : NetworkError.NoError ≠ NetworkError.NoError ∨
      (parseRolloutResponse none
        (doMigrationEligibilityCheck sampleFork).m_data.canMigrateToMSA).1 = false :=
    Or.inr rfl
  have h := onMigrationEligibilityCheckDone_advisory (doMigrationEligibilityCheck sampleFork)
    .NoError none hyp
  ⟨hyp, h.1, h.2.2.1⟩

/-- C19: in a busy task, a user-authentication completion with a transport error, or with a
reply that parseXTokenResponse rejects, ends the run FailedHard, leaves the user token of
the bundle as it was and issues no request; with an accepted reply the handler stores the
parsed token as the user token, sets the stage to XboxAuth with the run state Working, and
issues the two XSTS requests of Branch A and Branch B, both with the new token, before it
returns, the completion counter being left as it was. -/
theorem onUserAuthDone_outcomes (fromStringISO : String → QDateTime) (c : Context)
    (error : NetworkError) (replyData : Option QJsonDocument) (hbusy : c.isBusy = true) :
    (error ≠ NetworkError.NoError ∨
        (parseXTokenResponse fromStringISO replyData Token.empty).1 = false →
      ∃ c2, onUserAuthDone fromStringISO c error replyData = some c2 ∧
        c2.m_accountState = AccountTaskState.STATE_FAILED_HARD ∧
        c2.m_data.userToken = c.m_data.userToken ∧
        c2.trace = c.trace ++ [.progress 6 6, .activityChanged Activity.Idle,
          .stateChanged AccountTaskState.STATE_FAILED_HARD c2.m_stateMessage]) ∧
    (error = NetworkError.NoError →
        (parseXTokenResponse fromStringISO replyData Token.empty).1 = true →
      ∃ c2, onUserAuthDone fromStringISO c error replyData = some c2 ∧
        c2.m_data.userToken = (parseXTokenResponse fromStringISO replyData Token.empty).2 ∧
        c2.m_stage = AuthStage.XboxAuth ∧
        c2.m_accountState = AccountTaskState.STATE_WORKING ∧
        c2.m_requestsDone = c.m_requestsDone ∧
        c2.trace = c.trace ++ [.progress 2 6,
          .stateChanged AccountTaskState.STATE_WORKING "Starting XBox authentication",
          .request (.xstsAuthorizeMinecraft
            (parseXTokenResponse fromStringISO replyData Token.empty).2.token),
          .request (.xstsAuthorizeGeneric
            (parseXTokenResponse fromStringISO replyData Token.empty).2.token)]) := by
  have hact : c.m_activity ≠ Activity.Idle := by simpa [Context.isBusy] using hbusy
  constructor
  · intro h
    by_cases he : error = NetworkError.NoError
    · subst he
      have hr : (parseXTokenResponse fromStringISO replyData Token.empty).1 = false := by
        rcases h with h | h
        · exact absurd rfl h
        · exact h
      simp [onUserAuthDone, hr, finishActivity, Context.isBusy, hact, setStage,
        Context.changeState, Context.emit, AuthStage.toInt]
    · simp [onUserAuthDone, he, finishActivity, Context.isBusy, hact, setStage,
        Context.changeState, Context.emit, AuthStage.toInt]
  · intro he hacc
    subst he
    simp [onUserAuthDone, hacc, setStage, Context.changeState, Context.emit,
      doSTSAuthMinecraft, doSTSAuthGeneric, AuthStage.toInt]

/-- Witness for C19: a transport error ends the run FailedHard, and the sample reply is
stored and followed by the two XSTS requests. -/
theorem onUserAuthDone_outcomes_witness :
    sampleUserAuth.isBusy = true ∧
    (NetworkError.OtherError ≠ NetworkError.NoError ∨
      (parseXTokenResponse isoDateTimeUTC none Token.empty).1 = false) ∧
    (∃ c2, onUserAuthDone isoDateTimeUTC sampleUserAuth .OtherError none = some c2 ∧
      c2.m_accountState = AccountTaskState.STATE_FAILED_HARD ∧
      c2.m_data.userToken = sampleUserAuth.m_data.userToken ∧
      c2.trace = sampleUserAuth.trace ++ [.progress 6 6, .activityChanged Activity.Idle,
        .stateChanged AccountTaskState.STATE_FAILED_HARD c2.m_stateMessage]) ∧
    (parseXTokenResponse isoDateTimeUTC (some sampleXToken) Token.empty).1 = true ∧
    ∃ c2, onUserAuthDone isoDateTimeUTC sampleUserAuth .NoError (some sampleXToken) = some c2 ∧
      c2.m_data.userToken = sampleUserToken ∧ c2.m_stage = AuthStage.XboxAuth := by
  have hyp : NetworkError.OtherError ≠ NetworkError.NoError ∨
      (parseXTokenResponse isoDateTimeUTC none Token.empty).1 = false := Or.inr rfl
  have hacc : (parseXTokenResponse isoDateTimeUTC (some sampleXToken) Token.empty).1 = true := by
    decide
  obtain ⟨c2, h1, h2, h3, -⟩ :=
    (onUserAuthDone_outcomes isoDateTimeUTC sampleUserAuth .NoError (some sampleXToken) rfl).2
      rfl hacc
  exact ⟨rfl, hyp,
    (onUserAuthDone_outcomes isoDateTimeUTC sampleUserAuth .OtherError none rfl).1 hyp, hacc,
    c2, h1, h2, h3⟩

/-- C20: beginActivity on a busy task throws and leaves the task as it was, with its
activity, run state, stage, bundle and trace of emitted events unchanged; on an idle task it
records the activity, sets the run state to Working and emits the state and activity
changes. -/
theorem beginActivity_guard (c : Context) (activity : Activity) :
    (c.isBusy = true → beginActivity c activity = Except.error c) ∧
    (c.isBusy = false →
      beginActivity c activity = Except.ok
        { c with
          m_activity := activity, m_accountState := AccountTaskState.STATE_WORKING,
          m_stateMessage := "Initializing",
          trace := c.trace ++ [.stateChanged AccountTaskState.STATE_WORKING "Initializing",
            .activityChanged activity] }) := by
  constructor
  · intro h
    simp [beginActivity, h]
  · intro h
    simp [beginActivity, h, Context.changeState, Context.emit]

/-- Witness for C20: a second start during a run throws; a start on an idle task begins
the run. -/
theorem beginActivity_guard_witness :
    sampleFork.isBusy = true ∧
    beginActivity sampleFork Activity.Refreshing = Except.error sampleFork ∧
    sampleIdle.isBusy = false ∧
    beginActivity sampleIdle Activity.LoggingIn = Except.ok
      { sampleIdle with
        m_activity := Activity.LoggingIn, m_accountState := AccountTaskState.STATE_WORKING,
        m_stateMessage := "Initializing",
        trace := sampleIdle.trace ++
          [.stateChanged AccountTaskState.STATE_WORKING "Initializing",
            .activityChanged Activity.LoggingIn] } :=
  ⟨rfl, (beginActivity_guard sampleFork Activity.Refreshing).1 rfl, rfl,
    (beginActivity_guard sampleIdle Activity.LoggingIn).2 rfl⟩

theorem run_nil (fromStringISO : String → QDateTime) (c : Context) :
    run fromStringISO c [] = some c := rfl

theorem run_cons (fromStringISO : String → QDateTime) (c : Context) (ev : Event)
    (rest : List Event) :
    run fromStringISO c (ev :: rest) =
      (step fromStringISO c ev).bind (fun c2 => run fromStringISO c2 rest) := by
  cases h : step fromStringISO c ev <;> simp [run, h]

theorem run_append (fromStringISO : String → QDateTime) (c : Context) (l1 l2 : List Event) :
    run fromStringISO c (l1 ++ l2) =
      (run fromStringISO c l1).bind (fun c2 => run fromStringISO c2 l2) := by
  induction l1 generalizing c with
  | nil => simp [run_nil]
  | cons ev rest ih =>
    rw [List.cons_append, run_cons, run_cons]
    cases step fromStringISO c ev with
    | none => rfl
    | some c2 => simp [ih]

theorem parseMinecraftProfile_accepted_result (data : Option QJsonDocument)
    (output : MinecraftProfile) (h : (parseMinecraftProfile data output).1 = true) :
    (parseMinecraftProfile data output).2.validity = Validity.Certain ∧
      ((parseMinecraftProfile data output).2.skin.data = [] ∨
        (parseMinecraftProfile data output).2.skin = output.skin) := by
  obtain ⟨doc, i, n, hd, h1, h2⟩ := parseMinecraftProfile_accepted data output h
  subst hd
  rw [parseMinecraftProfile_of_fields doc output i n h1 h2]
  refine ⟨rfl, ?_⟩
  simp only
  rw [(capeFold_frame _ _).1, skinsLoop_eq]
  cases (skinsOf doc).find? isActiveSkin with
  | none => exact Or.inr rfl
  | some e => exact Or.inl rfl

theorem onSkinDone_eq (c : Context) (error : NetworkError) (data : QByteArray)
    (hbusy : c.isBusy = true) :
    ∃ c2, onSkinDone c error data = some c2 ∧
      c2.m_accountState = AccountTaskState.STATE_SUCCEEDED ∧
      c2.m_activity = Activity.Idle ∧ c2.m_stage = AuthStage.Complete ∧
      c2.m_data.validity_ = c.m_data.minecraftProfile.validity ∧
      c2.m_data.minecraftProfile.skin.data =
        (if error = NetworkError.NoError then data else c.m_data.minecraftProfile.skin.data) := by
  have hact : c.m_activity ≠ Activity.Idle := by simpa [Context.isBusy] using hbusy
  by_cases he : error = NetworkError.NoError
  · simp [onSkinDone, he, finishActivity, Context.isBusy, hact, setStage,
      Context.changeState, Context.emit]
  · simp [onSkinDone, he, finishActivity, Context.isBusy, hact, setStage,
      Context.changeState, Context.emit]

theorem onMinecraftProfileDone_accepted (c : Context) (data : Option QJsonDocument)
    (h : (parseMinecraftProfile data c.m_data.minecraftProfile).1 = true) :
    onMinecraftProfileDone c .NoError data =
      some (if c.m_data.type = AccountType.Mojang then
        doMigrationEligibilityCheck { c with m_data := { c.m_data with
          minecraftProfile := (parseMinecraftProfile data c.m_data.minecraftProfile).2 } }
      else
        doGetSkin { c with m_data := { c.m_data with
          minecraftProfile := (parseMinecraftProfile data c.m_data.minecraftProfile).2 } }) := by
  by_cases ht : c.m_data.type = AccountType.Mojang <;>
    simp [onMinecraftProfileDone, h, ht]

/-- The skin bytes after an accepted profile reply: none when the reply names an active
skin, and otherwise those the profile held before. -/
theorem parseMinecraftProfile_skin_data (doc : QJsonDocument) (output : MinecraftProfile)
    (h : (parseMinecraftProfile (some doc) output).1 = true) :
    (parseMinecraftProfile (some doc) output).2.skin.data =
      match (skinsOf doc).find? isActiveSkin with
      | some _ => []
      | none => output.skin.data := by
  obtain ⟨doc2, i, n, hd, h1, h2⟩ := parseMinecraftProfile_accepted (some doc) output h
  cases hd
  rw [parseMinecraftProfile_of_fields doc output i n h1 h2]
  simp only
  rw [(capeFold_frame _ _).1, skinsLoop_eq]
  cases (skinsOf doc).find? isActiveSkin with
  | none => rfl
  | some e => rfl

/-- C18, as stated, fails: the bundle holds the skin bytes of an earlier run, the profile
reply is accepted and names no skin, and the skin fetch reports a transport error; the run
ends Succeeded with validity Certain and the old bytes, which are not empty. -/
theorem skin_bytes_survive_failed_fetch :
    sampleAtProfileAgain.isBusy = true ∧
    (parseMinecraftProfile (some sampleProfileNoSkin)
      sampleAtProfileAgain.m_data.minecraftProfile).1 = true ∧
    (run isoDateTimeUTC sampleAtProfileAgain
      (profileToSkinEvents sampleAtProfileAgain.m_data.type (some sampleProfileNoSkin)
        NetworkError.NoError none NetworkError.OtherError [])).map
      (fun c => (c.m_accountState, c.m_data.validity_, c.m_data.minecraftProfile.skin.data)) =
        some (AccountTaskState.STATE_SUCCEEDED, Validity.Certain, [1, 2, 3]) ∧
    ([1, 2, 3] : QByteArray) ≠ [] := by
  refine ⟨rfl, ?_, ?_, ?_⟩ <;> decide

/-- C18, amended: in a busy task whose profile reply is accepted, whatever the skin fetch
returns (and whatever the migration check returned on the way, for a Mojang account), the
run ends Succeeded with the validity of the bundle Certain; the skin bytes are the reply's
bytes when the fetch reports no transport error, and with a transport error they are the
bytes that the skin of the bundle held once the profile reply was read: none when that reply
names an active skin, and otherwise the bytes that the bundle held before, which are none
when it held none. -/
theorem skin_stage_advisory (fromStringISO : String → QDateTime) (c : Context)
    (profileData : Option QJsonDocument) (migrationError : NetworkError)
    (migrationData : Option QJsonDocument) (skinError : NetworkError) (skinData : QByteArray)
    (hbusy : c.isBusy = true)
    (hacc : (parseMinecraftProfile profileData c.m_data.minecraftProfile).1 = true) :
    ∃ c3, run fromStringISO c (profileToSkinEvents c.m_data.type profileData migrationError
        migrationData skinError skinData) = some c3 ∧
      c3.m_accountState = AccountTaskState.STATE_SUCCEEDED ∧
      c3.m_data.validity_ = Validity.Certain ∧
      c3.m_activity = Activity.Idle ∧ c3.m_stage = AuthStage.Complete ∧
      (skinError = NetworkError.NoError → c3.m_data.minecraftProfile.skin.data = skinData) ∧
      (skinError ≠ NetworkError.NoError →
        c3.m_data.minecraftProfile.skin.data =
          (parseMinecraftProfile profileData c.m_data.minecraftProfile).2.skin.data) ∧
      (skinError ≠ NetworkError.NoError → ∀ doc, profileData = some doc →
        c3.m_data.minecraftProfile.skin.data =
          match (skinsOf doc).find? isActiveSkin with
          | some _ => []
          | none => c.m_data.minecraftProfile.skin.data) ∧
      (skinError ≠ NetworkError.NoError → c.m_data.minecraftProfile.skin.data = [] →
        c3.m_data.minecraftProfile.skin.data = []) := by
  obtain ⟨hv, hs⟩ := parseMinecraftProfile_accepted_result profileData _ hacc
  have hact : c.m_activity ≠ Activity.Idle := by simpa [Context.isBusy] using hbusy
  have key : ∀ c2 : Context, c2.isBusy = true →
      c2.m_data.minecraftProfile =
        (parseMinecraftProfile profileData c.m_data.minecraftProfile).2 →
      ∃ c3, onSkinDone c2 skinError skinData = some c3 ∧
        c3.m_accountState = AccountTaskState.STATE_SUCCEEDED ∧
        c3.m_data.validity_ = Validity.Certain ∧
        c3.m_activity = Activity.Idle ∧ c3.m_stage = AuthStage.Complete ∧
        (skinError = NetworkError.NoError → c3.m_data.minecraftProfile.skin.data = skinData) ∧
        (skinError ≠ NetworkError.NoError →
          c3.m_data.minecraftProfile.skin.data =
            (parseMinecraftProfile profileData c.m_data.minecraftProfile).2.skin.data) ∧
        (skinError ≠ NetworkError.NoError → ∀ doc, profileData = some doc →
          c3.m_data.minecraftProfile.skin.data =
            match (skinsOf doc).find? isActiveSkin with
            | some _ => []
            | none => c.m_data.minecraftProfile.skin.data) ∧
        (skinError ≠ NetworkError.NoError → c.m_data.minecraftProfile.skin.data = [] →
          c3.m_data.minecraftProfile.skin.data = []) := by
    intro c2 hb2 hp
    obtain ⟨c3, h1, h2, h3, h4, h5, h6⟩ := onSkinDone_eq c2 skinError skinData hb2
    refine ⟨c3, h1, h2, by rw [h5, hp, hv], h3, h4, ?_, ?_, ?_, ?_⟩
    · intro he
      rw [h6, if_pos he]
    · intro he
      rw [h6, if_neg he, hp]
    · intro he doc hd
      rw [h6, if_neg he, hp]
      subst hd
      exact parseMinecraftProfile_skin_data doc _ hacc
    · intro he h0
      rw [h6, if_neg he, hp]
      rcases hs with hs | hs
      · exact hs
      · rw [hs, h0]
  by_cases ht : c.m_data.type = AccountType.Mojang
  · obtain ⟨c3, h1, rest⟩ := key
      (onMigrationEligibilityCheckDone
        (doMigrationEligibilityCheck { c with m_data := { c.m_data with
          minecraftProfile := (parseMinecraftProfile profileData c.m_data.minecraftProfile).2 } })
        migrationError migrationData)
      (by
        simp only [onMigrationEligibilityCheckDone, doGetSkin, doMigrationEligibilityCheck,
          setStage, Context.changeState, Context.emit, Context.isBusy]
        split <;> simpa using hact)
      (by
        simp only [onMigrationEligibilityCheckDone, doGetSkin, doMigrationEligibilityCheck,
          setStage, Context.changeState, Context.emit]
        split <;> rfl)
    refine ⟨c3, ?_, rest⟩
    simp only [profileToSkinEvents, if_pos ht, List.cons_append, List.nil_append,
      List.append_nil, run_cons, run_nil, step,
      onMinecraftProfileDone_accepted c profileData hacc, Option.some_bind, Option.bind_some]
    exact h1
  · obtain ⟨c3, h1, rest⟩ := key
      (doGetSkin { c with m_data := { c.m_data with
          minecraftProfile := (parseMinecraftProfile profileData c.m_data.minecraftProfile).2 } })
      (by simpa [doGetSkin, setStage, Context.changeState, Context.emit, Context.isBusy]
        using hact)
      (by simp [doGetSkin, setStage, Context.changeState, Context.emit])
    refine ⟨c3, ?_, rest⟩
    simp only [profileToSkinEvents, if_neg ht, List.cons_append, List.nil_append,
      List.append_nil, run_cons, run_nil, step,
      onMinecraftProfileDone_accepted c profileData hacc, Option.some_bind, Option.bind_some]
    exact h1

/-- Witness for C18: the sample profile names an active skin and the skin fetch fails; the
run ends Succeeded with validity Certain and no skin bytes, both from a bundle without skin
bytes and from a bundle that holds the bytes of an earlier run. -/
theorem skin_stage_advisory_witness :
    (doMinecraftProfile sampleFork).isBusy = true ∧
    (parseMinecraftProfile (some sampleProfile)
      (doMinecraftProfile sampleFork).m_data.minecraftProfile).1 = true ∧
    (∃ c3, run isoDateTimeUTC (doMinecraftProfile sampleFork)
        (profileToSkinEvents (doMinecraftProfile sampleFork).m_data.type (some sampleProfile)
          .NoError none .OtherError []) = some c3 ∧
      c3.m_accountState = AccountTaskState.STATE_SUCCEEDED ∧
      c3.m_data.validity_ = Validity.Certain ∧
      c3.m_data.minecraftProfile.skin.data = []) ∧
    sampleAtProfileAgain.isBusy = true ∧
    (parseMinecraftProfile (some sampleProfile)
      sampleAtProfileAgain.m_data.minecraftProfile).1 = true ∧
    (∃ c3, run isoDateTimeUTC sampleAtProfileAgain
        (profileToSkinEvents sampleAtProfileAgain.m_data.type (some sampleProfile)
          .NoError none .OtherError []) = some c3 ∧
      c3.m_accountState = AccountTaskState.STATE_SUCCEEDED ∧
      c3.m_data.validity_ = Validity.Certain ∧
      c3.m_data.minecraftProfile.skin.data = []) := by
  have hacc : (parseMinecraftProfile (some sampleProfile)
      (doMinecraftProfile sampleFork).m_data.minecraftProfile).1 = true := by decide
  have hacc2 : (parseMinecraftProfile (some sampleProfile)
      sampleAtProfileAgain.m_data.minecraftProfile).1 = true := by decide
  obtain ⟨c3, h1, h2, h3, -, -, -, -, -, h4⟩ :=
    skin_stage_advisory isoDateTimeUTC (doMinecraftProfile sampleFork) (some sampleProfile)
      .NoError none .OtherError [] rfl hacc
  obtain ⟨c4, k1, k2, k3, -, -, -, -, k4, -⟩ :=
    skin_stage_advisory isoDateTimeUTC sampleAtProfileAgain (some sampleProfile)
      .NoError none .OtherError [] rfl hacc2
  have hfind : ((skinsOf sampleProfile).find? isActiveSkin).isSome = true := by decide
  refine ⟨rfl, hacc, ⟨c3, h1, h2, h3, h4 (by decide) rfl⟩, rfl, hacc2, c4, k1, k2, k3, ?_⟩
  rw [k4 (by decide) sampleProfile rfl]
  cases hf : (skinsOf sampleProfile).find? isActiveSkin with
  | none => rw [hf] at hfind; cases hfind
  | some e => rfl

/-! ## Lemmas on the fork and the join -/

theorem parseMojangResponse_fst (now : Int) (data : Option QJsonDocument) (o1 o2 : Token) :
    (parseMojangResponse now data o1).1 = (parseMojangResponse now data o2).1 := by
  have key : ∀ a b : Token, (parseMojangResponse now data a).1 = true →
      (parseMojangResponse now data b).1 = true := by
    intro a b h
    obtain ⟨doc, d, u, t, hd, h1, h2, h3⟩ := parseMojangResponse_accepted now data a h
    subst hd
    rw [parseMojangResponse_of_fields now doc b d u t h1 h2 h3]
  cases h1 : (parseMojangResponse now data o1).1 <;>
    cases h2 : (parseMojangResponse now data o2).1 <;> simp_all
  · have := key o2 o1 h2
    simp_all
  · have := key o1 o2 h1
    simp_all

theorem succeedResult_eq (c : Context) (flag : Flag) :
    succeedResult c flag = checkResult (c.countResult flag true) := rfl

theorem failResult_eq (c : Context) (flag : Flag) :
    failResult c flag = checkResult (c.countResult flag false) := rfl

/-- A branch handler is its effect followed, when it reports, by the count and the join. -/
theorem step_eq (fromStringISO : String → QDateTime) (c : Context) (ev : Event)
    (h : ev.isBranchA = true ∨ ev.isBranchB = true) :
    step fromStringISO c ev =
      match ev.report fromStringISO c.userUhs with
      | none => some (ev.effect fromStringISO c)
      | some b => checkResult ((ev.effect fromStringISO c).countResult ev.flag b) := by
  cases ev with
  | stsAuthMinecraftDone error replyData =>
    simp only [step, onSTSAuthMinecraftDone, Event.report, Event.effect, stsAccepted,
      Context.userUhs, Event.flag, Event.isBranchA, failResult_eq, succeedResult_eq]
    by_cases he : error = NetworkError.NoError
    · subst he
      by_cases hp : (parseXTokenResponse fromStringISO replyData Token.empty).1 = true
      swap
      · simp [hp]
      · by_cases hu : ((parseXTokenResponse fromStringISO replyData Token.empty).2.extra.index
            "uhs").1 = (c.m_data.userToken.extra.index "uhs").1
        · simp [hp, hu]
        · simp [hp, hu]
    · simp [he]
  | minecraftAuthDone now error replyData =>
    simp only [step, onMinecraftAuthDone, Event.report, Event.effect, Event.flag,
      Event.isBranchA, failResult_eq, succeedResult_eq]
    by_cases he : error = NetworkError.NoError
    · subst he
      rw [← parseMojangResponse_fst now replyData c.m_data.yggdrasilToken Token.empty]
      by_cases hp : (parseMojangResponse now replyData c.m_data.yggdrasilToken).1 = true <;>
        simp [hp]
    · have hb : (error == NetworkError.NoError) = false := by simpa using he
      simp [he, hb]
  | stsAuthGenericDone error replyData =>
    simp only [step, onSTSAuthGenericDone, Event.report, Event.effect, stsAccepted,
      Context.userUhs, Event.flag, Event.isBranchA, failResult_eq, succeedResult_eq]
    by_cases he : error = NetworkError.NoError
    · subst he
      by_cases hp : (parseXTokenResponse fromStringISO replyData Token.empty).1 = true
      swap
      · simp [hp]
      · by_cases hu : ((parseXTokenResponse fromStringISO replyData Token.empty).2.extra.index
            "uhs").1 = (c.m_data.userToken.extra.index "uhs").1
        · simp [hp, hu]
        · simp [hp, hu]
    · simp [he]
  | xboxProfileDone error =>
    simp only [step, onXBoxProfileDone, Event.report, Event.effect, Event.flag,
      Event.isBranchA, failResult_eq, succeedResult_eq]
    by_cases he : error = NetworkError.NoError
    · simp [he]
    · have hb : (error == NetworkError.NoError) = false := by simpa using he
      simp [he, hb]
  | _ => simp [Event.isBranchA, Event.isBranchB] at h

theorem index_fst_index (m : QVariantMap) (k : String) :
    (QVariantMap.index (QVariantMap.index m k).2 k) = ((QVariantMap.index m k).1,
      (QVariantMap.index m k).2) := by
  unfold QVariantMap.index
  cases h : m.lookup k with
  | some v => simp [h]
  | none => simp [lookup_insert]

theorem checkResult_waiting (c : Context) (h : c.m_requestsDone ≠ 2) :
    checkResult c = some c := by
  simp [checkResult, h]

theorem processSTSError_frame (c : Context) (error : NetworkError)
    (data : Option QJsonDocument) :
    (processSTSError c error data).m_data = c.m_data ∧
    (processSTSError c error data).m_activity = c.m_activity ∧
    (processSTSError c error data).m_stage = c.m_stage ∧
    (processSTSError c error data).m_accountState = c.m_accountState ∧
    (processSTSError c error data).m_stateMessage = c.m_stateMessage ∧
    (processSTSError c error data).m_requestsDone = c.m_requestsDone ∧
    (processSTSError c error data).m_mcAuthSucceeded = c.m_mcAuthSucceeded ∧
    (processSTSError c error data).m_xboxProfileSucceeded = c.m_xboxProfileSucceeded ∧
    (processSTSError c error data).trace = c.trace := by
  unfold processSTSError
  split
  · cases data with
    | none => simp
    | some doc =>
      simp only
      split <;> simp
  · simp

/-- The effect of a branch completion leaves the activity, the stage, the run state, the
message, the counter, the two flags and the user hash as they were, and adds to the trace
nothing but requests of the branches' second steps. -/
theorem effect_frame (fromStringISO : String → QDateTime) (c : Context) (ev : Event) :
    (ev.effect fromStringISO c).m_activity = c.m_activity ∧
    (ev.effect fromStringISO c).m_stage = c.m_stage ∧
    (ev.effect fromStringISO c).m_accountState = c.m_accountState ∧
    (ev.effect fromStringISO c).m_stateMessage = c.m_stateMessage ∧
    (ev.effect fromStringISO c).m_requestsDone = c.m_requestsDone ∧
    (ev.effect fromStringISO c).m_mcAuthSucceeded = c.m_mcAuthSucceeded ∧
    (ev.effect fromStringISO c).m_xboxProfileSucceeded = c.m_xboxProfileSucceeded ∧
    (ev.effect fromStringISO c).userUhs = c.userUhs ∧
    ∃ es, (ev.effect fromStringISO c).trace = c.trace ++ es ∧
      ∀ e ∈ es, Effect.isBranchRequest e = true := by
  cases ev with
  | stsAuthMinecraftDone error replyData =>
    obtain ⟨p1, p2, p3, p4, p5, p6, p7, p8, p9⟩ := processSTSError_frame c error replyData
    simp only [Event.effect, Context.userUhs]
    split
    · exact ⟨p2, p3, p4, p5, p6, p7, p8, by rw [p1], [], by simp [p9], by simp⟩
    · split
      · exact ⟨rfl, rfl, rfl, rfl, rfl, rfl, rfl, rfl, [], by simp, by simp⟩
      · split
        · refine ⟨rfl, rfl, rfl, rfl, rfl, rfl, rfl, ?_, [], by simp, by simp⟩
          simp [index_fst_index]
        · refine ⟨rfl, rfl, rfl, rfl, rfl, rfl, rfl, ?_, _, rfl, ?_⟩
          · simp [doMinecraftAuth, Context.emit, index_fst_index]
          · simp [Effect.isBranchRequest]
  | minecraftAuthDone now error replyData =>
    simp only [Event.effect, Context.userUhs]
    split <;> exact ⟨rfl, rfl, rfl, rfl, rfl, rfl, rfl, rfl, [], by simp, by simp⟩
  | stsAuthGenericDone error replyData =>
    obtain ⟨p1, p2, p3, p4, p5, p6, p7, p8, p9⟩ := processSTSError_frame c error replyData
    simp only [Event.effect, Context.userUhs]
    split
    · exact ⟨p2, p3, p4, p5, p6, p7, p8, by rw [p1], [], by simp [p9], by simp⟩
    · split
      · exact ⟨rfl, rfl, rfl, rfl, rfl, rfl, rfl, rfl, [], by simp, by simp⟩
      · split
        · refine ⟨rfl, rfl, rfl, rfl, rfl, rfl, rfl, ?_, [], by simp, by simp⟩
          simp [index_fst_index]
        · refine ⟨rfl, rfl, rfl, rfl, rfl, rfl, rfl, ?_, _, rfl, ?_⟩
          · simp [doXBoxProfile, Context.emit, index_fst_index]
          · simp [Effect.isBranchRequest]
  | _ => exact ⟨rfl, rfl, rfl, rfl, rfl, rfl, rfl, rfl, [], by simp [Event.effect], by simp⟩

theorem stepBeforeJoin_frame (fromStringISO : String → QDateTime) (c : Context) (ev : Event) :
    (stepBeforeJoin fromStringISO c ev).m_activity = c.m_activity ∧
    (stepBeforeJoin fromStringISO c ev).m_stage = c.m_stage ∧
    (stepBeforeJoin fromStringISO c ev).m_accountState = c.m_accountState ∧
    (stepBeforeJoin fromStringISO c ev).m_stateMessage = c.m_stateMessage ∧
    (stepBeforeJoin fromStringISO c ev).userUhs = c.userUhs ∧
    (stepBeforeJoin fromStringISO c ev).m_requestsDone =
      c.m_requestsDone + (if (ev.report fromStringISO c.userUhs).isSome then 1 else 0) ∧
    ∃ es, (stepBeforeJoin fromStringISO c ev).trace = c.trace ++ es ∧
      ∀ e ∈ es, Effect.isBranchRequest e = true := by
  obtain ⟨h1, h2, h3, h4, h5, -, -, h8, es, h9, h10⟩ := effect_frame fromStringISO c ev
  unfold stepBeforeJoin
  cases hr : ev.report fromStringISO c.userUhs with
  | none => exact ⟨h1, h2, h3, h4, h8, by simp [h5], es, h9, h10⟩
  | some b =>
    have hk : ∀ c2 : Context, (c2.countResult ev.flag b).m_activity = c2.m_activity ∧
        (c2.countResult ev.flag b).m_stage = c2.m_stage ∧
        (c2.countResult ev.flag b).m_accountState = c2.m_accountState ∧
        (c2.countResult ev.flag b).m_stateMessage = c2.m_stateMessage ∧
        (c2.countResult ev.flag b).userUhs = c2.userUhs ∧
        (c2.countResult ev.flag b).m_requestsDone = c2.m_requestsDone + 1 ∧
        (c2.countResult ev.flag b).trace = c2.trace := by
      intro c2
      cases ev.flag <;> simp [Context.countResult, Context.setFlag, Context.userUhs]
    obtain ⟨k1, k2, k3, k4, k5, k6, k7⟩ := hk (ev.effect fromStringISO c)
    exact ⟨k1.trans h1, k2.trans h2, k3.trans h3, k4.trans h4, k5.trans h8,
      by simp [k6, h5], es, k7.trans h9, h10⟩

theorem foldl_stepBeforeJoin_frame (fromStringISO : String → QDateTime) (l : List Event)
    (c : Context) :
    (l.foldl (stepBeforeJoin fromStringISO) c).m_activity = c.m_activity ∧
    (l.foldl (stepBeforeJoin fromStringISO) c).m_stage = c.m_stage ∧
    (l.foldl (stepBeforeJoin fromStringISO) c).m_accountState = c.m_accountState ∧
    (l.foldl (stepBeforeJoin fromStringISO) c).m_stateMessage = c.m_stateMessage ∧
    (l.foldl (stepBeforeJoin fromStringISO) c).userUhs = c.userUhs ∧
    ∃ es, (l.foldl (stepBeforeJoin fromStringISO) c).trace = c.trace ++ es ∧
      ∀ e ∈ es, Effect.isBranchRequest e = true := by
  induction l generalizing c with
  | nil => exact ⟨rfl, rfl, rfl, rfl, rfl, [], by simp, by simp⟩
  | cons ev rest ih =>
    obtain ⟨h1, h2, h3, h4, h5, -, es, h7, h8⟩ := stepBeforeJoin_frame fromStringISO c ev
    obtain ⟨k1, k2, k3, k4, k5, es2, k7, k8⟩ := ih (stepBeforeJoin fromStringISO c ev)
    rw [List.foldl_cons]
    refine ⟨k1.trans h1, k2.trans h2, k3.trans h3, k4.trans h4, k5.trans h5, es ++ es2, ?_, ?_⟩
    · rw [k7, h7, List.append_assoc]
    · intro e he
      rcases List.mem_append.mp he with he | he
      · exact h8 e he
      · exact k8 e he

theorem interleaving_nil_left {bs l : List Event} (h : Interleaving [] bs l) : l = bs := by
  generalize ha : ([] : List Event) = as at h
  induction h with
  | nil => rfl
  | left a _ _ => cases ha
  | right b _ ih => rw [ih ha]

theorem interleaving_nil_right {as l : List Event} (h : Interleaving as [] l) : l = as := by
  generalize hb : ([] : List Event) = bs at h
  induction h with
  | nil => rfl
  | left a _ ih => rw [ih hb]
  | right b _ _ => cases hb

theorem interleaving_append (as bs : List Event) : Interleaving as bs (as ++ bs) := by
  induction as with
  | nil =>
    induction bs with
    | nil => exact Interleaving.nil
    | cons b bs ih => exact Interleaving.right b ih
  | cons a as ih => exact Interleaving.left a ih

theorem branchRest_cons (fromStringISO : String → QDateTime) (uhs : QVariant) (ev : Event)
    (rest : List Event) (h : branchRest fromStringISO uhs (ev :: rest) = true) :
    (rest = [] ∧ (ev.report fromStringISO uhs).isSome = true) ∨
      (rest ≠ [] ∧ ev.report fromStringISO uhs = none ∧
        branchRest fromStringISO uhs rest = true) := by
  cases rest with
  | nil => exact Or.inl ⟨rfl, by simpa [branchRest] using h⟩
  | cons x xs =>
    refine Or.inr ⟨by simp, ?_⟩
    simpa [branchRest] using h

theorem interleaving_length {as bs l : List Event} (h : Interleaving as bs l) :
    l.length = as.length + bs.length := by
  induction h with
  | nil => rfl
  | left a _ ih => simp [ih]; omega
  | right b _ ih => simp [ih]; omega

/-- One completion at the head of what remains of a branch: the counter keeps counting the
finished branches, and the join decides only when nothing remains of either branch. -/
theorem step_advance (fromStringISO : String → QDateTime) (uhs : QVariant) (c : Context)
    (ev : Event) (rest other : List Event)
    (hev : ev.isBranchA = true ∨ ev.isBranchB = true)
    (hrest : branchRest fromStringISO uhs (ev :: rest) = true)
    (huhs : c.userUhs = uhs)
    (hcount : c.m_requestsDone = finishedBranches (ev :: rest) other) :
    (stepBeforeJoin fromStringISO c ev).userUhs = uhs ∧
    (stepBeforeJoin fromStringISO c ev).m_requestsDone = finishedBranches rest other ∧
    step fromStringISO c ev =
      (if rest.isEmpty && other.isEmpty then checkResult (stepBeforeJoin fromStringISO c ev)
      else some (stepBeforeJoin fromStringISO c ev)) := by
  obtain ⟨-, -, -, -, h5, h6, -⟩ := stepBeforeJoin_frame fromStringISO c ev
  rw [huhs] at h6
  have hstep := step_eq fromStringISO c ev hev
  rw [huhs] at hstep
  have hsbj : stepBeforeJoin fromStringISO c ev =
      match ev.report fromStringISO uhs with
      | none => ev.effect fromStringISO c
      | some b => (ev.effect fromStringISO c).countResult ev.flag b := by
    rw [stepBeforeJoin, huhs]
  have hc0 : c.m_requestsDone = if other.isEmpty then 1 else 0 := by
    rw [hcount]
    simp [finishedBranches]
  rcases branchRest_cons fromStringISO uhs ev rest hrest with ⟨hr, hs⟩ | ⟨hr, hn, -⟩
  · subst hr
    have hcnt : (stepBeforeJoin fromStringISO c ev).m_requestsDone =
        1 + (if other.isEmpty then 1 else 0) := by
      rw [h6, hc0, hs]
      simp
      omega
    refine ⟨h5.trans huhs, by rw [hcnt]; simp [finishedBranches], ?_⟩
    cases hrep : ev.report fromStringISO uhs with
    | none => simp [hrep] at hs
    | some b =>
      rw [hrep] at hstep hsbj
      simp only at hstep hsbj
      rw [hstep, ← hsbj]
      cases ho : other.isEmpty
      · simp only [List.isEmpty_nil, Bool.and_false, Bool.false_eq_true, if_false]
        apply checkResult_waiting
        rw [hcnt, ho]
        decide
      · simp
  · have hre : rest.isEmpty = false := by
      cases rest with
      | nil => exact absurd rfl hr
      | cons x xs => rfl
    rw [hn] at hstep hsbj
    simp only at hstep hsbj
    refine ⟨h5.trans huhs, ?_, ?_⟩
    · rw [h6, hc0, hn]
      simp [finishedBranches, hre]
    · rw [hstep, ← hsbj, hre]
      simp

theorem finishedBranches_comm (as bs : List Event) :
    finishedBranches as bs = finishedBranches bs as := by
  simp [finishedBranches, add_comm]

theorem finishedBranches_le_one (as bs : List Event) (h : (as.isEmpty && bs.isEmpty) = false) :
    finishedBranches as bs ≤ 1 := by
  cases as <;> cases bs <;> simp [finishedBranches] at h ⊢

theorem branchRest_tail (fromStringISO : String → QDateTime) (uhs : QVariant) (ev : Event)
    (rest : List Event) (h : branchRest fromStringISO uhs (ev :: rest) = true) :
    branchRest fromStringISO uhs rest = true := by
  rcases branchRest_cons fromStringISO uhs ev rest h with ⟨hr, -⟩ | ⟨-, -, hr⟩
  · subst hr
    rfl
  · exact hr

/-- What a completion at the head of an interleaving leads to, given what holds for the
rest of the interleaving from the task it produces. -/
theorem run_fork_cons (fromStringISO : String → QDateTime) (c : Context) (ev : Event)
    (rest other l2 : List Event) (hlen : l2.length = rest.length + other.length)
    (hcount : c.m_requestsDone = finishedBranches (ev :: rest) other)
    (hn : (stepBeforeJoin fromStringISO c ev).m_requestsDone = finishedBranches rest other)
    (hstep : step fromStringISO c ev =
      (if rest.isEmpty && other.isEmpty then checkResult (stepBeforeJoin fromStringISO c ev)
      else some (stepBeforeJoin fromStringISO c ev)))
    (ih : (l2 ≠ [] →
        run fromStringISO (stepBeforeJoin fromStringISO c ev) l2 =
          checkResult (l2.foldl (stepBeforeJoin fromStringISO)
            (stepBeforeJoin fromStringISO c ev)) ∧
        (l2.foldl (stepBeforeJoin fromStringISO)
          (stepBeforeJoin fromStringISO c ev)).m_requestsDone = 2) ∧
      ∀ p, p <+: l2 → p ≠ l2 →
        run fromStringISO (stepBeforeJoin fromStringISO c ev) p =
          some (p.foldl (stepBeforeJoin fromStringISO) (stepBeforeJoin fromStringISO c ev)) ∧
        (p.foldl (stepBeforeJoin fromStringISO)
          (stepBeforeJoin fromStringISO c ev)).m_requestsDone ≤ 1) :
    (run fromStringISO c (ev :: l2) =
        checkResult ((ev :: l2).foldl (stepBeforeJoin fromStringISO) c) ∧
      ((ev :: l2).foldl (stepBeforeJoin fromStringISO) c).m_requestsDone = 2) ∧
    ∀ p, p <+: ev :: l2 → p ≠ ev :: l2 →
      run fromStringISO c p = some (p.foldl (stepBeforeJoin fromStringISO) c) ∧
      (p.foldl (stepBeforeJoin fromStringISO) c).m_requestsDone ≤ 1 := by
  have hempty : (rest.isEmpty && other.isEmpty) = true ↔ l2 = [] := by
    constructor
    · intro h
      simp only [Bool.and_eq_true, List.isEmpty_iff] at h
      rw [h.1, h.2] at hlen
      exact List.length_eq_zero.mp hlen
    · intro h
      rw [h] at hlen
      simp only [List.length_nil] at hlen
      have h1 : rest.length = 0 := by omega
      have h2 : other.length = 0 := by omega
      simp [List.length_eq_zero.mp h1, List.length_eq_zero.mp h2]
  constructor
  · rw [run_cons, hstep, List.foldl_cons]
    by_cases he : (rest.isEmpty && other.isEmpty) = true
    · have hl : l2 = [] := hempty.mp he
      subst hl
      simp only [Bool.and_eq_true, List.isEmpty_iff] at he
      refine ⟨?_, ?_⟩
      · rw [if_pos (by simp [he.1, he.2])]
        simp [run_nil]
      · rw [List.foldl_nil, hn, he.1, he.2]
        rfl
    · have hl : l2 ≠ [] := fun h => he (hempty.mpr h)
      rw [if_neg he]
      exact ih.1 hl
  · intro p hp hne
    rcases List.prefix_cons_iff.mp hp with h0 | ⟨t, ht, hpre⟩
    · subst h0
      refine ⟨rfl, ?_⟩
      rw [List.foldl_nil, hcount]
      apply finishedBranches_le_one
      simp
    · subst ht
      have htl : t ≠ l2 := fun h => hne (by rw [h])
      have hl : l2 ≠ [] := by
        intro h
        subst h
        exact htl (List.prefix_nil.mp hpre)
      have he : ¬ (rest.isEmpty && other.isEmpty) = true := fun h => hl (hempty.mp h)
      rw [run_cons, hstep, if_neg he, List.foldl_cons]
      exact ih.2 t hpre htl

/-- During the fork the join decides at the last completion and not before: a run over an
interleaving of what remains of the two branches is the completions without the join, with
a single call of `checkResult` at the end, where the counter is 2; over a shorter run the
counter is at most 1. -/
theorem run_fork (fromStringISO : String → QDateTime) (uhs : QVariant) {as bs l : List Event}
    (h : Interleaving as bs l) :
    branchRest fromStringISO uhs as = true → branchRest fromStringISO uhs bs = true →
    (∀ e ∈ as, Event.isBranchA e = true) → (∀ e ∈ bs, Event.isBranchB e = true) →
    ∀ c : Context, c.userUhs = uhs → c.m_requestsDone = finishedBranches as bs →
    (l ≠ [] →
      run fromStringISO c l = checkResult (l.foldl (stepBeforeJoin fromStringISO) c) ∧
      (l.foldl (stepBeforeJoin fromStringISO) c).m_requestsDone = 2) ∧
    ∀ p, p <+: l → p ≠ l →
      run fromStringISO c p = some (p.foldl (stepBeforeJoin fromStringISO) c) ∧
      (p.foldl (stepBeforeJoin fromStringISO) c).m_requestsDone ≤ 1 := by
  induction h with
  | nil =>
    intro _ _ _ _ c _ _
    refine ⟨fun h => absurd rfl h, ?_⟩
    intro p hp hne
    exact absurd (List.prefix_nil.mp hp) hne
  | @left a as bs l h2 ih =>
    intro hA hB tA tB c huhs hcount
    obtain ⟨u1, n1, s1⟩ := step_advance fromStringISO uhs c a as bs
      (Or.inl (tA a (List.mem_cons_self _ _))) hA huhs hcount
    have ih2 := ih (branchRest_tail fromStringISO uhs a as hA) hB
      (fun e he => tA e (List.mem_cons_of_mem _ he)) tB _ u1 n1
    have key := run_fork_cons fromStringISO c a as bs l (interleaving_length h2) hcount n1 s1 ih2
    exact ⟨fun _ => key.1, key.2⟩
  | @right b as bs l h2 ih =>
    intro hA hB tA tB c huhs hcount
    rw [finishedBranches_comm] at hcount
    obtain ⟨u1, n1, s1⟩ := step_advance fromStringISO uhs c b bs as
      (Or.inr (tB b (List.mem_cons_self _ _))) hB huhs hcount
    have n2 := n1
    rw [finishedBranches_comm] at n2
    have ih2 := ih hA (branchRest_tail fromStringISO uhs b bs hB) tA
      (fun e he => tB e (List.mem_cons_of_mem _ he)) _ u1 n2
    have hlen : l.length = bs.length + as.length := by
      rw [interleaving_length h2, add_comm]
    have key := run_fork_cons fromStringISO c b bs as l hlen hcount n1 s1 ih2
    exact ⟨fun _ => key.1, key.2⟩

theorem processSTSError_eq (c : Context) (error : NetworkError) (data : Option QJsonDocument) :
    processSTSError c error data =
      match xerrOf error data with
      | none => c
      | some code => { c with stsErrors := QSet.insert c.stsErrors code, stsFailed := true } := by
  unfold processSTSError xerrOf
  by_cases he : error = NetworkError.AuthenticationRequiredError
  · subst he
    cases data with
    | none => simp
    | some doc =>
      cases hv : doc.toObject.value "XErr" <;>
        simp [hv, getNumberInt64, QJsonValue.isDouble, QJsonValue.toDouble]
  · simp [he]

theorem qset_insert_perm (l1 l2 : List Int) (x : Int) (h : l1.Perm l2) :
    (QSet.insert l1 x).Perm (QSet.insert l2 x) := by
  unfold QSet.insert
  rw [contains_eq_decide, contains_eq_decide]
  by_cases hx : x ∈ l1
  · have hx2 : x ∈ l2 := h.mem_iff.mp hx
    simpa [hx, hx2] using h
  · have hx2 : x ∉ l2 := fun k => hx (h.mem_iff.mpr k)
    simpa [hx, hx2] using h.append_right [x]

theorem qset_insert_comm (l : List Int) (x y : Int) :
    (QSet.insert (QSet.insert l x) y).Perm (QSet.insert (QSet.insert l y) x) := by
  unfold QSet.insert
  simp only [contains_eq_decide]
  by_cases hx : x ∈ l <;> by_cases hy : y ∈ l <;> by_cases hxy : x = y <;>
    simp_all [List.perm_append_comm, eq_comm]
  exact List.Perm.append_left l (List.Perm.swap y x [])

theorem agree_refl (c : Context) : c.Agree c :=
  ⟨rfl, rfl, rfl, rfl, rfl, rfl, rfl, rfl, List.Perm.refl _, rfl⟩

theorem agree_symm {c1 c2 : Context} (h : c1.Agree c2) : c2.Agree c1 := by
  obtain ⟨h1, h2, h3, h4, h5, h6, h7, h8, h9, h10⟩ := h
  exact ⟨h1.symm, h2.symm, h3.symm, h4.symm, h5.symm, h6.symm, h7.symm, h8.symm, h9.symm,
    h10.symm⟩

theorem agree_trans {c1 c2 c3 : Context} (h : c1.Agree c2) (k : c2.Agree c3) : c1.Agree c3 := by
  obtain ⟨h1, h2, h3, h4, h5, h6, h7, h8, h9, h10⟩ := h
  obtain ⟨k1, k2, k3, k4, k5, k6, k7, k8, k9, k10⟩ := k
  exact ⟨h1.trans k1, h2.trans k2, h3.trans k3, h4.trans k4, h5.trans k5, h6.trans k6,
    h7.trans k7, h8.trans k8, h9.trans k9, h10.trans k10⟩

theorem effect_comm_sts (fromStringISO : String → QDateTime) (c : Context)
    (e1 e2 : NetworkError) (d1 d2 : Option QJsonDocument) :
    Context.Agree
      (Event.effect fromStringISO
        (Event.effect fromStringISO c (.stsAuthMinecraftDone e1 d1)) (.stsAuthGenericDone e2 d2))
      (Event.effect fromStringISO
        (Event.effect fromStringISO c (.stsAuthGenericDone e2 d2))
        (.stsAuthMinecraftDone e1 d1)) := by
  simp only [Event.effect, processSTSError_eq]
  by_cases he1 : e1 = NetworkError.NoError <;> by_cases he2 : e2 = NetworkError.NoError <;>
  by_cases hp1 : (parseXTokenResponse fromStringISO d1 Token.empty).1 = true <;>
  by_cases hp2 : (parseXTokenResponse fromStringISO d2 Token.empty).1 = true <;>
  by_cases hu1 : ((parseXTokenResponse fromStringISO d1 Token.empty).2.extra.index "uhs").1 =
    (c.m_data.userToken.extra.index "uhs").1 <;>
  by_cases hu2 : ((parseXTokenResponse fromStringISO d2 Token.empty).2.extra.index "uhs").1 =
    (c.m_data.userToken.extra.index "uhs").1 <;>
  cases hx1 : xerrOf e1 d1 <;> cases hx2 : xerrOf e2 d2 <;>
  simp [Context.Agree, he1, he2, hp1, hp2, hu1, hu2, hx1, hx2, doMinecraftAuth, doXBoxProfile,
    Context.emit, index_fst_index, qset_insert_comm]

theorem effect_comm_login (fromStringISO : String → QDateTime) (c : Context) (now : Int)
    (e1 e2 : NetworkError) (d1 d2 : Option QJsonDocument) :
    Context.Agree
      (Event.effect fromStringISO
        (Event.effect fromStringISO c (.minecraftAuthDone now e1 d1)) (.stsAuthGenericDone e2 d2))
      (Event.effect fromStringISO
        (Event.effect fromStringISO c (.stsAuthGenericDone e2 d2))
        (.minecraftAuthDone now e1 d1)) := by
  simp only [Event.effect, processSTSError_eq]
  by_cases he1 : e1 = NetworkError.NoError <;> by_cases he2 : e2 = NetworkError.NoError <;>
  by_cases hp2 : (parseXTokenResponse fromStringISO d2 Token.empty).1 = true <;>
  by_cases hu2 : ((parseXTokenResponse fromStringISO d2 Token.empty).2.extra.index "uhs").1 =
    (c.m_data.userToken.extra.index "uhs").1 <;>
  cases hx2 : xerrOf e2 d2 <;>
  simp [Context.Agree, he1, he2, hp2, hu2, hx2, doXBoxProfile, Context.emit]

/-- The effects of a Branch A completion and of a Branch B completion commute, up to the
order of the recorded codes and of the trace. -/
theorem effect_comm (fromStringISO : String → QDateTime) (c : Context) (x y : Event)
    (hx : x.isBranchA = true) (hy : y.isBranchB = true) :
    Context.Agree (Event.effect fromStringISO (Event.effect fromStringISO c x) y)
      (Event.effect fromStringISO (Event.effect fromStringISO c y) x) := by
  cases y with
  | stsAuthGenericDone e2 d2 =>
    cases x with
    | stsAuthMinecraftDone e1 d1 => exact effect_comm_sts fromStringISO c e1 e2 d1 d2
    | minecraftAuthDone now e1 d1 => exact effect_comm_login fromStringISO c now e1 e2 d1 d2
    | _ => simp [Event.isBranchA] at hx
  | xboxProfileDone e2 => exact agree_refl _
  | _ => simp [Event.isBranchB] at hy

/-- The effect of a completion respects the agreement of tasks. -/
theorem effect_agree (fromStringISO : String → QDateTime) (c1 c2 : Context) (ev : Event)
    (h : c1.Agree c2) :
    Context.Agree (Event.effect fromStringISO c1 ev) (Event.effect fromStringISO c2 ev) := by
  obtain ⟨d1, a1, s1, t1, m1, n1, f1, g1, errs1, sf1, tr1⟩ := c1
  obtain ⟨d2, a2, s2, t2, m2, n2, f2, g2, errs2, sf2, tr2⟩ := c2
  obtain ⟨h1, h2, h3, h4, h5, h6, h7, h8, h9, h10⟩ := h
  simp only at h1 h2 h3 h4 h5 h6 h7 h8 h9 h10
  subst h1 h2 h3 h4 h5 h6 h7 h8 h10
  cases ev with
  | stsAuthMinecraftDone e d =>
    simp only [Event.effect, processSTSError_eq]
    by_cases he : e = NetworkError.NoError <;>
    by_cases hp : (parseXTokenResponse fromStringISO d Token.empty).1 = true <;>
    by_cases hu : ((parseXTokenResponse fromStringISO d Token.empty).2.extra.index "uhs").1 =
      (d1.userToken.extra.index "uhs").1 <;>
    cases hx : xerrOf e d <;>
    simp [Context.Agree, he, hp, hu, hx, doMinecraftAuth, Context.emit, h9, qset_insert_perm]
  | stsAuthGenericDone e d =>
    simp only [Event.effect, processSTSError_eq]
    by_cases he : e = NetworkError.NoError <;>
    by_cases hp : (parseXTokenResponse fromStringISO d Token.empty).1 = true <;>
    by_cases hu : ((parseXTokenResponse fromStringISO d Token.empty).2.extra.index "uhs").1 =
      (d1.userToken.extra.index "uhs").1 <;>
    cases hx : xerrOf e d <;>
    simp [Context.Agree, he, hp, hu, hx, doXBoxProfile, Context.emit, h9, qset_insert_perm]
  | minecraftAuthDone now e d =>
    simp only [Event.effect]
    by_cases he : e = NetworkError.NoError <;> simp [Context.Agree, he, h9]
  | _ => simpa [Event.effect, Context.Agree] using h9

theorem effect_countResult (fromStringISO : String → QDateTime) (c : Context) (ev : Event)
    (flag : Flag) (b : Bool) :
    Event.effect fromStringISO (c.countResult flag b) ev =
      (Event.effect fromStringISO c ev).countResult flag b := by
  cases flag <;> cases ev <;>
    simp only [Event.effect, processSTSError_eq, Context.countResult, Context.setFlag,
      doMinecraftAuth, doXBoxProfile, Context.emit] <;>
    (try split) <;> (try split) <;> (try split) <;> rfl

theorem countResult_agree (c1 c2 : Context) (flag : Flag) (b : Bool) (h : c1.Agree c2) :
    (c1.countResult flag b).Agree (c2.countResult flag b) := by
  obtain ⟨h1, h2, h3, h4, h5, h6, h7, h8, h9, h10⟩ := h
  cases flag <;> simp [Context.Agree, Context.countResult, Context.setFlag, *]

theorem countResult_comm (c : Context) (b1 b2 : Bool) :
    (c.countResult Flag.m_mcAuthSucceeded b1).countResult Flag.m_xboxProfileSucceeded b2 =
      (c.countResult Flag.m_xboxProfileSucceeded b2).countResult Flag.m_mcAuthSucceeded b1 := by
  simp [Context.countResult, Context.setFlag]

theorem agree_userUhs {c1 c2 : Context} (h : c1.Agree c2) : c1.userUhs = c2.userUhs := by
  unfold Context.userUhs
  rw [h.1]

theorem stepBeforeJoin_agree (fromStringISO : String → QDateTime) (c1 c2 : Context)
    (ev : Event) (h : c1.Agree c2) :
    (stepBeforeJoin fromStringISO c1 ev).Agree (stepBeforeJoin fromStringISO c2 ev) := by
  unfold stepBeforeJoin
  rw [agree_userUhs h]
  cases ev.report fromStringISO c2.userUhs with
  | none => exact effect_agree fromStringISO c1 c2 ev h
  | some b => exact countResult_agree _ _ _ _ (effect_agree fromStringISO c1 c2 ev h)

theorem flag_branchA (ev : Event) (h : ev.isBranchA = true) :
    ev.flag = Flag.m_mcAuthSucceeded := by
  simp [Event.flag, h]

theorem flag_branchB (ev : Event) (h : ev.isBranchB = true) :
    ev.flag = Flag.m_xboxProfileSucceeded := by
  cases ev <;> simp [Event.isBranchB] at h <;> simp [Event.flag, Event.isBranchA]

/-- A completion of Branch A and one of Branch B commute before the join. -/
theorem stepBeforeJoin_comm (fromStringISO : String → QDateTime) (c : Context) (x y : Event)
    (hx : x.isBranchA = true) (hy : y.isBranchB = true) :
    (stepBeforeJoin fromStringISO (stepBeforeJoin fromStringISO c x) y).Agree
      (stepBeforeJoin fromStringISO (stepBeforeJoin fromStringISO c y) x) := by
  have ux := (stepBeforeJoin_frame fromStringISO c x).2.2.2.2.1
  have uy := (stepBeforeJoin_frame fromStringISO c y).2.2.2.2.1
  have e1 : stepBeforeJoin fromStringISO (stepBeforeJoin fromStringISO c x) y =
      match y.report fromStringISO c.userUhs with
      | none => y.effect fromStringISO (stepBeforeJoin fromStringISO c x)
      | some b => (y.effect fromStringISO (stepBeforeJoin fromStringISO c x)).countResult
          y.flag b := by
    rw [stepBeforeJoin, ux]
  have e2 : stepBeforeJoin fromStringISO (stepBeforeJoin fromStringISO c y) x =
      match x.report fromStringISO c.userUhs with
      | none => x.effect fromStringISO (stepBeforeJoin fromStringISO c y)
      | some b => (x.effect fromStringISO (stepBeforeJoin fromStringISO c y)).countResult
          x.flag b := by
    rw [stepBeforeJoin, uy]
  rw [e1, e2]
  unfold stepBeforeJoin
  rw [flag_branchA x hx, flag_branchB y hy]
  have hc := effect_comm fromStringISO c x y hx hy
  cases x.report fromStringISO c.userUhs with
  | none =>
    cases y.report fromStringISO c.userUhs with
    | none => exact hc
    | some b2 =>
      simp only [effect_countResult]
      exact countResult_agree _ _ _ _ hc
  | some b1 =>
    cases y.report fromStringISO c.userUhs with
    | none =>
      simp only [effect_countResult]
      exact countResult_agree _ _ _ _ hc
    | some b2 =>
      simp only [effect_countResult]
      rw [countResult_comm]
      exact countResult_agree _ _ _ _ (countResult_agree _ _ _ _ hc)

theorem foldl_agree (fromStringISO : String → QDateTime) (l : List Event) (c1 c2 : Context)
    (h : c1.Agree c2) :
    (l.foldl (stepBeforeJoin fromStringISO) c1).Agree
      (l.foldl (stepBeforeJoin fromStringISO) c2) := by
  induction l generalizing c1 c2 with
  | nil => exact h
  | cons ev rest ih => exact ih _ _ (stepBeforeJoin_agree fromStringISO c1 c2 ev h)

theorem foldl_push (fromStringISO : String → QDateTime) (as : List Event) (b : Event)
    (hA : ∀ a ∈ as, Event.isBranchA a = true) (hb : b.isBranchB = true) (c : Context) :
    (as.foldl (stepBeforeJoin fromStringISO) (stepBeforeJoin fromStringISO c b)).Agree
      (stepBeforeJoin fromStringISO (as.foldl (stepBeforeJoin fromStringISO) c) b) := by
  induction as generalizing c with
  | nil => exact agree_refl _
  | cons a as ih =>
    simp only [List.foldl_cons]
    have h1 := agree_symm (stepBeforeJoin_comm fromStringISO c a b
      (hA a (List.mem_cons_self _ _)) hb)
    exact agree_trans (foldl_agree fromStringISO as _ _ h1)
      (ih (fun e he => hA e (List.mem_cons_of_mem _ he)) _)

/-- Before the join, every interleaving of the completions of the two branches leaves the
task as the run of Branch A followed by Branch B leaves it, up to the order of the recorded
codes and of the trace. -/
theorem foldl_interleaving (fromStringISO : String → QDateTime) {as bs l : List Event}
    (h : Interleaving as bs l) :
    (∀ a ∈ as, Event.isBranchA a = true) → (∀ b ∈ bs, Event.isBranchB b = true) →
    ∀ c : Context, (l.foldl (stepBeforeJoin fromStringISO) c).Agree
      ((as ++ bs).foldl (stepBeforeJoin fromStringISO) c) := by
  induction h with
  | nil => exact fun _ _ c => agree_refl _
  | @left a as bs l _ ih =>
    intro hA hB c
    simp only [List.cons_append, List.foldl_cons]
    exact ih (fun e he => hA e (List.mem_cons_of_mem _ he)) hB _
  | @right b as bs l _ ih =>
    intro hA hB c
    simp only [List.foldl_cons, List.foldl_append]
    have h1 := ih hA (fun e he => hB e (List.mem_cons_of_mem _ he))
      (stepBeforeJoin fromStringISO c b)
    rw [List.foldl_append] at h1
    exact agree_trans h1 (foldl_agree fromStringISO bs _ _
      (foldl_push fromStringISO as b hA (hB b (List.mem_cons_self _ _)) c))

theorem branchAEvents_rest (fromStringISO : String → QDateTime) (uhs : QVariant)
    (a : BranchAReplies) :
    branchRest fromStringISO uhs (branchAEvents fromStringISO uhs a) = true ∧
      ∀ e ∈ branchAEvents fromStringISO uhs a, Event.isBranchA e = true := by
  unfold branchAEvents
  by_cases h : stsAccepted fromStringISO uhs a.stsError a.stsReply = true
  · simp [h, branchRest, Event.report, Event.isBranchA]
  · simp [h, branchRest, Event.report, Event.isBranchA]

theorem branchBEvents_rest (fromStringISO : String → QDateTime) (uhs : QVariant)
    (b : BranchBReplies) :
    branchRest fromStringISO uhs (branchBEvents fromStringISO uhs b) = true ∧
      ∀ e ∈ branchBEvents fromStringISO uhs b, Event.isBranchB e = true := by
  unfold branchBEvents
  by_cases h : stsAccepted fromStringISO uhs b.stsError b.stsReply = true
  · simp [h, branchRest, Event.report, Event.isBranchB]
  · simp [h, branchRest, Event.report, Event.isBranchB]

theorem finishedBranches_fork (fromStringISO : String → QDateTime) (uhs : QVariant)
    (a : BranchAReplies) (b : BranchBReplies) :
    finishedBranches (branchAEvents fromStringISO uhs a) (branchBEvents fromStringISO uhs b) =
      0 := by
  simp [finishedBranches, branchAEvents, branchBEvents]

theorem fork_ne_nil (fromStringISO : String → QDateTime) (uhs : QVariant)
    (a : BranchAReplies) (b : BranchBReplies) (l : List Event)
    (h : Interleaving (branchAEvents fromStringISO uhs a) (branchBEvents fromStringISO uhs b) l) :
    l ≠ [] := by
  intro hl
  have := interleaving_length h
  rw [hl] at this
  simp only [branchAEvents, List.length_nil, List.length_cons] at this
  omega

/-- The flags and the counter after the completions of a run without the join. -/
theorem stepBeforeJoin_flags (fromStringISO : String → QDateTime) (c : Context) (ev : Event) :
    (stepBeforeJoin fromStringISO c ev).m_mcAuthSucceeded =
      (match ev.report fromStringISO c.userUhs, ev.flag with
      | some b, Flag.m_mcAuthSucceeded => b
      | _, _ => c.m_mcAuthSucceeded) ∧
    (stepBeforeJoin fromStringISO c ev).m_xboxProfileSucceeded =
      (match ev.report fromStringISO c.userUhs, ev.flag with
      | some b, Flag.m_xboxProfileSucceeded => b
      | _, _ => c.m_xboxProfileSucceeded) := by
  obtain ⟨-, -, -, -, -, h6, h7, -⟩ := effect_frame fromStringISO c ev
  unfold stepBeforeJoin
  cases ev.report fromStringISO c.userUhs with
  | none => exact ⟨h6, h7⟩
  | some b => cases ev.flag <;> simp [Context.countResult, Context.setFlag, h6, h7]

theorem branchA_flags (fromStringISO : String → QDateTime) (c : Context) (a : BranchAReplies) :
    ((branchAEvents fromStringISO c.userUhs a).foldl (stepBeforeJoin fromStringISO)
      c).m_mcAuthSucceeded = branchASucceeds fromStringISO c.userUhs a ∧
    ((branchAEvents fromStringISO c.userUhs a).foldl (stepBeforeJoin fromStringISO)
      c).m_xboxProfileSucceeded = c.m_xboxProfileSucceeded := by
  have u1 := (stepBeforeJoin_frame fromStringISO c
    (.stsAuthMinecraftDone a.stsError a.stsReply)).2.2.2.2.1
  unfold branchAEvents branchASucceeds
  by_cases h : stsAccepted fromStringISO c.userUhs a.stsError a.stsReply = true
  · simp only [h, if_true, List.foldl_cons, List.foldl_nil, Bool.true_and]
    obtain ⟨f1, f2⟩ := stepBeforeJoin_flags fromStringISO
      (stepBeforeJoin fromStringISO c (.stsAuthMinecraftDone a.stsError a.stsReply))
      (.minecraftAuthDone a.now a.loginError a.loginReply)
    obtain ⟨g1, g2⟩ := stepBeforeJoin_flags fromStringISO c
      (.stsAuthMinecraftDone a.stsError a.stsReply)
    rw [f1, f2, g2]
    simp [Event.report, Event.flag, Event.isBranchA, h]
  · have h2 : stsAccepted fromStringISO c.userUhs a.stsError a.stsReply = false := by
      simpa using h
    simp only [h2, Bool.false_eq_true, if_false, List.foldl_cons, List.foldl_nil,
      Bool.false_and]
    obtain ⟨g1, g2⟩ := stepBeforeJoin_flags fromStringISO c
      (.stsAuthMinecraftDone a.stsError a.stsReply)
    rw [g1, g2]
    simp [Event.report, Event.flag, Event.isBranchA, h2]

theorem branchB_flags (fromStringISO : String → QDateTime) (uhs : QVariant) (c : Context)
    (b : BranchBReplies) (hu : c.userUhs = uhs) :
    ((branchBEvents fromStringISO uhs b).foldl (stepBeforeJoin fromStringISO)
      c).m_xboxProfileSucceeded = branchBSucceeds fromStringISO uhs b ∧
    ((branchBEvents fromStringISO uhs b).foldl (stepBeforeJoin fromStringISO)
      c).m_mcAuthSucceeded = c.m_mcAuthSucceeded := by
  subst hu
  unfold branchBEvents branchBSucceeds
  by_cases h : stsAccepted fromStringISO c.userUhs b.stsError b.stsReply = true
  · simp only [h, if_true, List.foldl_cons, List.foldl_nil, Bool.true_and]
    obtain ⟨f1, f2⟩ := stepBeforeJoin_flags fromStringISO
      (stepBeforeJoin fromStringISO c (.stsAuthGenericDone b.stsError b.stsReply))
      (.xboxProfileDone b.profileError)
    obtain ⟨g1, g2⟩ := stepBeforeJoin_flags fromStringISO c
      (.stsAuthGenericDone b.stsError b.stsReply)
    rw [f1, f2, g1]
    simp [Event.report, Event.flag, Event.isBranchA, h]
  · have h2 : stsAccepted fromStringISO c.userUhs b.stsError b.stsReply = false := by
      simpa using h
    simp only [h2, Bool.false_eq_true, if_false, List.foldl_cons, List.foldl_nil,
      Bool.false_and]
    obtain ⟨g1, g2⟩ := stepBeforeJoin_flags fromStringISO c
      (.stsAuthGenericDone b.stsError b.stsReply)
    rw [g1, g2]
    simp [Event.report, Event.flag, Event.isBranchA, h2]

theorem checkResult_success (c : Context) (hdone : c.m_requestsDone = 2)
    (hA : c.m_mcAuthSucceeded = true) (hB : c.m_xboxProfileSucceeded = true) :
    checkResult c = some (doMinecraftProfile c) := by
  simp [checkResult, hdone, hA, hB]

/-- The join gives tasks that agree the same outcome. -/
theorem checkResult_agree (c1 c2 : Context) (h : c1.Agree c2) (hdone : c1.m_requestsDone = 2)
    (hbusy : c1.isBusy = true) :
    ∃ r1 r2, checkResult c1 = some r1 ∧ checkResult c2 = some r2 ∧ r1.SameOutcome r2 := by
  obtain ⟨h1, h2, h3, h4, h5, h6, h7, h8, h9, h10⟩ := h
  have hdone2 : c2.m_requestsDone = 2 := by rw [← h6, hdone]
  have hbusy2 : c2.isBusy = true := by
    simpa [Context.isBusy, ← h2] using hbusy
  by_cases hs : (c1.m_mcAuthSucceeded && c1.m_xboxProfileSucceeded) = true
  · simp only [Bool.and_eq_true] at hs
    refine ⟨_, _, checkResult_success c1 hdone hs.1 hs.2,
      checkResult_success c2 hdone2 (by rw [← h7, hs.1]) (by rw [← h8, hs.2]), ?_⟩
    simp [Context.SameOutcome, SameCategory, doMinecraftProfile, setStage,
      Context.changeState, Context.emit, h1, h2, h6, h7, h8, h9, h10]
  · have hf : (c1.m_mcAuthSucceeded && c1.m_xboxProfileSucceeded) = false := by
      simpa using hs
    have hf2 : (c2.m_mcAuthSucceeded && c2.m_xboxProfileSucceeded) = false := by
      rw [← h7, ← h8, hf]
    obtain ⟨r1, k1, k2, k3, k4, k5, k6, k7, k8, k9, k10, k11⟩ :=
      checkResult_failure c1 hbusy hdone hf
    obtain ⟨r2, j1, j2, j3, j4, j5, j6, j7, j8, j9, j10, j11⟩ :=
      checkResult_failure c2 hbusy2 hdone2 hf2
    have hmem : ∀ x : Int, x ∈ c1.stsErrors ↔ x ∈ c2.stsErrors := fun x => h9.mem_iff
    refine ⟨r1, r2, k1, j1, ?_, k3.trans j3.symm, k4.trans j4.symm, k2.trans j2.symm, ?_,
      ?_, ?_, ?_, ?_, ?_⟩
    · rw [k5, j5, h1]
    · rw [k11, j11, ← h10]
      by_cases hsf : c1.stsFailed = true
      · simp only [hsf, if_true]
        by_cases m1 : (2148916233 : Int) ∈ c1.stsErrors
        · rw [if_pos m1, if_pos ((hmem _).mp m1)]
          exact Or.inl rfl
        · rw [if_neg m1, if_neg (fun k => m1 ((hmem _).mpr k))]
          by_cases m2 : (2148916235 : Int) ∈ c1.stsErrors
          · rw [if_pos m2, if_pos ((hmem _).mp m2)]
            exact Or.inl rfl
          · rw [if_neg m2, if_neg (fun k => m2 ((hmem _).mpr k))]
            by_cases m3 : (2148916238 : Int) ∈ c1.stsErrors
            · rw [if_pos m3, if_pos ((hmem _).mp m3)]
              exact Or.inl rfl
            · rw [if_neg m3, if_neg (fun k => m3 ((hmem _).mpr k))]
              exact Or.inr ⟨_, _, h9.map _, rfl, rfl⟩
      · simp only [hsf, Bool.false_eq_true, if_false]
        exact Or.inl rfl
    · rw [k8, j8, h6]
    · rw [k9, j9, h7]
    · rw [k10, j10, h8]
    · rw [k6, j6]
      exact h9
    · rw [k7, j7, h10]

theorem interleaving_append_swap (as bs : List Event) : Interleaving as bs (bs ++ as) := by
  induction bs with
  | nil =>
    induction as with
    | nil => exact Interleaving.nil
    | cons a as ih => exact Interleaving.left a ih
  | cons b bs ih => exact Interleaving.right b ih

/-- The fork before the join: over any interleaving of the two branches the run is the
completions without the join followed by one call of `checkResult`, made with the counter at
2, with each flag holding the outcome of its branch, and with a task that agrees with the
one that Branch A followed by Branch B gives. -/
theorem fork_before_join (fromStringISO : String → QDateTime) (c : Context)
    (a : BranchAReplies) (b : BranchBReplies) (l : List Event)
    (hcount : c.m_requestsDone = 0)
    (h : Interleaving (branchAEvents fromStringISO c.userUhs a)
      (branchBEvents fromStringISO c.userUhs b) l) :
    run fromStringISO c l = checkResult (l.foldl (stepBeforeJoin fromStringISO) c) ∧
    (l.foldl (stepBeforeJoin fromStringISO) c).m_requestsDone = 2 ∧
    (l.foldl (stepBeforeJoin fromStringISO) c).m_mcAuthSucceeded =
      branchASucceeds fromStringISO c.userUhs a ∧
    (l.foldl (stepBeforeJoin fromStringISO) c).m_xboxProfileSucceeded =
      branchBSucceeds fromStringISO c.userUhs b ∧
    (l.foldl (stepBeforeJoin fromStringISO) c).m_activity = c.m_activity ∧
    (l.foldl (stepBeforeJoin fromStringISO) c).Agree
      ((branchAEvents fromStringISO c.userUhs a ++
        branchBEvents fromStringISO c.userUhs b).foldl (stepBeforeJoin fromStringISO) c) := by
  obtain ⟨rA, tA⟩ := branchAEvents_rest fromStringISO c.userUhs a
  obtain ⟨rB, tB⟩ := branchBEvents_rest fromStringISO c.userUhs b
  have hrun := (run_fork fromStringISO c.userUhs h rA rB tA tB c rfl
    (by rw [hcount, finishedBranches_fork])).1 (fork_ne_nil fromStringISO c.userUhs a b l h)
  have hag := foldl_interleaving fromStringISO h tA tB c
  have hfr := foldl_stepBeforeJoin_frame fromStringISO l c
  have hfrA := foldl_stepBeforeJoin_frame fromStringISO
    (branchAEvents fromStringISO c.userUhs a) c
  obtain ⟨fA1, fA2⟩ := branchA_flags fromStringISO c a
  obtain ⟨fB1, fB2⟩ := branchB_flags fromStringISO c.userUhs
    ((branchAEvents fromStringISO c.userUhs a).foldl (stepBeforeJoin fromStringISO) c) b
    hfrA.2.2.2.2.1
  rw [List.foldl_append] at hag
  refine ⟨hrun.1, hrun.2, ?_, ?_, hfr.1, ?_⟩
  · rw [hag.2.2.2.2.2.2.1, fB2, fA1]
  · rw [hag.2.2.2.2.2.2.2.1, fB1]
  · rw [List.foldl_append]
    exact hag

/-- C13: in a busy task whose counter is 0, for every pair of reply sequences of Branch A and
Branch B, the run over any interleaving of their completions ends, as the run of Branch A's
completions followed by Branch B's does, and as the run of Branch B's followed by Branch
A's does, in the same run state, stage and bundle, with a terminal message of the same
category and with the same recorded codes up to their order. -/
theorem join_order_independent (fromStringISO : String → QDateTime) (c : Context)
    (a : BranchAReplies) (b : BranchBReplies) (l : List Event)
    (hbusy : c.isBusy = true) (hcount : c.m_requestsDone = 0)
    (h : Interleaving (branchAEvents fromStringISO c.userUhs a)
      (branchBEvents fromStringISO c.userUhs b) l) :
    ∃ cAB cBA cl,
      run fromStringISO c (branchAEvents fromStringISO c.userUhs a ++
        branchBEvents fromStringISO c.userUhs b) = some cAB ∧
      run fromStringISO c (branchBEvents fromStringISO c.userUhs b ++
        branchAEvents fromStringISO c.userUhs a) = some cBA ∧
      run fromStringISO c l = some cl ∧
      cl.SameOutcome cAB ∧ cBA.SameOutcome cAB := by
  have key : ∀ l2, Interleaving (branchAEvents fromStringISO c.userUhs a)
      (branchBEvents fromStringISO c.userUhs b) l2 →
      ∃ r1 r2, run fromStringISO c l2 = some r1 ∧
        checkResult ((branchAEvents fromStringISO c.userUhs a ++
          branchBEvents fromStringISO c.userUhs b).foldl (stepBeforeJoin fromStringISO) c) =
            some r2 ∧ r1.SameOutcome r2 := by
    intro l2 h2
    obtain ⟨k1, k2, -, -, k5, k6⟩ := fork_before_join fromStringISO c a b l2 hcount h2
    have hb : Context.isBusy (l2.foldl (stepBeforeJoin fromStringISO) c) = true := by
      simpa [Context.isBusy, k5] using hbusy
    obtain ⟨r1, r2, e1, e2, e3⟩ := checkResult_agree _ _ k6 k2 hb
    exact ⟨r1, r2, by rw [k1, e1], e2, e3⟩
  obtain ⟨r1, r2, e1, e2, -⟩ := key _ (interleaving_append _ _)
  obtain ⟨s1, s2, g1, g2, g3⟩ := key _ (interleaving_append_swap _ _)
  obtain ⟨t1, t2, j1, j2, j3⟩ := key l h
  have hr : r1 = r2 := by
    have := (fork_before_join fromStringISO c a b _ hcount (interleaving_append _ _)).1
    rw [e1, e2] at this
    exact Option.some.inj this
  have hs : s2 = r2 := Option.some.inj (g2.symm.trans e2)
  have ht : t2 = r2 := Option.some.inj (j2.symm.trans e2)
  rw [hr] at e1
  rw [hs] at g3
  rw [ht] at j3
  exact ⟨r2, s1, t1, e1, g1, j1, j3, g3⟩

theorem checkResult_counter (c r : Context) (h : checkResult c = some r) :
    r.m_requestsDone = c.m_requestsDone := by
  unfold checkResult at h
  split at h
  · rw [← Option.some.inj h]
  · split at h
    · rw [← Option.some.inj h]
      rfl
    · cases hf : finishActivity c with
      | none => simp [hf] at h
      | some c2 =>
        have hc2 : c2.m_requestsDone = c.m_requestsDone := by
          unfold finishActivity at hf
          split at hf
          · cases hf
          · rw [← Option.some.inj hf]
            rfl
        simp only [hf, Option.bind_eq_bind, Option.some_bind] at h
        split at h <;> (try split at h) <;> (try split at h) <;> (try split at h) <;>
          (rw [← Option.some.inj h]; exact hc2)

/-- C12: in a task whose counter is 0, the first report, success or failure, makes the
counter 1 and leaves the run state, the stage, the bundle and the trace as they were; over
any interleaving of the completions of the two branches, every run that stops before the
last completion leaves the counter at most 1, the run state and the stage as they were, and
has issued nothing but the branches' own second requests; and after the last completion the
counter is 2. -/
theorem join_waits (fromStringISO : String → QDateTime) (c : Context)
    (a : BranchAReplies) (b : BranchBReplies) (l : List Event)
    (hcount : c.m_requestsDone = 0)
    (h : Interleaving (branchAEvents fromStringISO c.userUhs a)
      (branchBEvents fromStringISO c.userUhs b) l) :
    (∀ (flag : Flag) (ok : Bool), ∃ r,
      (if ok then succeedResult c flag else failResult c flag) = some r ∧
      r.m_requestsDone = 1 ∧ r.m_accountState = c.m_accountState ∧ r.m_stage = c.m_stage ∧
      r.m_data = c.m_data ∧ r.trace = c.trace) ∧
    (∀ p, p <+: l → p ≠ l → ∃ r, run fromStringISO c p = some r ∧
      r.m_requestsDone ≤ 1 ∧ r.m_accountState = c.m_accountState ∧ r.m_stage = c.m_stage ∧
      ∃ es, r.trace = c.trace ++ es ∧ ∀ e ∈ es, Effect.isBranchRequest e = true) ∧
    (∀ r, run fromStringISO c l = some r → r.m_requestsDone = 2) := by
  obtain ⟨rA, tA⟩ := branchAEvents_rest fromStringISO c.userUhs a
  obtain ⟨rB, tB⟩ := branchBEvents_rest fromStringISO c.userUhs b
  have hrun := run_fork fromStringISO c.userUhs h rA rB tA tB c rfl
    (by rw [hcount, finishedBranches_fork])
  refine ⟨?_, ?_, ?_⟩
  · intro flag ok
    have hw : ∀ ok2, checkResult (c.countResult flag ok2) = some (c.countResult flag ok2) := by
      intro ok2
      apply checkResult_waiting
      cases flag <;> simp [Context.countResult, Context.setFlag, hcount]
    refine ⟨c.countResult flag ok, ?_, ?_⟩
    · cases ok
      · simpa [failResult_eq] using hw false
      · simpa [succeedResult_eq] using hw true
    · cases flag <;> simp [Context.countResult, Context.setFlag, hcount]
  · intro p hp hne
    obtain ⟨h1, h2⟩ := hrun.2 p hp hne
    obtain ⟨-, k2, k3, -, -, es, k6, k7⟩ := foldl_stepBeforeJoin_frame fromStringISO p c
    exact ⟨_, h1, h2, k3, k2, es, k6, k7⟩
  · intro r hr
    obtain ⟨h1, h2⟩ := hrun.1 (fork_ne_nil fromStringISO c.userUhs a b l h)
    rw [h1] at hr
    rw [checkResult_counter _ _ hr, h2]

theorem sampleArrival_interleaving (code : ℚ) :
    Interleaving (branchAEvents isoDateTimeUTC sampleFork.userUhs (sampleBranchAFails code))
      (branchBEvents isoDateTimeUTC sampleFork.userUhs sampleBranchB) (sampleArrival code) := by
  have hA : branchAEvents isoDateTimeUTC sampleFork.userUhs (sampleBranchAFails code) =
      [.stsAuthMinecraftDone NetworkError.AuthenticationRequiredError
        (some (sampleXErr code))] := by
    simp [branchAEvents, stsAccepted, sampleBranchAFails]
  have hB : branchBEvents isoDateTimeUTC sampleFork.userUhs sampleBranchB =
      [.stsAuthGenericDone NetworkError.NoError (some sampleXToken),
        .xboxProfileDone NetworkError.NoError] := by
    have : stsAccepted isoDateTimeUTC sampleFork.userUhs NetworkError.NoError
        (some sampleXToken) = true := by decide
    simp [branchBEvents, sampleBranchB, this]
  rw [hA, hB]
  exact Interleaving.right _ (Interleaving.left _ (Interleaving.right _ Interleaving.nil))

/-- Witness for C12: Branch A's failing XSTS reply arrives between the two completions of
Branch B. -/
theorem join_waits_witness :
    sampleFork.m_requestsDone = 0 ∧
    Interleaving (branchAEvents isoDateTimeUTC sampleFork.userUhs (sampleBranchAFails 999))
      (branchBEvents isoDateTimeUTC sampleFork.userUhs sampleBranchB) (sampleArrival 999) ∧
    (∀ (flag : Flag) (ok : Bool), ∃ r,
      (if ok then succeedResult sampleFork flag else failResult sampleFork flag) = some r ∧
      r.m_requestsDone = 1 ∧ r.m_accountState = sampleFork.m_accountState ∧
      r.m_stage = sampleFork.m_stage ∧ r.m_data = sampleFork.m_data ∧
      r.trace = sampleFork.trace) ∧
    (∀ p, p <+: sampleArrival 999 → p ≠ sampleArrival 999 →
      ∃ r, run isoDateTimeUTC sampleFork p = some r ∧
      r.m_requestsDone ≤ 1 ∧ r.m_accountState = sampleFork.m_accountState ∧
      r.m_stage = sampleFork.m_stage ∧
      ∃ es, r.trace = sampleFork.trace ++ es ∧ ∀ e ∈ es, Effect.isBranchRequest e = true) ∧
    (∀ r, run isoDateTimeUTC sampleFork (sampleArrival 999) = some r → r.m_requestsDone = 2) :=
  ⟨rfl, sampleArrival_interleaving 999,
    join_waits isoDateTimeUTC sampleFork (sampleBranchAFails 999) sampleBranchB
      (sampleArrival 999) rfl (sampleArrival_interleaving 999)⟩

/-- Witness for C13: Branch A's failing XSTS reply arrives between the two completions of
Branch B. -/
theorem join_order_independent_witness :
    sampleFork.isBusy = true ∧ sampleFork.m_requestsDone = 0 ∧
    Interleaving (branchAEvents isoDateTimeUTC sampleFork.userUhs (sampleBranchAFails 999))
      (branchBEvents isoDateTimeUTC sampleFork.userUhs sampleBranchB) (sampleArrival 999) ∧
    ∃ cAB cBA cl,
      run isoDateTimeUTC sampleFork
        (branchAEvents isoDateTimeUTC sampleFork.userUhs (sampleBranchAFails 999) ++
          branchBEvents isoDateTimeUTC sampleFork.userUhs sampleBranchB) = some cAB ∧
      run isoDateTimeUTC sampleFork
        (branchBEvents isoDateTimeUTC sampleFork.userUhs sampleBranchB ++
          branchAEvents isoDateTimeUTC sampleFork.userUhs (sampleBranchAFails 999)) =
            some cBA ∧
      run isoDateTimeUTC sampleFork (sampleArrival 999) = some cl ∧
      cl.SameOutcome cAB ∧ cBA.SameOutcome cAB :=
  ⟨rfl, rfl, sampleArrival_interleaving 999,
    join_order_independent isoDateTimeUTC sampleFork (sampleBranchAFails 999) sampleBranchB
      (sampleArrival 999) rfl rfl (sampleArrival_interleaving 999)⟩

theorem xerrOf_noError (data : Option QJsonDocument) :
    xerrOf NetworkError.NoError data = none := by
  simp [xerrOf]

theorem countResult_errors (c : Context) (flag : Flag) (b : Bool) :
    (c.countResult flag b).stsErrors = c.stsErrors ∧
    (c.countResult flag b).stsFailed = c.stsFailed ∧
    (c.countResult flag b).m_data = c.m_data ∧
    (c.countResult flag b).trace = c.trace := by
  cases flag <;> simp [Context.countResult, Context.setFlag]

/-- The effect of a branch completion on the recorded codes: the code of the completion, if
it has one, is added. -/
theorem effect_errors (fromStringISO : String → QDateTime) (c : Context) (ev : Event) :
    (ev.effect fromStringISO c).stsErrors =
      (match ev.errorCode with
      | none => c.stsErrors
      | some code => QSet.insert c.stsErrors code) ∧
    (ev.effect fromStringISO c).stsFailed = (c.stsFailed || ev.errorCode.isSome) := by
  cases ev with
  | stsAuthMinecraftDone error replyData =>
    simp only [Event.effect, Event.errorCode]
    split
    · rw [processSTSError_eq]
      cases xerrOf error replyData <;> simp
    · rename_i he
      have he2 : error = NetworkError.NoError := by simpa using he
      subst he2
      rw [xerrOf_noError]
      split
      · simp
      · split
        · simp
        · simp [doMinecraftAuth, Context.emit]
  | stsAuthGenericDone error replyData =>
    simp only [Event.effect, Event.errorCode]
    split
    · rw [processSTSError_eq]
      cases xerrOf error replyData <;> simp
    · rename_i he
      have he2 : error = NetworkError.NoError := by simpa using he
      subst he2
      rw [xerrOf_noError]
      split
      · simp
      · split
        · simp
        · simp [doXBoxProfile, Context.emit]
  | minecraftAuthDone now error replyData =>
    simp only [Event.effect, Event.errorCode]
    split <;> simp
  | _ => simp [Event.effect, Event.errorCode]

theorem stepBeforeJoin_errors (fromStringISO : String → QDateTime) (c : Context) (ev : Event) :
    (stepBeforeJoin fromStringISO c ev).stsErrors =
      (match ev.errorCode with
      | none => c.stsErrors
      | some code => QSet.insert c.stsErrors code) ∧
    (stepBeforeJoin fromStringISO c ev).stsFailed = (c.stsFailed || ev.errorCode.isSome) := by
  obtain ⟨h1, h2⟩ := effect_errors fromStringISO c ev
  unfold stepBeforeJoin
  cases ev.report fromStringISO c.userUhs with
  | none => exact ⟨h1, h2⟩
  | some b =>
    obtain ⟨k1, k2, -, -⟩ := countResult_errors (ev.effect fromStringISO c) ev.flag b
    exact ⟨k1.trans h1, k2.trans h2⟩

theorem stsAccepted_noError (fromStringISO : String → QDateTime) (uhs : QVariant)
    (error : NetworkError) (data : Option QJsonDocument)
    (h : stsAccepted fromStringISO uhs error data = true) : error = NetworkError.NoError := by
  simp only [stsAccepted, Bool.and_eq_true, beq_iff_eq] at h
  exact h.1.1

/-- The recorded codes after the completions of a Branch A whose XSTS call fails with a code
and of a Branch B that goes on: the code is added to those on record. -/
theorem fork_errors_branchA (fromStringISO : String → QDateTime) (c : Context)
    (a : BranchAReplies) (b : BranchBReplies) (code : Int)
    (hx : xerrOf a.stsError a.stsReply = some code)
    (hB : stsAccepted fromStringISO c.userUhs b.stsError b.stsReply = true) :
    ((branchAEvents fromStringISO c.userUhs a ++
      branchBEvents fromStringISO c.userUhs b).foldl (stepBeforeJoin fromStringISO) c).stsErrors
        = QSet.insert c.stsErrors code ∧
    ((branchAEvents fromStringISO c.userUhs a ++
      branchBEvents fromStringISO c.userUhs b).foldl (stepBeforeJoin fromStringISO) c).stsFailed
        = true ∧
    stsAccepted fromStringISO c.userUhs a.stsError a.stsReply = false := by
  have hne : a.stsError ≠ NetworkError.NoError := by
    intro h
    rw [h, xerrOf_noError] at hx
    cases hx
  have hA : stsAccepted fromStringISO c.userUhs a.stsError a.stsReply = false := by
    cases hs : stsAccepted fromStringISO c.userUhs a.stsError a.stsReply with
    | false => rfl
    | true => exact absurd (stsAccepted_noError _ _ _ _ hs) hne
  have hbn := stsAccepted_noError _ _ _ _ hB
  have e1 := stepBeforeJoin_errors fromStringISO c (.stsAuthMinecraftDone a.stsError a.stsReply)
  have e2 := stepBeforeJoin_errors fromStringISO
    (stepBeforeJoin fromStringISO c (.stsAuthMinecraftDone a.stsError a.stsReply))
    (.stsAuthGenericDone b.stsError b.stsReply)
  have e3 := stepBeforeJoin_errors fromStringISO
    (stepBeforeJoin fromStringISO
      (stepBeforeJoin fromStringISO c (.stsAuthMinecraftDone a.stsError a.stsReply))
      (.stsAuthGenericDone b.stsError b.stsReply))
    (.xboxProfileDone b.profileError)
  have hxb : xerrOf b.stsError b.stsReply = none := by rw [hbn, xerrOf_noError]
  simp only [Event.errorCode, hx, hxb, Option.isSome_some, Option.isSome_none,
    Bool.or_true, Bool.or_false] at e1 e2 e3
  refine ⟨?_, ?_, hA⟩
  · simp only [branchAEvents, branchBEvents, hA, hB, if_true, Bool.false_eq_true, if_false,
      List.cons_append, List.nil_append, List.foldl_cons, List.foldl_nil]
    rw [e3.1, e2.1, e1.1]
  · simp only [branchAEvents, branchBEvents, hA, hB, if_true, Bool.false_eq_true, if_false,
      List.cons_append, List.nil_append, List.foldl_cons, List.foldl_nil]
    rw [e3.2, e2.2, e1.2]

theorem branchBSucceeds_accepted (fromStringISO : String → QDateTime) (uhs : QVariant)
    (b : BranchBReplies) (h : branchBSucceeds fromStringISO uhs b = true) :
    stsAccepted fromStringISO uhs b.stsError b.stsReply = true := by
  simp only [branchBSucceeds, Bool.and_eq_true] at h
  exact h.1

theorem branchASucceeds_accepted (fromStringISO : String → QDateTime) (uhs : QVariant)
    (a : BranchAReplies) (h : branchASucceeds fromStringISO uhs a = true) :
    stsAccepted fromStringISO uhs a.stsError a.stsReply = true := by
  simp only [branchASucceeds, Bool.and_eq_true] at h
  exact h.1

/-- C14: in a busy task whose counter is 0, the run over any interleaving of the completions
of the two branches ends in the profile stage, Working and with the profile request issued
last, exactly when both branches report success, and otherwise ends Failed-hard in the
final stage. In particular, when Branch A's XSTS call fails with the authentication-required
error and a body whose `XErr` is 2148916238, Branch B reports success and no code was on
record before, the run ends Failed-hard with the message for an underage account. -/
theorem join_decision (fromStringISO : String → QDateTime) (c : Context)
    (a : BranchAReplies) (b : BranchBReplies) (l : List Event)
    (hbusy : c.isBusy = true) (hcount : c.m_requestsDone = 0)
    (h : Interleaving (branchAEvents fromStringISO c.userUhs a)
      (branchBEvents fromStringISO c.userUhs b) l) :
    ∃ r, run fromStringISO c l = some r ∧
      (r.m_stage = AuthStage.MinecraftProfile ↔
        (branchASucceeds fromStringISO c.userUhs a = true ∧
          branchBSucceeds fromStringISO c.userUhs b = true)) ∧
      (branchASucceeds fromStringISO c.userUhs a = true ∧
          branchBSucceeds fromStringISO c.userUhs b = true →
        r.m_accountState = AccountTaskState.STATE_WORKING ∧
        r.trace.getLast? =
          some (.request (.minecraftProfile r.m_data.yggdrasilToken.token))) ∧
      (¬ (branchASucceeds fromStringISO c.userUhs a = true ∧
          branchBSucceeds fromStringISO c.userUhs b = true) →
        r.m_accountState = AccountTaskState.STATE_FAILED_HARD ∧
        r.m_stage = AuthStage.Complete ∧ r.m_activity = Activity.Idle) ∧
      (∀ doc, a.stsError = NetworkError.AuthenticationRequiredError → a.stsReply = some doc →
        doc.toObject.value "XErr" = QJsonValue.double 2148916238 →
        branchBSucceeds fromStringISO c.userUhs b = true → c.stsErrors = [] →
        r.m_accountState = AccountTaskState.STATE_FAILED_HARD ∧
        r.m_stateMessage = msgUnderage) := by
  obtain ⟨k1, k2, k3, k4, k5, k6⟩ := fork_before_join fromStringISO c a b l hcount h
  have hb : Context.isBusy (l.foldl (stepBeforeJoin fromStringISO) c) = true := by
    simpa [Context.isBusy, k5] using hbusy
  by_cases hboth : branchASucceeds fromStringISO c.userUhs a = true ∧
      branchBSucceeds fromStringISO c.userUhs b = true
  · have hs := checkResult_success _ k2 (k3.trans hboth.1) (k4.trans hboth.2)
    refine ⟨_, k1.trans hs, ?_, ?_, ?_, ?_⟩
    · simp [hboth, doMinecraftProfile, setStage, Context.changeState, Context.emit]
    · intro _
      simp [doMinecraftProfile, setStage, Context.changeState, Context.emit]
    · intro hn
      exact absurd hboth hn
    · intro doc h1 h2 _ _ _
      have hacc := stsAccepted_noError _ _ _ _ (branchASucceeds_accepted _ _ _ hboth.1)
      rw [h1] at hacc
      cases hacc
  · have hfail : ((l.foldl (stepBeforeJoin fromStringISO) c).m_mcAuthSucceeded &&
        (l.foldl (stepBeforeJoin fromStringISO) c).m_xboxProfileSucceeded) = false := by
      rw [k3, k4]
      cases hA : branchASucceeds fromStringISO c.userUhs a
      · rfl
      · cases hB : branchBSucceeds fromStringISO c.userUhs b
        · rfl
        · exact absurd ⟨hA, hB⟩ hboth
    obtain ⟨r, f1, f2, f3, f4, -, -, -, -, -, -, f11⟩ := checkResult_failure _ hb k2 hfail
    refine ⟨r, k1.trans f1, ?_, ?_, ?_, ?_⟩
    · rw [f4]
      simp [hboth]
    · intro hy
      exact absurd hy hboth
    · intro _
      exact ⟨f2, f4, f3⟩
    · intro doc h1 h2 h3 hB hfresh
      have hx : xerrOf a.stsError a.stsReply = some 2148916238 := by
        simp only [xerrOf, h1, h2, h3, QJsonValue.isDouble, QJsonValue.toDouble]
        decide
      obtain ⟨g1, g2, -⟩ := fork_errors_branchA fromStringISO c a b 2148916238 hx
        (branchBSucceeds_accepted _ _ _ hB)
      have hperm := k6.2.2.2.2.2.2.2.2.1
      have hfl := k6.2.2.2.2.2.2.2.2.2
      rw [g1, hfresh] at hperm
      rw [g2] at hfl
      have herr : (l.foldl (stepBeforeJoin fromStringISO) c).stsErrors = [2148916238] := by
        have : QSet.insert [] 2148916238 = [2148916238] := by decide
        rw [this] at hperm
        exact List.perm_singleton.mp hperm
      refine ⟨f2, ?_⟩
      rw [f11, hfl, herr]
      simp

/-- Witness for C14: Branch A's XSTS call fails with 2148916238 between the two completions
of a Branch B that succeeds; the run ends Failed-hard with the message for an underage
account. -/
theorem join_decision_witness :
    sampleFork.isBusy = true ∧ sampleFork.m_requestsDone = 0 ∧
    Interleaving
      (branchAEvents isoDateTimeUTC sampleFork.userUhs (sampleBranchAFails 2148916238))
      (branchBEvents isoDateTimeUTC sampleFork.userUhs sampleBranchB)
      (sampleArrival 2148916238) ∧
    branchBSucceeds isoDateTimeUTC sampleFork.userUhs sampleBranchB = true ∧
    ∃ r, run isoDateTimeUTC sampleFork (sampleArrival 2148916238) = some r ∧
      r.m_accountState = AccountTaskState.STATE_FAILED_HARD ∧
      r.m_stateMessage = msgUnderage := by
  have hB : branchBSucceeds isoDateTimeUTC sampleFork.userUhs sampleBranchB = true := by
    decide
  obtain ⟨r, h1, -, -, -, h5⟩ :=
    join_decision isoDateTimeUTC sampleFork (sampleBranchAFails 2148916238) sampleBranchB
      (sampleArrival 2148916238) rfl rfl (sampleArrival_interleaving 2148916238)
  exact ⟨rfl, rfl, sampleArrival_interleaving 2148916238, hB, r, h1,
    h5 (sampleXErr 2148916238) rfl rfl rfl hB rfl⟩

/-- The effect of a completion that does not start Branch A's second step leaves the token
for the game services as it was and issues no login request. -/
theorem effect_no_login (fromStringISO : String → QDateTime) (c : Context) (ev : Event)
    (h : ev.startsLogin fromStringISO c.userUhs = false) :
    (ev.effect fromStringISO c).m_data.mojangservicesToken = c.m_data.mojangservicesToken ∧
    ∃ es, (ev.effect fromStringISO c).trace = c.trace ++ es ∧
      ∀ e ∈ es, Effect.isLoginRequest e = false := by
  cases ev with
  | stsAuthMinecraftDone error replyData =>
    obtain ⟨p1, -, -, -, -, -, -, -, p9⟩ := processSTSError_frame c error replyData
    simp only [Event.startsLogin, stsAccepted, Context.userUhs] at h
    simp only [Event.effect]
    split
    · exact ⟨by rw [p1], [], by simp [p9], by simp⟩
    · rename_i he
      have he2 : error = NetworkError.NoError := by simpa using he
      split
      · exact ⟨rfl, [], by simp, by simp⟩
      · rename_i hok
        split
        · exact ⟨rfl, [], by simp, by simp⟩
        · rename_i hu
          simp [he2, hok] at h
          simp at hok hu
          simp [hok, hu] at h
  | stsAuthGenericDone error replyData =>
    obtain ⟨p1, -, -, -, -, -, -, -, p9⟩ := processSTSError_frame c error replyData
    simp only [Event.effect]
    split
    · exact ⟨by rw [p1], [], by simp [p9], by simp⟩
    · split
      · exact ⟨rfl, [], by simp, by simp⟩
      · split
        · exact ⟨rfl, [], by simp, by simp⟩
        · refine ⟨?_, _, rfl, ?_⟩
          · simp [doXBoxProfile, Context.emit]
          · simp [Effect.isLoginRequest]
  | minecraftAuthDone now error replyData =>
    simp only [Event.effect]
    split <;> exact ⟨rfl, [], by simp, by simp⟩
  | _ => exact ⟨rfl, [], by simp [Event.effect], by simp⟩

/-- The effect of a completion that does not start Branch B's second step leaves the token
for the Xbox services as it was and issues no Xbox profile request. -/
theorem effect_no_xboxProfile (fromStringISO : String → QDateTime) (c : Context) (ev : Event)
    (h : ev.startsXboxProfile fromStringISO c.userUhs = false) :
    (ev.effect fromStringISO c).m_data.xboxApiToken = c.m_data.xboxApiToken ∧
    ∃ es, (ev.effect fromStringISO c).trace = c.trace ++ es ∧
      ∀ e ∈ es, Effect.isXboxProfileRequest e = false := by
  cases ev with
  | stsAuthGenericDone error replyData =>
    obtain ⟨p1, -, -, -, -, -, -, -, p9⟩ := processSTSError_frame c error replyData
    simp only [Event.startsXboxProfile, stsAccepted, Context.userUhs] at h
    simp only [Event.effect]
    split
    · exact ⟨by rw [p1], [], by simp [p9], by simp⟩
    · rename_i he
      have he2 : error = NetworkError.NoError := by simpa using he
      split
      · exact ⟨rfl, [], by simp, by simp⟩
      · rename_i hok
        split
        · exact ⟨rfl, [], by simp, by simp⟩
        · rename_i hu
          simp [he2, hok] at h
          simp at hok hu
          simp [hok, hu] at h
  | stsAuthMinecraftDone error replyData =>
    obtain ⟨p1, -, -, -, -, -, -, -, p9⟩ := processSTSError_frame c error replyData
    simp only [Event.effect]
    split
    · exact ⟨by rw [p1], [], by simp [p9], by simp⟩
    · split
      · exact ⟨rfl, [], by simp, by simp⟩
      · split
        · exact ⟨rfl, [], by simp, by simp⟩
        · refine ⟨?_, _, rfl, ?_⟩
          · simp [doMinecraftAuth, Context.emit]
          · simp [Effect.isXboxProfileRequest]
  | minecraftAuthDone now error replyData =>
    simp only [Event.effect]
    split <;> exact ⟨rfl, [], by simp, by simp⟩
  | _ => exact ⟨rfl, [], by simp [Event.effect], by simp⟩

/-- The failing join adds to the trace the progress of the final stage, the change of
activity and the change of state, and no request. -/
theorem checkResult_failure_trace (c : Context) (hbusy : c.isBusy = true)
    (hdone : c.m_requestsDone = 2)
    (hfail : (c.m_mcAuthSucceeded && c.m_xboxProfileSucceeded) = false) :
    ∃ c2, checkResult c = some c2 ∧
      c2.trace = c.trace ++ [.progress AuthStage.Complete.toInt AuthStage.Complete.toInt,
        .activityChanged Activity.Idle,
        .stateChanged AccountTaskState.STATE_FAILED_HARD c2.m_stateMessage] := by
  simp only [checkResult, hdone, hfail, finishActivity_eq c hbusy]
  simp only [bne_self_eq_false, Bool.false_eq_true, if_false, Option.bind_eq_bind,
    Option.some_bind]
  split_ifs <;> simp [Context.changeState, Context.emit]

theorem stepBeforeJoin_no_login (fromStringISO : String → QDateTime) (c : Context) (ev : Event)
    (h : ev.startsLogin fromStringISO c.userUhs = false) :
    (stepBeforeJoin fromStringISO c ev).m_data.mojangservicesToken =
      c.m_data.mojangservicesToken ∧
    ∃ es, (stepBeforeJoin fromStringISO c ev).trace = c.trace ++ es ∧
      ∀ e ∈ es, Effect.isLoginRequest e = false := by
  obtain ⟨h1, es, h2, h3⟩ := effect_no_login fromStringISO c ev h
  unfold stepBeforeJoin
  cases ev.report fromStringISO c.userUhs with
  | none => exact ⟨h1, es, h2, h3⟩
  | some b =>
    obtain ⟨-, -, k3, k4⟩ := countResult_errors (ev.effect fromStringISO c) ev.flag b
    exact ⟨by rw [k3, h1], es, k4.trans h2, h3⟩

theorem stepBeforeJoin_no_xboxProfile (fromStringISO : String → QDateTime) (c : Context)
    (ev : Event) (h : ev.startsXboxProfile fromStringISO c.userUhs = false) :
    (stepBeforeJoin fromStringISO c ev).m_data.xboxApiToken = c.m_data.xboxApiToken ∧
    ∃ es, (stepBeforeJoin fromStringISO c ev).trace = c.trace ++ es ∧
      ∀ e ∈ es, Effect.isXboxProfileRequest e = false := by
  obtain ⟨h1, es, h2, h3⟩ := effect_no_xboxProfile fromStringISO c ev h
  unfold stepBeforeJoin
  cases ev.report fromStringISO c.userUhs with
  | none => exact ⟨h1, es, h2, h3⟩
  | some b =>
    obtain ⟨-, -, k3, k4⟩ := countResult_errors (ev.effect fromStringISO c) ev.flag b
    exact ⟨by rw [k3, h1], es, k4.trans h2, h3⟩

theorem foldl_no_login (fromStringISO : String → QDateTime) (l : List Event) (c : Context)
    (h : ∀ ev ∈ l, Event.startsLogin fromStringISO c.userUhs ev = false) :
    (l.foldl (stepBeforeJoin fromStringISO) c).m_data.mojangservicesToken =
      c.m_data.mojangservicesToken ∧
    ∃ es, (l.foldl (stepBeforeJoin fromStringISO) c).trace = c.trace ++ es ∧
      ∀ e ∈ es, Effect.isLoginRequest e = false := by
  induction l generalizing c with
  | nil => exact ⟨rfl, [], by simp, by simp⟩
  | cons ev rest ih =>
    obtain ⟨h1, es, h2, h3⟩ :=
      stepBeforeJoin_no_login fromStringISO c ev (h ev (List.mem_cons_self _ _))
    have hu := (stepBeforeJoin_frame fromStringISO c ev).2.2.2.2.1
    obtain ⟨k1, es2, k2, k3⟩ := ih (stepBeforeJoin fromStringISO c ev) (by
      intro ev2 hev2
      rw [hu]
      exact h ev2 (List.mem_cons_of_mem _ hev2))
    rw [List.foldl_cons]
    refine ⟨k1.trans h1, es ++ es2, ?_, ?_⟩
    · rw [k2, h2, List.append_assoc]
    · intro e he
      rcases List.mem_append.mp he with he | he
      · exact h3 e he
      · exact k3 e he

theorem foldl_no_xboxProfile (fromStringISO : String → QDateTime) (l : List Event)
    (c : Context)
    (h : ∀ ev ∈ l, Event.startsXboxProfile fromStringISO c.userUhs ev = false) :
    (l.foldl (stepBeforeJoin fromStringISO) c).m_data.xboxApiToken = c.m_data.xboxApiToken ∧
    ∃ es, (l.foldl (stepBeforeJoin fromStringISO) c).trace = c.trace ++ es ∧
      ∀ e ∈ es, Effect.isXboxProfileRequest e = false := by
  induction l generalizing c with
  | nil => exact ⟨rfl, [], by simp, by simp⟩
  | cons ev rest ih =>
    obtain ⟨h1, es, h2, h3⟩ :=
      stepBeforeJoin_no_xboxProfile fromStringISO c ev (h ev (List.mem_cons_self _ _))
    have hu := (stepBeforeJoin_frame fromStringISO c ev).2.2.2.2.1
    obtain ⟨k1, es2, k2, k3⟩ := ih (stepBeforeJoin fromStringISO c ev) (by
      intro ev2 hev2
      rw [hu]
      exact h ev2 (List.mem_cons_of_mem _ hev2))
    rw [List.foldl_cons]
    refine ⟨k1.trans h1, es ++ es2, ?_, ?_⟩
    · rw [k2, h2, List.append_assoc]
    · intro e he
      rcases List.mem_append.mp he with he | he
      · exact h3 e he
      · exact k3 e he

theorem interleaving_mem {as bs l : List Event} (h : Interleaving as bs l) (ev : Event)
    (hev : ev ∈ l) : ev ∈ as ∨ ev ∈ bs := by
  induction h with
  | nil => cases hev
  | left a _ ih =>
    rcases List.mem_cons.mp hev with he | he
    · exact Or.inl (he ▸ List.mem_cons_self _ _)
    · rcases ih he with h1 | h1
      · exact Or.inl (List.mem_cons_of_mem _ h1)
      · exact Or.inr h1
  | right b _ ih =>
    rcases List.mem_cons.mp hev with he | he
    · exact Or.inr (he ▸ List.mem_cons_self _ _)
    · rcases ih he with h1 | h1
      · exact Or.inl h1
      · exact Or.inr (List.mem_cons_of_mem _ h1)

theorem branchBEvents_startsLogin (fromStringISO : String → QDateTime) (uhs : QVariant)
    (b : BranchBReplies) :
    ∀ ev ∈ branchBEvents fromStringISO uhs b, Event.startsLogin fromStringISO uhs ev = false := by
  intro ev hev
  unfold branchBEvents at hev
  split at hev
  · simp only [List.mem_cons, List.mem_singleton, List.not_mem_nil, or_false] at hev
    rcases hev with h | h <;> simp [h, Event.startsLogin]
  · simp only [List.mem_cons, List.not_mem_nil, or_false] at hev
    simp [hev, Event.startsLogin]

theorem branchAEvents_startsXboxProfile (fromStringISO : String → QDateTime) (uhs : QVariant)
    (a : BranchAReplies) :
    ∀ ev ∈ branchAEvents fromStringISO uhs a,
      Event.startsXboxProfile fromStringISO uhs ev = false := by
  intro ev hev
  unfold branchAEvents at hev
  split at hev
  · simp only [List.mem_cons, List.mem_singleton, List.not_mem_nil, or_false] at hev
    rcases hev with h | h <;> simp [h, Event.startsXboxProfile]
  · simp only [List.mem_cons, List.not_mem_nil, or_false] at hev
    simp [hev, Event.startsXboxProfile]

theorem stsAccepted_mismatch (fromStringISO : String → QDateTime) (uhs : QVariant)
    (error : NetworkError) (data : Option QJsonDocument)
    (hu : ((parseXTokenResponse fromStringISO data Token.empty).2.extra.index "uhs").1 ≠ uhs) :
    stsAccepted fromStringISO uhs error data = false := by
  simp [stsAccepted, hu]

/-- A user-hash mismatch in Branch A: the handler reports failure without storing the token
or issuing the login request, and the fork ends Failed-hard with the token for the game
services as it was and no login request issued. -/
theorem branchA_mismatch (fromStringISO : String → QDateTime) (c : Context)
    (a : BranchAReplies) (b : BranchBReplies) (l : List Event)
    (hbusy : c.isBusy = true) (hcount : c.m_requestsDone = 0)
    (h : Interleaving (branchAEvents fromStringISO c.userUhs a)
      (branchBEvents fromStringISO c.userUhs b) l)
    (he : a.stsError = NetworkError.NoError)
    (hok : (parseXTokenResponse fromStringISO a.stsReply Token.empty).1 = true)
    (hu : ((parseXTokenResponse fromStringISO a.stsReply Token.empty).2.extra.index "uhs").1 ≠
      c.userUhs) :
    (∃ c2, onSTSAuthMinecraftDone fromStringISO c a.stsError a.stsReply =
        failResult c2 Flag.m_mcAuthSucceeded ∧
      c2.m_data.mojangservicesToken = c.m_data.mojangservicesToken ∧ c2.trace = c.trace) ∧
    ∃ r, run fromStringISO c l = some r ∧
      r.m_accountState = AccountTaskState.STATE_FAILED_HARD ∧
      r.m_data.mojangservicesToken = c.m_data.mojangservicesToken ∧
      ∀ e ∈ r.trace, Effect.isLoginRequest e = true → e ∈ c.trace := by
  have hA := stsAccepted_mismatch fromStringISO c.userUhs a.stsError a.stsReply hu
  constructor
  · refine ⟨{ c with m_data := { c.m_data with userToken := { c.m_data.userToken with
      extra := (c.m_data.userToken.extra.index "uhs").2 } } }, ?_, rfl, rfl⟩
    have hu2 : ((parseXTokenResponse fromStringISO a.stsReply Token.empty).2.extra.index
        "uhs").1 ≠ (c.m_data.userToken.extra.index "uhs").1 := hu
    simp [onSTSAuthMinecraftDone, he, hok, hu2]
  · obtain ⟨k1, k2, k3, -, k5, -⟩ := fork_before_join fromStringISO c a b l hcount h
    have hb : Context.isBusy (l.foldl (stepBeforeJoin fromStringISO) c) = true := by
      simpa [Context.isBusy, k5] using hbusy
    have hfail : ((l.foldl (stepBeforeJoin fromStringISO) c).m_mcAuthSucceeded &&
        (l.foldl (stepBeforeJoin fromStringISO) c).m_xboxProfileSucceeded) = false := by
      rw [k3]
      simp [branchASucceeds, hA]
    have hno : ∀ ev ∈ l, Event.startsLogin fromStringISO c.userUhs ev = false := by
      intro ev hev
      rcases interleaving_mem h ev hev with hm | hm
      · simp only [branchAEvents, hA, Bool.false_eq_true, if_false, List.mem_singleton] at hm
        simp [hm, Event.startsLogin, hA]
      · exact branchBEvents_startsLogin fromStringISO c.userUhs b ev hm
    obtain ⟨n1, es, n2, n3⟩ := foldl_no_login fromStringISO l c hno
    obtain ⟨r, f1, f2, -, -, f5, -⟩ := checkResult_failure _ hb k2 hfail
    obtain ⟨r2, t1, t2⟩ := checkResult_failure_trace _ hb k2 hfail
    have hr : r2 = r := Option.some.inj (t1.symm.trans f1)
    rw [hr] at t2
    refine ⟨r, k1.trans f1, f2, ?_, ?_⟩
    · rw [f5]
      exact n1
    · intro e he hl
      rw [t2, n2] at he
      simp only [List.mem_append, List.mem_cons, List.mem_singleton, List.not_mem_nil,
        or_false] at he
      rcases he with (he | he) | he | he | he
      · exact he
      · rw [n3 e he] at hl
        cases hl
      · rw [he] at hl
        cases hl
      · rw [he] at hl
        cases hl
      · rw [he] at hl
        cases hl

/-- A user-hash mismatch in Branch B: the handler reports failure without storing the token
or issuing the Xbox profile request, and the fork ends Failed-hard with the token for the
Xbox services as it was and no Xbox profile request issued. -/
theorem branchB_mismatch (fromStringISO : String → QDateTime) (c : Context)
    (a : BranchAReplies) (b : BranchBReplies) (l : List Event)
    (hbusy : c.isBusy = true) (hcount : c.m_requestsDone = 0)
    (h : Interleaving (branchAEvents fromStringISO c.userUhs a)
      (branchBEvents fromStringISO c.userUhs b) l)
    (he : b.stsError = NetworkError.NoError)
    (hok : (parseXTokenResponse fromStringISO b.stsReply Token.empty).1 = true)
    (hu : ((parseXTokenResponse fromStringISO b.stsReply Token.empty).2.extra.index "uhs").1 ≠
      c.userUhs) :
    (∃ c2, onSTSAuthGenericDone fromStringISO c b.stsError b.stsReply =
        failResult c2 Flag.m_xboxProfileSucceeded ∧
      c2.m_data.xboxApiToken = c.m_data.xboxApiToken ∧ c2.trace = c.trace) ∧
    ∃ r, run fromStringISO c l = some r ∧
      r.m_accountState = AccountTaskState.STATE_FAILED_HARD ∧
      r.m_data.xboxApiToken = c.m_data.xboxApiToken ∧
      ∀ e ∈ r.trace, Effect.isXboxProfileRequest e = true → e ∈ c.trace := by
  have hB := stsAccepted_mismatch fromStringISO c.userUhs b.stsError b.stsReply hu
  constructor
  · refine ⟨{ c with m_data := { c.m_data with userToken := { c.m_data.userToken with
      extra := (c.m_data.userToken.extra.index "uhs").2 } } }, ?_, rfl, rfl⟩
    have hu2 : ((parseXTokenResponse fromStringISO b.stsReply Token.empty).2.extra.index
        "uhs").1 ≠ (c.m_data.userToken.extra.index "uhs").1 := hu
    simp [onSTSAuthGenericDone, he, hok, hu2]
  · obtain ⟨k1, k2, -, k4, k5, -⟩ := fork_before_join fromStringISO c a b l hcount h
    have hb : Context.isBusy (l.foldl (stepBeforeJoin fromStringISO) c) = true := by
      simpa [Context.isBusy, k5] using hbusy
    have hfail : ((l.foldl (stepBeforeJoin fromStringISO) c).m_mcAuthSucceeded &&
        (l.foldl (stepBeforeJoin fromStringISO) c).m_xboxProfileSucceeded) = false := by
      rw [k4]
      simp [branchBSucceeds, hB]
    have hno : ∀ ev ∈ l, Event.startsXboxProfile fromStringISO c.userUhs ev = false := by
      intro ev hev
      rcases interleaving_mem h ev hev with hm | hm
      · exact branchAEvents_startsXboxProfile fromStringISO c.userUhs a ev hm
      · simp only [branchBEvents, hB, Bool.false_eq_true, if_false, List.mem_singleton] at hm
        simp [hm, Event.startsXboxProfile, hB]
    obtain ⟨n1, es, n2, n3⟩ := foldl_no_xboxProfile fromStringISO l c hno
    obtain ⟨r, f1, f2, -, -, f5, -⟩ := checkResult_failure _ hb k2 hfail
    obtain ⟨r2, t1, t2⟩ := checkResult_failure_trace _ hb k2 hfail
    have hr : r2 = r := Option.some.inj (t1.symm.trans f1)
    rw [hr] at t2
    refine ⟨r, k1.trans f1, f2, ?_, ?_⟩
    · rw [f5]
      exact n1
    · intro e he hl
      rw [t2, n2] at he
      simp only [List.mem_append, List.mem_cons, List.mem_singleton, List.not_mem_nil,
        or_false] at he
      rcases he with (he | he) | he | he | he
      · exact he
      · rw [n3 e he] at hl
        cases hl
      · rw [he] at hl
        cases hl
      · rw [he] at hl
        cases hl
      · rw [he] at hl
        cases hl

theorem sampleXTokenOtherUser_mismatch :
    (parseXTokenResponse isoDateTimeUTC (some sampleXTokenOtherUser) Token.empty).1 = true ∧
    ((parseXTokenResponse isoDateTimeUTC (some sampleXTokenOtherUser)
      Token.empty).2.extra.index "uhs").1 ≠ sampleFork.userUhs := by
  constructor <;> decide

theorem sampleArrivalOtherUser_interleaving :
    Interleaving (branchAEvents isoDateTimeUTC sampleFork.userUhs sampleBranchAOtherUser)
      (branchBEvents isoDateTimeUTC sampleFork.userUhs sampleBranchBOtherUser)
      sampleArrivalOtherUser := by
  have hs := stsAccepted_mismatch isoDateTimeUTC sampleFork.userUhs NetworkError.NoError
    (some sampleXTokenOtherUser) sampleXTokenOtherUser_mismatch.2
  have hA : branchAEvents isoDateTimeUTC sampleFork.userUhs sampleBranchAOtherUser =
      [.stsAuthMinecraftDone NetworkError.NoError (some sampleXTokenOtherUser)] := by
    simp [branchAEvents, sampleBranchAOtherUser, sampleBranchA, hs]
  have hB : branchBEvents isoDateTimeUTC sampleFork.userUhs sampleBranchBOtherUser =
      [.stsAuthGenericDone NetworkError.NoError (some sampleXTokenOtherUser)] := by
    simp [branchBEvents, sampleBranchBOtherUser, sampleBranchB, hs]
  rw [hA, hB]
  exact Interleaving.right _ (Interleaving.left _ Interleaving.nil)

/-- C15: in a busy task whose counter is 0, when Branch A's XSTS reply has no transport
error, is accepted by parseXTokenResponse and carries a `uhs` claim that differs from the
user token's, the handler reports failure with the stored token for the game services and
the trace as they were, and the run over any interleaving with the completions of Branch B,
whatever they are, ends Failed-hard with that token as it was and with no login request
issued; the same holds for Branch B with the token for the Xbox services and the Xbox
profile request. -/
theorem uhs_mismatch_aborts (fromStringISO : String → QDateTime) (c : Context)
    (a : BranchAReplies) (b : BranchBReplies) (l : List Event)
    (hbusy : c.isBusy = true) (hcount : c.m_requestsDone = 0)
    (h : Interleaving (branchAEvents fromStringISO c.userUhs a)
      (branchBEvents fromStringISO c.userUhs b) l) :
    (a.stsError = NetworkError.NoError →
      (parseXTokenResponse fromStringISO a.stsReply Token.empty).1 = true →
      ((parseXTokenResponse fromStringISO a.stsReply Token.empty).2.extra.index "uhs").1 ≠
        c.userUhs →
      (∃ c2, onSTSAuthMinecraftDone fromStringISO c a.stsError a.stsReply =
          failResult c2 Flag.m_mcAuthSucceeded ∧
        c2.m_data.mojangservicesToken = c.m_data.mojangservicesToken ∧ c2.trace = c.trace) ∧
      ∃ r, run fromStringISO c l = some r ∧
        r.m_accountState = AccountTaskState.STATE_FAILED_HARD ∧
        r.m_data.mojangservicesToken = c.m_data.mojangservicesToken ∧
        ∀ e ∈ r.trace, Effect.isLoginRequest e = true → e ∈ c.trace) ∧
    (b.stsError = NetworkError.NoError →
      (parseXTokenResponse fromStringISO b.stsReply Token.empty).1 = true →
      ((parseXTokenResponse fromStringISO b.stsReply Token.empty).2.extra.index "uhs").1 ≠
        c.userUhs →
      (∃ c2, onSTSAuthGenericDone fromStringISO c b.stsError b.stsReply =
          failResult c2 Flag.m_xboxProfileSucceeded ∧
        c2.m_data.xboxApiToken = c.m_data.xboxApiToken ∧ c2.trace = c.trace) ∧
      ∃ r, run fromStringISO c l = some r ∧
        r.m_accountState = AccountTaskState.STATE_FAILED_HARD ∧
        r.m_data.xboxApiToken = c.m_data.xboxApiToken ∧
        ∀ e ∈ r.trace, Effect.isXboxProfileRequest e = true → e ∈ c.trace) :=
  ⟨branchA_mismatch fromStringISO c a b l hbusy hcount h,
    branchB_mismatch fromStringISO c a b l hbusy hcount h⟩

/-- Witness for C15: both XSTS replies carry the hash of another user; the run ends
Failed-hard with neither token stored and with no request issued. -/
theorem uhs_mismatch_aborts_witness :
    sampleFork.isBusy = true ∧ sampleFork.m_requestsDone = 0 ∧
    Interleaving (branchAEvents isoDateTimeUTC sampleFork.userUhs sampleBranchAOtherUser)
      (branchBEvents isoDateTimeUTC sampleFork.userUhs sampleBranchBOtherUser)
      sampleArrivalOtherUser ∧
    (∃ r, run isoDateTimeUTC sampleFork sampleArrivalOtherUser = some r ∧
      r.m_accountState = AccountTaskState.STATE_FAILED_HARD ∧
      r.m_data.mojangservicesToken = sampleFork.m_data.mojangservicesToken ∧
      ∀ e ∈ r.trace, Effect.isLoginRequest e = true → e ∈ sampleFork.trace) ∧
    (∃ r, run isoDateTimeUTC sampleFork sampleArrivalOtherUser = some r ∧
      r.m_accountState = AccountTaskState.STATE_FAILED_HARD ∧
      r.m_data.xboxApiToken = sampleFork.m_data.xboxApiToken ∧
      ∀ e ∈ r.trace, Effect.isXboxProfileRequest e = true → e ∈ sampleFork.trace) :=
  ⟨rfl, rfl, sampleArrivalOtherUser_interleaving,
    ((uhs_mismatch_aborts isoDateTimeUTC sampleFork sampleBranchAOtherUser
      sampleBranchBOtherUser sampleArrivalOtherUser rfl rfl
      sampleArrivalOtherUser_interleaving).1 rfl sampleXTokenOtherUser_mismatch.1
      sampleXTokenOtherUser_mismatch.2).2,
    ((uhs_mismatch_aborts isoDateTimeUTC sampleFork sampleBranchAOtherUser
      sampleBranchBOtherUser sampleArrivalOtherUser rfl rfl
      sampleArrivalOtherUser_interleaving).2 rfl sampleXTokenOtherUser_mismatch.1
      sampleXTokenOtherUser_mismatch.2).2⟩

/-- C23: after a profile fetch with no transport error whose body parseMinecraftProfile
accepts, the stage becomes MigrationEligibility, with the migration request issued, exactly
when the type of the account is Mojang; for every other type the stage becomes Skin and the
only request issued is the one for the skin. A body that parseMinecraftProfile rejects ends
the run of a busy task Failed-hard, with the profile of the bundle the empty one. -/
theorem onMinecraftProfileDone_next_stage (c : Context) (data : Option QJsonDocument) :
    ((parseMinecraftProfile data c.m_data.minecraftProfile).1 = true →
      ∃ c2, onMinecraftProfileDone c .NoError data = some c2 ∧
        (c2.m_stage = AuthStage.MigrationEligibility ↔ c.m_data.type = AccountType.Mojang) ∧
        (c.m_data.type = AccountType.Mojang →
          c2.trace = c.trace ++ [.progress 4 6,
            .stateChanged AccountTaskState.STATE_WORKING
              "Starting check for migration eligibility",
            .request (.rolloutMsaMigration c.m_data.yggdrasilToken.token)]) ∧
        (c.m_data.type ≠ AccountType.Mojang →
          c2.m_stage = AuthStage.Skin ∧
          c2.trace = c.trace ++ [.progress 5 6,
            .stateChanged AccountTaskState.STATE_WORKING "Fetching player skin",
            .request (.skin c2.m_data.minecraftProfile.skin.url)])) ∧
    ((parseMinecraftProfile data c.m_data.minecraftProfile).1 = false → c.isBusy = true →
      ∃ c2, onMinecraftProfileDone c .NoError data = some c2 ∧
        c2.m_accountState = AccountTaskState.STATE_FAILED_HARD ∧
        c2.m_stage = AuthStage.Complete ∧
        c2.m_data.minecraftProfile = MinecraftProfile.empty ∧
        c2.trace = c.trace ++ [.progress 6 6, .activityChanged Activity.Idle,
          .stateChanged AccountTaskState.STATE_FAILED_HARD
            "Minecraft Java profile response could not be parsed"]) := by
  constructor
  · intro h
    rw [onMinecraftProfileDone_accepted c data h]
    by_cases ht : c.m_data.type = AccountType.Mojang
    · refine ⟨_, rfl, ?_, ?_, ?_⟩
      · simp [ht, doMigrationEligibilityCheck, setStage, Context.changeState, Context.emit]
      · intro _
        simp [ht, doMigrationEligibilityCheck, setStage, Context.changeState, Context.emit,
          AuthStage.toInt]
      · intro hn
        exact absurd ht hn
    · refine ⟨_, rfl, ?_, ?_, ?_⟩
      · simp [ht, doGetSkin, setStage, Context.changeState, Context.emit]
      · intro hy
        exact absurd hy ht
      · intro _
        simp [ht, doGetSkin, setStage, Context.changeState, Context.emit, AuthStage.toInt]
  · intro h hbusy
    have hact : c.m_activity ≠ Activity.Idle := by simpa [Context.isBusy] using hbusy
    simp [onMinecraftProfileDone, h, finishActivity, Context.isBusy, hact, setStage,
      Context.changeState, Context.emit, AuthStage.toInt]

/-- Witness for C23: the sample profile is accepted, for an account of type Mojang and for
one of type MSA; a profile whose `name` is a number is rejected. -/
theorem onMinecraftProfileDone_next_stage_witness :
    (parseMinecraftProfile (some sampleProfile)
      (sampleAtProfile AccountType.Mojang).m_data.minecraftProfile).1 = true ∧
    (∃ c2, onMinecraftProfileDone (sampleAtProfile AccountType.Mojang) .NoError
        (some sampleProfile) = some c2 ∧
      c2.m_stage = AuthStage.MigrationEligibility) ∧
    (∃ c2, onMinecraftProfileDone (sampleAtProfile AccountType.MSA) .NoError
        (some sampleProfile) = some c2 ∧
      c2.m_stage = AuthStage.Skin) ∧
    (parseMinecraftProfile (some sampleProfileBadName)
      (sampleAtProfile AccountType.MSA).m_data.minecraftProfile).1 = false ∧
    (∃ c2, onMinecraftProfileDone (sampleAtProfile AccountType.MSA) .NoError
        (some sampleProfileBadName) = some c2 ∧
      c2.m_accountState = AccountTaskState.STATE_FAILED_HARD ∧
      c2.m_data.minecraftProfile = MinecraftProfile.empty) := by
  have h1 : (parseMinecraftProfile (some sampleProfile)
      (sampleAtProfile AccountType.Mojang).m_data.minecraftProfile).1 = true := by decide
  have h2 : (parseMinecraftProfile (some sampleProfile)
      (sampleAtProfile AccountType.MSA).m_data.minecraftProfile).1 = true := by decide
  have h3 : (parseMinecraftProfile (some sampleProfileBadName)
      (sampleAtProfile AccountType.MSA).m_data.minecraftProfile).1 = false := by decide
  obtain ⟨a, a1, a2, -, -⟩ :=
    (onMinecraftProfileDone_next_stage (sampleAtProfile AccountType.Mojang)
      (some sampleProfile)).1 h1
  obtain ⟨b, b1, -, -, b4⟩ :=
    (onMinecraftProfileDone_next_stage (sampleAtProfile AccountType.MSA)
      (some sampleProfile)).1 h2
  obtain ⟨d, d1, d2, -, d4, -⟩ :=
    (onMinecraftProfileDone_next_stage (sampleAtProfile AccountType.MSA)
      (some sampleProfileBadName)).2 h3 rfl
  exact ⟨h1, ⟨a, a1, a2.mpr rfl⟩, ⟨b, b1, (b4 (by decide)).1⟩, h3, ⟨d, d1, d2, d4⟩⟩

theorem qset_mem_insert (l : List Int) (x y : Int) :
    y ∈ QSet.insert l x ↔ y ∈ l ∨ y = x := by
  unfold QSet.insert
  split
  · rename_i h
    have hx : x ∈ l := by simpa using h
    constructor
    · intro hy
      exact Or.inl hy
    · rintro (hy | hy)
      · exact hy
      · rw [hy]
        exact hx
  · simp

theorem processSTSErrors_consistent (replies : List (NetworkError × Option QJsonDocument))
    (c : Context) (h : StsConsistent c) : StsConsistent (processSTSErrors c replies) := by
  induction replies generalizing c with
  | nil => exact h
  | cons r rest ih =>
    exact ih (processSTSError c r.1 r.2) (processSTSError_consistent c r.1 r.2 h)

theorem castInt64_fits (d : ℚ) : fitsInt64 (castInt64 d) := by
  unfold castInt64 fitsInt64
  split
  · rename_i h
    exact h
  · decide

theorem castInt64_inRange (d : ℚ) (h : fitsInt64 (truncToInt64 d)) :
    castInt64 d = truncToInt64 d := by
  unfold castInt64
  exact if_pos h

/-- C24: when the transport error is the authentication-required one and the body is a
JSON document whose `XErr` is a number, processSTSError adds one code to the recorded codes,
so that the codes on record afterwards are those on record before and this one, and it sets
the sts-failed flag; nothing else of the task changes. The code is a value of the 64-bit
integer type, and it is the number truncated toward zero whenever that truncation is a value
of the type, so it is the number itself when the number is such an integer; for a number
beyond the type the C++ cast is undefined, and nothing is said about which code it is. For
every other transport error, for a body that is not JSON and for an `XErr` that is not a
number, the task is left as it was. Hence, after any sequence of calls that starts with no
code on record and the flag cleared, the flag is set exactly when a code is on record. -/
theorem processSTSError_records (c : Context) (error : NetworkError)
    (data : Option QJsonDocument) :
    (∀ doc d, error = NetworkError.AuthenticationRequiredError → data = some doc →
      doc.toObject.value "XErr" = QJsonValue.double d →
      ∃ code, fitsInt64 code ∧
        processSTSError c error data =
          { c with stsErrors := QSet.insert c.stsErrors code, stsFailed := true } ∧
        (∀ x, x ∈ (processSTSError c error data).stsErrors ↔ x ∈ c.stsErrors ∨ x = code) ∧
        (fitsInt64 (truncToInt64 d) → code = truncToInt64 d) ∧
        (∀ n : Int, fitsInt64 n → d = n → code = n)) ∧
    ((error ≠ NetworkError.AuthenticationRequiredError ∨ data = none ∨
        ∃ doc, data = some doc ∧ (doc.toObject.value "XErr").isDouble = false) →
      processSTSError c error data = c) ∧
    (∀ replies : List (NetworkError × Option QJsonDocument),
      c.stsErrors = [] → c.stsFailed = false →
      ((processSTSErrors c replies).stsFailed = true ↔
        (processSTSErrors c replies).stsErrors ≠ [])) := by
  refine ⟨?_, ?_, ?_⟩
  · intro doc d he hd hx
    have hc : xerrOf error data = some (castInt64 d) := by
      simp [xerrOf, he, hd, hx, QJsonValue.isDouble, QJsonValue.toDouble]
    have hp := processSTSError_eq c error data
    rw [hc] at hp
    refine ⟨castInt64 d, castInt64_fits d, hp, ?_, castInt64_inRange d, ?_⟩
    · intro x
      rw [hp]
      exact qset_mem_insert c.stsErrors (castInt64 d) x
    · intro n hn hdn
      rw [hdn, castInt64_inRange _ (by rw [truncToInt64_intCast]; exact hn),
        truncToInt64_intCast]
  · intro h
    have hc : xerrOf error data = none := by
      rcases h with h | h | ⟨doc, h1, h2⟩
      · simp [xerrOf, h]
      · simp [xerrOf, h]
      · simp [xerrOf, h1, h2]
    have hp := processSTSError_eq c error data
    rw [hc] at hp
    exact hp
  · intro replies h1 h2
    exact processSTSErrors_consistent replies c (by simp [StsConsistent, h1, h2])

/-- Witness for C24: the sample error reply with code 2148916238 is recorded on the
authentication-required error and ignored on another transport error; after the two calls,
from nothing on record, the flag is set and the code is on record. -/
theorem processSTSError_records_witness :
    (processSTSError sampleFork NetworkError.AuthenticationRequiredError
      (some (sampleXErr 2148916238))).stsErrors = [2148916238] ∧
    (processSTSError sampleFork NetworkError.AuthenticationRequiredError
      (some (sampleXErr 2148916238))).stsFailed = true ∧
    processSTSError sampleFork NetworkError.OtherError (some (sampleXErr 2148916238)) =
      sampleFork ∧
    ((processSTSErrors sampleFork
      [(NetworkError.OtherError, some (sampleXErr 999)),
        (NetworkError.AuthenticationRequiredError, some (sampleXErr 2148916238))]).stsFailed
          = true ↔
      (processSTSErrors sampleFork
        [(NetworkError.OtherError, some (sampleXErr 999)),
          (NetworkError.AuthenticationRequiredError,
            some (sampleXErr 2148916238))]).stsErrors ≠ []) := by
  have h := processSTSError_records sampleFork NetworkError.AuthenticationRequiredError
    (some (sampleXErr 2148916238))
  obtain ⟨code, -, h1, -, -, h2⟩ := h.1 (sampleXErr 2148916238) 2148916238 rfl rfl rfl
  have hcode : code = 2148916238 := by
    have := h2 2148916238 (by unfold fitsInt64; decide) (by norm_num)
    simpa using this
  rw [hcode] at h1
  refine ⟨?_, ?_, ?_, ?_⟩
  · rw [h1]
    decide
  · rw [h1]
  · exact (processSTSError_records sampleFork NetworkError.OtherError
      (some (sampleXErr 2148916238))).2.1 (Or.inl (by decide))
  · exact h.2.2 _ rfl rfl

/-- C25 fails on the code: a `login_with_xbox` reply with a numeric `expires_in` and no
`username` is rejected and Branch A reports failure, but the access token of the bundle is
not what it was: it keeps its value and validity and has the dates of the rejected reply. -/
theorem onMinecraftAuthDone_rejected_overwrites_dates :
    (parseMojangResponse 1607370728000 (some sampleMojangNoUsername)
      sampleRefresh.m_data.yggdrasilToken).1 = false ∧
    (onMinecraftAuthDone 1607370728000 sampleRefresh NetworkError.NoError
      (some sampleMojangNoUsername)).map
        (fun c => (c.m_data.yggdrasilToken, c.m_mcAuthSucceeded, c.m_requestsDone)) =
      some ({ sampleOldToken with
        issueInstant := some 1607370728000, notAfter := some 1607457128000 }, false, 1) ∧
    ({ sampleOldToken with
      issueInstant := some 1607370728000, notAfter := some 1607457128000 } : Token) ≠
        sampleRefresh.m_data.yggdrasilToken := by
  refine ⟨?_, ?_, ?_⟩ <;> decide

/-! ## Lemmas on whole runs -/

theorem flight_pos {pa pb : Option Slot} {k : Slot} (h : flight pa pb k ≠ 0) :
    pa = some k ∨ pb = some k := by
  unfold flight at h
  by_cases h1 : pa = some k
  · exact Or.inl h1
  · by_cases h2 : pb = some k
    · exact Or.inr h2
    · simp [h1, h2] at h

theorem advance_task (fl : Slot → Nat) (c c2 : Context) (ans : Option Slot) :
    (Session.advance fl c c2 ans).task = c2 := rfl

theorem advance_inFlight (fl : Slot → Nat) (c c2 : Context) (ans : Option Slot)
    (new : List Effect) (h : c2.trace = c.trace ++ new) :
    (Session.advance fl c c2 ans).inFlight =
      fun k => fl k - (if ans = some k then 1 else 0) + issuedTo new k := by
  simp [Session.advance, h]

theorem progressOf_append (es new : List Effect) :
    progressOf (es ++ new) = progressOf es ++ progressOf new := by
  simp [progressOf, List.filterMap_append]

theorem stage_toInt_bounds (st : AuthStage) : 0 ≤ st.toInt ∧ st.toInt ≤ 6 := by
  cases st <;> simp [AuthStage.toInt]

/-- Effects that leave the stage alone and emit no progress keep the progress in order. -/
theorem progressOK_same {es : List Effect} {st : AuthStage} (h : ProgressOK es st)
    (new : List Effect) (hn : ∀ i t, Effect.progress i t ∉ new) :
    ProgressOK (es ++ new) st := by
  have hp : progressOf new = [] := by
    unfold progressOf
    rw [List.filterMap_eq_nil_iff]
    intro e he
    cases e with
    | progress i t => exact absurd he (hn i t)
    | _ => rfl
  obtain ⟨h1, h2, h3⟩ := h
  refine ⟨?_, ?_, ?_⟩
  · rw [progressOf_append, hp, List.append_nil]
    exact h1
  · rw [progressOf_append, hp, List.append_nil]
    exact h2
  · intro i t hit
    rcases List.mem_append.mp hit with hit | hit
    · exact h3 i t hit
    · exact absurd hit (hn i t)

/-- A later stage set by `setStage`, with its one progress update, keeps the progress in
order. -/
theorem progressOK_advance {es : List Effect} {st st2 : AuthStage} (h : ProgressOK es st)
    (hle : st.toInt ≤ st2.toInt) (new : List Effect)
    (hp : progressOf new = [st2.toInt])
    (hn : ∀ i t, Effect.progress i t ∈ new → t = AuthStage.Complete.toInt) :
    ProgressOK (es ++ new) st2 := by
  obtain ⟨h1, h2, h3⟩ := h
  refine ⟨?_, ?_, ?_⟩
  · rw [progressOf_append, hp, List.pairwise_append]
    refine ⟨h1, List.pairwise_singleton _ _, ?_⟩
    intro a ha b hb
    rw [List.mem_singleton] at hb
    rw [hb]
    exact le_trans (h2 a ha).2 hle
  · intro i hi
    rw [progressOf_append, hp] at hi
    rcases List.mem_append.mp hi with hi | hi
    · exact ⟨(h2 i hi).1, le_trans (h2 i hi).2 hle⟩
    · rw [List.mem_singleton] at hi
      rw [hi]
      exact ⟨(stage_toInt_bounds st2).1, le_refl _⟩
  · intro i t hit
    rcases List.mem_append.mp hit with hit | hit
    · exact h3 i t hit
    · exact hn i t hit

theorem storedA_mono {es : List Effect} {c c2 : Context} {u : String} (h : StoredA es c u)
    (ht : c2.m_data.mojangservicesToken = c.m_data.mojangservicesToken)
    (new : List Effect) (hn : ∀ e ∈ new, Effect.isLoginRequest e = false) :
    StoredA (es ++ new) c2 u := by
  obtain ⟨h1, h2⟩ := h
  refine ⟨by rw [ht]; exact h1, ?_⟩
  intro u2 t hm
  rw [ht]
  rcases List.mem_append.mp hm with hm | hm
  · exact h2 u2 t hm
  · have := hn _ hm
    simp [Effect.isLoginRequest] at this

theorem storedB_mono {es : List Effect} {c c2 : Context} {u : String} (h : StoredB es c u)
    (ht : c2.m_data.xboxApiToken = c.m_data.xboxApiToken)
    (new : List Effect) (hn : ∀ e ∈ new, Effect.isXboxProfileRequest e = false) :
    StoredB (es ++ new) c2 u := by
  obtain ⟨h1, h2⟩ := h
  refine ⟨by rw [ht]; exact h1, ?_⟩
  intro u2 t hm
  rw [ht]
  rcases List.mem_append.mp hm with hm | hm
  · exact h2 u2 t hm
  · have := hn _ hm
    simp [Effect.isXboxProfileRequest] at this

theorem isLoginRequest_of_not_branch {e : Effect} (h : Effect.isBranchRequest e = false) :
    Effect.isLoginRequest e = false ∧ Effect.isXboxProfileRequest e = false := by
  cases e with
  | request r =>
    cases r <;> simp [Effect.isBranchRequest, Effect.isLoginRequest,
      Effect.isXboxProfileRequest] at h ⊢
  | _ => simp [Effect.isLoginRequest, Effect.isXboxProfileRequest]

theorem uhsAgree_mono {es : List Effect} {c c2 : Context} (h : UhsAgree es c)
    (hu : c2.m_data.userToken.uhs = c.m_data.userToken.uhs)
    (ha : c2.m_data.mojangservicesToken = c.m_data.mojangservicesToken)
    (hb : c2.m_data.xboxApiToken = c.m_data.xboxApiToken)
    (new : List Effect) (hn : ∀ e ∈ new, Effect.isBranchRequest e = false) :
    UhsAgree (es ++ new) c2 := by
  obtain ⟨u, h1, h2, h3⟩ := h
  exact ⟨u, by rw [hu]; exact h1,
    storedA_mono h2 ha new (fun e he => (isLoginRequest_of_not_branch (hn e he)).1),
    storedB_mono h3 hb new (fun e he => (isLoginRequest_of_not_branch (hn e he)).2)⟩

theorem uhsAgree_or_mono {sig : Signal} {es : List Effect} {c c2 : Context}
    (h : sig = Signal.mojangSucceeded ∨ UhsAgree es c)
    (hu : c2.m_data.userToken.uhs = c.m_data.userToken.uhs)
    (ha : c2.m_data.mojangservicesToken = c.m_data.mojangservicesToken)
    (hb : c2.m_data.xboxApiToken = c.m_data.xboxApiToken)
    (new : List Effect) (hn : ∀ e ∈ new, Effect.isBranchRequest e = false) :
    sig = Signal.mojangSucceeded ∨ UhsAgree (es ++ new) c2 := by
  rcases h with h | h
  · exact Or.inl h
  · exact Or.inr (uhsAgree_mono h hu ha hb new hn)

theorem stageInv_initial {start : Context} {sig : Signal} {es : List Effect} {c : Context}
    {pa pb : Option Slot} (h : c.m_stage = AuthStage.Initial) :
    StageInv start sig es c pa pb ↔ False := by
  simp only [StageInv, h]

theorem stageInv_userAuth {start : Context} {sig : Signal} {es : List Effect} {c : Context}
    {pa pb : Option Slot} (h : c.m_stage = AuthStage.UserAuth) :
    StageInv start sig es c pa pb ↔
      (pa = some Slot.onUserAuthDone ∧ pb = none ∧ c.isBusy = true ∧ c.m_requestsDone = 0 ∧
        c.m_data.minecraftProfile = start.m_data.minecraftProfile ∧
        ∀ e ∈ es, Effect.isBranchRequest e = false) := by
  simp only [StageInv, h]

theorem stageInv_xboxAuth {start : Context} {sig : Signal} {es : List Effect} {c : Context}
    {pa pb : Option Slot} (h : c.m_stage = AuthStage.XboxAuth) :
    StageInv start sig es c pa pb ↔
      (c.isBusy = true ∧ c.m_data.minecraftProfile = start.m_data.minecraftProfile ∧
        (pa = none ∨ pa = some Slot.onSTSAuthMinecraftDone ∨
          pa = some Slot.onMinecraftAuthDone) ∧
        (pb = none ∨ pb = some Slot.onSTSAuthGenericDone ∨
          pb = some Slot.onXBoxProfileDone) ∧
        ¬ (pa = none ∧ pb = none) ∧
        c.m_requestsDone = (if pa = none then 1 else 0) + (if pb = none then 1 else 0) ∧
        ∃ u, c.m_data.userToken.uhs = .string u ∧
          (pa = some Slot.onSTSAuthMinecraftDone →
            ∀ e ∈ es, Effect.isLoginRequest e = false) ∧
          (pa = some Slot.onMinecraftAuthDone ∨ (pa = none ∧ c.m_mcAuthSucceeded = true) →
            StoredA es c u) ∧
          (pb = some Slot.onSTSAuthGenericDone →
            ∀ e ∈ es, Effect.isXboxProfileRequest e = false) ∧
          (pb = some Slot.onXBoxProfileDone ∨
              (pb = none ∧ c.m_xboxProfileSucceeded = true) →
            StoredB es c u)) := by
  simp only [StageInv, h]

theorem stageInv_minecraftProfile {start : Context} {sig : Signal} {es : List Effect}
    {c : Context} {pa pb : Option Slot} (h : c.m_stage = AuthStage.MinecraftProfile) :
    StageInv start sig es c pa pb ↔
      (pa = some Slot.onMinecraftProfileDone ∧ pb = none ∧ c.isBusy = true ∧
        c.m_data.minecraftProfile = start.m_data.minecraftProfile ∧
        (sig = Signal.mojangSucceeded ∨ UhsAgree es c)) := by
  simp only [StageInv, h]

theorem stageInv_migrationEligibility {start : Context} {sig : Signal} {es : List Effect}
    {c : Context} {pa pb : Option Slot} (h : c.m_stage = AuthStage.MigrationEligibility) :
    StageInv start sig es c pa pb ↔
      (pa = some Slot.onMigrationEligibilityCheckDone ∧ pb = none ∧ c.isBusy = true ∧
        c.m_data.minecraftProfile.validity = Validity.Certain ∧
        (sig = Signal.mojangSucceeded ∨ UhsAgree es c)) := by
  simp only [StageInv, h]

theorem stageInv_skin {start : Context} {sig : Signal} {es : List Effect} {c : Context}
    {pa pb : Option Slot} (h : c.m_stage = AuthStage.Skin) :
    StageInv start sig es c pa pb ↔
      (pa = some Slot.onSkinDone ∧ pb = none ∧ c.isBusy = true ∧
        c.m_data.minecraftProfile.validity = Validity.Certain ∧
        (sig = Signal.mojangSucceeded ∨ UhsAgree es c)) := by
  simp only [StageInv, h]

theorem stageInv_complete {start : Context} {sig : Signal} {es : List Effect} {c : Context}
    {pa pb : Option Slot} (h : c.m_stage = AuthStage.Complete) :
    StageInv start sig es c pa pb ↔
      (pa = none ∧ pb = none ∧ c.isBusy = false ∧
        ((c.m_accountState = AccountTaskState.STATE_SUCCEEDED ∧
            c.m_data.validity_ = Validity.Certain ∧
            (sig = Signal.mojangSucceeded ∨ UhsAgree es c)) ∨
          (sig.failsWith c.m_accountState ∧
            (c.m_data.validity_ = start.m_data.minecraftProfile.validity ∨
              c.m_data.validity_ = Validity.Invalid)))) := by
  simp only [StageInv, h]

theorem finishThen_ends (c : Context) (hbusy : c.isBusy = true) (state : AccountTaskState)
    (msg : String) :
    ∃ c2, (finishActivity c).bind (fun c3 => some (c3.changeState state msg)) = some c2 ∧
      EndsFrom c c2 state := by
  rw [finishActivity_eq c hbusy]
  refine ⟨_, rfl, rfl, rfl, rfl, rfl, ?_⟩
  simp [Context.changeState, Context.emit]

theorem checkResult_ends (c : Context) (hbusy : c.isBusy = true)
    (hdone : c.m_requestsDone = 2)
    (hfail : (c.m_mcAuthSucceeded && c.m_xboxProfileSucceeded) = false) :
    ∃ c2, checkResult c = some c2 ∧ EndsFrom c c2 AccountTaskState.STATE_FAILED_HARD := by
  obtain ⟨r, f1, f2, f3, f4, f5, -⟩ := checkResult_failure c hbusy hdone hfail
  obtain ⟨r2, t1, t2⟩ := checkResult_failure_trace c hbusy hdone hfail
  have hr : r2 = r := Option.some.inj (t1.symm.trans f1)
  rw [hr] at t2
  exact ⟨r, f1, f4, f3, f2, f5, t2⟩

/-- A run that ends by `finishActivity` and a failure state keeps the invariant: nothing is
in flight, and the validity of the bundle is the one of its profile. -/
theorem ends_inv (start : Context) (sig : Signal) (before c c2 : Context)
    (es pre : List Effect) (fl : Slot → Nat) (ans : Option Slot) (state : AccountTaskState)
    (hbefore : before.trace = start.trace ++ es) (hc : c.trace = before.trace ++ pre)
    (hpre : ∀ e ∈ pre, e = Effect.hideVerificationUriAndCode)
    (hprog : ProgressOK es c.m_stage)
    (hfl : ∀ k, fl k - (if ans = some k then 1 else 0) = 0)
    (hfail : sig.failsWith state)
    (hval : c.m_data.minecraftProfile.validity = start.m_data.minecraftProfile.validity ∨
      c.m_data.minecraftProfile.validity = Validity.Invalid)
    (hends : EndsFrom c c2 state) :
    (Session.advance fl before c2 ans).Inv start sig := by
  obtain ⟨e1, e2, e3, e4, e5⟩ := hends
  have htr : c2.trace = before.trace ++ (pre ++
      [.progress AuthStage.Complete.toInt AuthStage.Complete.toInt,
        .activityChanged Activity.Idle, .stateChanged state c2.m_stateMessage]) := by
    rw [e5, hc, List.append_assoc]
  refine ⟨es ++ (pre ++ [.progress AuthStage.Complete.toInt AuthStage.Complete.toInt,
    .activityChanged Activity.Idle, .stateChanged state c2.m_stateMessage]), none, none,
    ?_, ?_, ?_, ?_⟩
  · rw [advance_task, htr, hbefore, List.append_assoc]
  · rw [advance_inFlight fl before c2 ans _ htr]
    funext k
    have hz : issuedTo (pre ++ [.progress AuthStage.Complete.toInt AuthStage.Complete.toInt,
        .activityChanged Activity.Idle, .stateChanged state c2.m_stateMessage]) k = 0 := by
      unfold issuedTo
      rw [List.countP_eq_zero]
      intro e he
      rcases List.mem_append.mp he with he | he
      · rw [hpre e he]
        simp
      · simp only [List.mem_cons, List.mem_singleton, List.not_mem_nil, or_false] at he
        rcases he with he | he | he <;> rw [he] <;> simp
    rw [hfl k, hz]
    simp [flight]
  · rw [advance_task, e1]
    have hle : c.m_stage.toInt ≤ AuthStage.Complete.toInt := (stage_toInt_bounds _).2
    apply progressOK_advance hprog hle
    · unfold progressOf
      rw [List.filterMap_append]
      have : List.filterMap (fun e => match e with
          | Effect.progress i _ => some i
          | _ => none) pre = [] := by
        rw [List.filterMap_eq_nil_iff]
        intro e he
        rw [hpre e he]
      rw [this]
      rfl
    · intro i t hit
      rcases List.mem_append.mp hit with hit | hit
      · have := hpre _ hit
        cases this
      · simp only [List.mem_cons, List.mem_singleton, List.not_mem_nil, or_false] at hit
        rcases hit with hit | hit | hit
        · cases hit
          rfl
        · cases hit
        · cases hit
  · rw [advance_task]
    rw [stageInv_complete e1]
    refine ⟨rfl, rfl, by simp [Context.isBusy, e2], Or.inr ⟨by rw [e3]; exact hfail, ?_⟩⟩
    rw [e4]
    exact hval

theorem progressOK_nil (st : AuthStage) : ProgressOK [] st := by
  refine ⟨?_, ?_, ?_⟩
  · simp [progressOf]
  · intro i hi
    simp [progressOf] at hi
  · intro i t hit
    cases hit

theorem emit_busy (c : Context) (e : Effect) : (c.emit e).isBusy = c.isBusy := rfl

/-- The start of a run from a fresh task does not throw and establishes the invariant. -/
theorem start_inv (start : Context) (sig : Signal) (h : Fresh start) :
    ∃ s, Session.start start sig = .ok s ∧ s.Inv start sig := by
  obtain ⟨hstage, hbusy, hcount⟩ := h
  have hterm : ∀ (pre : List Effect) (state : AccountTaskState) (msg : String),
      (∀ e ∈ pre, e = Effect.hideVerificationUriAndCode) → sig.failsWith state →
      ∀ c : Context, c.trace = start.trace ++ pre → c.isBusy = true →
        c.m_data = start.m_data →
      ∃ c2, (finishActivity c).bind (fun c3 => some (c3.changeState state msg)) = some c2 ∧
        (Session.advance (fun _ => 0) start c2 none).Inv start sig := by
    intro pre state msg hpre hfail c hc hb hd
    obtain ⟨c2, h1, h2⟩ := finishThen_ends c hb state msg
    refine ⟨c2, h1, ?_⟩
    exact ends_inv start sig start c c2 [] pre (fun _ => 0) none state (by simp) hc hpre
      (progressOK_nil _) (by simp) hfail (Or.inl (by rw [hd])) h2
  cases sig with
  | oauthLinkingFailedHard =>
    obtain ⟨c2, h1, h2⟩ := hterm [.hideVerificationUriAndCode]
      AccountTaskState.STATE_FAILED_HARD "Microsoft user authentication failed."
      (by simp) (Or.inl rfl) (start.emit .hideVerificationUriAndCode) rfl hbusy rfl
    refine ⟨_, ?_, h2⟩
    simp only [Session.start, signal, onOAuthLinkingFailedHard, Option.bind_eq_bind]
    rw [h1]
  | oauthLinkingFailedSoft =>
    obtain ⟨c2, h1, h2⟩ := hterm [.hideVerificationUriAndCode]
      AccountTaskState.STATE_FAILED_SOFT
      "Couldn't establish connection to Microsoft authentication server."
      (by simp) (Or.inr (Or.inl ⟨rfl, rfl⟩)) (start.emit .hideVerificationUriAndCode) rfl
      hbusy rfl
    refine ⟨_, ?_, h2⟩
    simp only [Session.start, signal, onOAuthLinkingFailedSoft, Option.bind_eq_bind]
    rw [h1]
  | mojangFailed state =>
    obtain ⟨c2, h1, h2⟩ := hterm [] state "Mojang user authentication failed."
      (by simp) (Or.inr (Or.inr rfl)) start (by simp) hbusy rfl
    refine ⟨_, ?_, h2⟩
    simp only [Session.start, signal, onMojangFailed, Option.bind_eq_bind]
    rw [h1]
  | oauthLinkingSucceeded linked =>
    cases linked with
    | false =>
      obtain ⟨c2, h1, h2⟩ := hterm [.hideVerificationUriAndCode]
        AccountTaskState.STATE_FAILED_HARD
        ("Microsoft user authentication ended with an impossible state " ++
          "(succeeded, but not succeeded at the same time).")
        (by simp) (Or.inl rfl) (start.emit .hideVerificationUriAndCode) rfl hbusy rfl
      refine ⟨_, ?_, h2⟩
      simp only [Session.start, signal, onOAuthLinkingSucceeded, Option.bind_eq_bind,
        Bool.not_false, if_true]
      rw [h1]
    | true =>
      refine ⟨_, by simp only [Session.start, signal, onOAuthLinkingSucceeded]; rfl, ?_⟩
      have htr : (doUserAuth (start.emit .hideVerificationUriAndCode)).trace =
          start.trace ++ [.hideVerificationUriAndCode,
            .progress AuthStage.UserAuth.toInt AuthStage.Complete.toInt,
            .stateChanged AccountTaskState.STATE_WORKING "Starting user authentication",
            .request (.userAuthenticate start.m_data.msaToken.token)] := by
        simp [doUserAuth, setStage, Context.changeState, Context.emit]
      refine ⟨_, some Slot.onUserAuthDone, none, htr, ?_, ?_, ?_⟩
      · rw [advance_inFlight _ _ _ _ _ htr]
        funext k
        cases k <;> simp [flight, issuedTo, Request.slot]
      · refine ⟨?_, ?_, ?_⟩
        · simp [progressOf]
        · intro i hi
          simp [progressOf] at hi
          subst hi
          simp [doUserAuth, setStage, Context.changeState, Context.emit, AuthStage.toInt,
            advance_task]
        · intro i t hit
          simp at hit
          exact hit.2
      · have hs : (Session.advance (fun _ => 0) start
            (doUserAuth (start.emit .hideVerificationUriAndCode)) none).task.m_stage =
              AuthStage.UserAuth := rfl
        rw [stageInv_userAuth hs]
        refine ⟨rfl, rfl, hbusy, hcount, rfl, ?_⟩
        intro e he
        simp at he
        rcases he with he | he | he | he <;> rw [he] <;> rfl
  | mojangSucceeded =>
    refine ⟨_, by simp only [Session.start, signal]; rfl, ?_⟩
    have htr : (onMojangSucceeded start).trace =
        start.trace ++ [.progress AuthStage.MinecraftProfile.toInt AuthStage.Complete.toInt,
          .stateChanged AccountTaskState.STATE_WORKING
            "Starting minecraft profile acquisition",
          .request (.minecraftProfile start.m_data.yggdrasilToken.token)] := by
      simp [onMojangSucceeded, doMinecraftProfile, setStage, Context.changeState,
        Context.emit]
    refine ⟨_, some Slot.onMinecraftProfileDone, none, htr, ?_, ?_, ?_⟩
    · rw [advance_inFlight _ _ _ _ _ htr]
      funext k
      cases k <;> simp [flight, issuedTo, Request.slot]
    · refine ⟨?_, ?_, ?_⟩
      · simp [progressOf]
      · intro i hi
        simp [progressOf] at hi
        subst hi
        simp [onMojangSucceeded, doMinecraftProfile, setStage, Context.changeState,
          Context.emit, AuthStage.toInt, advance_task]
      · intro i t hit
        simp at hit
        exact hit.2
    · have hs : (Session.advance (fun _ => 0) start (onMojangSucceeded start)
          none).task.m_stage = AuthStage.MinecraftProfile := rfl
      rw [stageInv_minecraftProfile hs]
      exact ⟨rfl, rfl, hbusy, rfl, Or.inl rfl⟩

/-- A request in flight tells the stage of the task. -/
theorem stage_of_slot {start : Context} {sig : Signal} {es : List Effect} {c : Context}
    {pa pb : Option Slot} {k : Slot} (h : StageInv start sig es c pa pb)
    (hk : pa = some k ∨ pb = some k) : c.m_stage = k.stage := by
  cases hst : c.m_stage
  · exact absurd h (by rw [stageInv_initial hst]; exact id)
  · rw [stageInv_userAuth hst] at h
    obtain ⟨h1, h2, -⟩ := h
    rcases hk with hk | hk
    · rw [h1] at hk
      cases hk
      rfl
    · rw [h2] at hk
      cases hk
  · rw [stageInv_xboxAuth hst] at h
    obtain ⟨-, -, h1, h2, -⟩ := h
    rcases hk with hk | hk
    · rcases h1 with h1 | h1 | h1 <;> rw [h1] at hk <;> cases hk <;> rfl
    · rcases h2 with h2 | h2 | h2 <;> rw [h2] at hk <;> cases hk <;> rfl
  · rw [stageInv_minecraftProfile hst] at h
    obtain ⟨h1, h2, -⟩ := h
    rcases hk with hk | hk
    · rw [h1] at hk
      cases hk
      rfl
    · rw [h2] at hk
      cases hk
  · rw [stageInv_migrationEligibility hst] at h
    obtain ⟨h1, h2, -⟩ := h
    rcases hk with hk | hk
    · rw [h1] at hk
      cases hk
      rfl
    · rw [h2] at hk
      cases hk
  · rw [stageInv_skin hst] at h
    obtain ⟨h1, h2, -⟩ := h
    rcases hk with hk | hk
    · rw [h1] at hk
      cases hk
      rfl
    · rw [h2] at hk
      cases hk
  · rw [stageInv_complete hst] at h
    obtain ⟨h1, h2, -⟩ := h
    rcases hk with hk | hk
    · rw [h1] at hk
      cases hk
    · rw [h2] at hk
      cases hk

/-- The delivery of a completion either finds no request of its slot in flight, or finds
the task at the stage of the slot. -/
theorem deliver_cases (fromStringISO : String → QDateTime) {start : Context} {sig : Signal}
    {s : Session} {es : List Effect} {pa pb : Option Slot} (ev : Event)
    (hfl : s.inFlight = flight pa pb) (hst : StageInv start sig es s.task pa pb) :
    Session.deliver fromStringISO s ev = .error .notInFlight ∨
      (s.task.m_stage = ev.slot.stage ∧ (pa = some ev.slot ∨ pb = some ev.slot) ∧
        Session.deliver fromStringISO s ev =
          match step fromStringISO s.task ev with
          | none => .error .thrown
          | some c2 => .ok (Session.advance s.inFlight s.task c2 (some ev.slot))) := by
  by_cases h0 : s.inFlight ev.slot = 0
  · left
    simp [Session.deliver, h0]
  · right
    have hk : pa = some ev.slot ∨ pb = some ev.slot := by
      rw [hfl] at h0
      exact flight_pos h0
    exact ⟨stage_of_slot hst hk, hk, by simp [Session.deliver, h0]⟩

/-- The invariant of the session after a step, from its parts. -/
theorem inv_intro {start : Context} {sig : Signal} {fl : Slot → Nat} {c c2 : Context}
    {ans : Option Slot} {es : List Effect} (new : List Effect) (pa pb : Option Slot)
    (htr : c.trace = start.trace ++ es) (hnew : c2.trace = c.trace ++ new)
    (hfl : (fun k => fl k - (if ans = some k then 1 else 0) + issuedTo new k) = flight pa pb)
    (hprog : ProgressOK (es ++ new) c2.m_stage)
    (hst : StageInv start sig (es ++ new) c2 pa pb) :
    (Session.advance fl c c2 ans).Inv start sig := by
  refine ⟨es ++ new, pa, pb, ?_, ?_, hprog, hst⟩
  · rw [advance_task, hnew, htr, List.append_assoc]
  · rw [advance_inFlight _ _ _ _ _ hnew, hfl]

/-- The completion of the skin request keeps the invariant. -/
theorem deliver_skinDone (fromStringISO : String → QDateTime) (start : Context)
    (sig : Signal) (s : Session) (h : s.Inv start sig) (error : NetworkError)
    (data : QByteArray) :
    Session.deliver fromStringISO s (.skinDone error data) = .error .notInFlight ∨
      ∃ s2, Session.deliver fromStringISO s (.skinDone error data) = .ok s2 ∧
        s2.Inv start sig := by
  obtain ⟨es, pa, pb, htr, hfl, hprog, hst⟩ := h
  rcases deliver_cases fromStringISO (.skinDone error data) hfl hst with h0 | ⟨hs, -, hd⟩
  · exact Or.inl h0
  · right
    have hs2 : s.task.m_stage = AuthStage.Skin := hs
    rw [stageInv_skin hs2] at hst
    obtain ⟨hpa, hpb, hbusy, hval, hu⟩ := hst
    have hact : s.task.m_activity ≠ Activity.Idle := by simpa [Context.isBusy] using hbusy
    rw [hd]
    simp only [step]
    obtain ⟨c2, k1, k2, k3, k4, k5, -⟩ := onSkinDone_eq s.task error data hbusy
    have ktr : c2.trace = s.task.trace ++
        [.progress AuthStage.Complete.toInt AuthStage.Complete.toInt,
          .activityChanged Activity.Idle,
          .stateChanged AccountTaskState.STATE_SUCCEEDED
            "Finished all authentication steps"] := by
      have := k1
      by_cases he : error = NetworkError.NoError <;>
        simp [onSkinDone, he, finishActivity, Context.isBusy, hact, setStage,
          Context.changeState, Context.emit] at this <;>
        simp [← this]
    have kd : c2.m_data.userToken = s.task.m_data.userToken ∧
        c2.m_data.mojangservicesToken = s.task.m_data.mojangservicesToken ∧
        c2.m_data.xboxApiToken = s.task.m_data.xboxApiToken := by
      have := k1
      by_cases he : error = NetworkError.NoError <;>
        simp [onSkinDone, he, finishActivity, Context.isBusy, hact, setStage,
          Context.changeState, Context.emit] at this <;>
        simp [← this]
    rw [k1]
    refine ⟨_, rfl, es ++ [.progress AuthStage.Complete.toInt AuthStage.Complete.toInt,
      .activityChanged Activity.Idle,
      .stateChanged AccountTaskState.STATE_SUCCEEDED "Finished all authentication steps"],
      none, none, ?_, ?_, ?_, ?_⟩
    · rw [advance_task, ktr, htr, List.append_assoc]
    · rw [advance_inFlight _ _ _ _ _ ktr, hfl, hpa, hpb]
      funext k
      cases k <;> simp [flight, issuedTo, Event.slot]
    · rw [advance_task, k4]
      have hle : s.task.m_stage.toInt ≤ AuthStage.Complete.toInt := (stage_toInt_bounds _).2
      apply progressOK_advance hprog hle
      · simp [progressOf]
      · intro i t hit
        simp at hit
        exact hit.2
    · rw [advance_task, stageInv_complete k4]
      refine ⟨rfl, rfl, by simp [Context.isBusy, k3], Or.inl ⟨k2, by rw [k5, hval], ?_⟩⟩
      apply uhsAgree_or_mono hu (by rw [kd.1]) kd.2.1 kd.2.2
      intro e he
      simp at he
      rcases he with he | he | he <;> rw [he] <;> rfl

theorem doGetSkin_eq (c : Context) :
    (doGetSkin c).m_stage = AuthStage.Skin ∧ (doGetSkin c).m_activity = c.m_activity ∧
    (doGetSkin c).m_data = c.m_data ∧
    (doGetSkin c).trace = c.trace ++
      [.progress AuthStage.Skin.toInt AuthStage.Complete.toInt,
        .stateChanged AccountTaskState.STATE_WORKING "Fetching player skin",
        .request (.skin c.m_data.minecraftProfile.skin.url)] := by
  simp [doGetSkin, setStage, Context.changeState, Context.emit]

theorem doMigrationEligibilityCheck_eq (c : Context) :
    (doMigrationEligibilityCheck c).m_stage = AuthStage.MigrationEligibility ∧
    (doMigrationEligibilityCheck c).m_activity = c.m_activity ∧
    (doMigrationEligibilityCheck c).m_data = c.m_data ∧
    (doMigrationEligibilityCheck c).trace = c.trace ++
      [.progress AuthStage.MigrationEligibility.toInt AuthStage.Complete.toInt,
        .stateChanged AccountTaskState.STATE_WORKING
          "Starting check for migration eligibility",
        .request (.rolloutMsaMigration c.m_data.yggdrasilToken.token)] := by
  simp [doMigrationEligibilityCheck, setStage, Context.changeState, Context.emit]

theorem doMinecraftProfile_eq (c : Context) :
    (doMinecraftProfile c).m_stage = AuthStage.MinecraftProfile ∧
    (doMinecraftProfile c).m_activity = c.m_activity ∧
    (doMinecraftProfile c).m_data = c.m_data ∧
    (doMinecraftProfile c).trace = c.trace ++
      [.progress AuthStage.MinecraftProfile.toInt AuthStage.Complete.toInt,
        .stateChanged AccountTaskState.STATE_WORKING
          "Starting minecraft profile acquisition",
        .request (.minecraftProfile c.m_data.yggdrasilToken.token)] := by
  simp [doMinecraftProfile, setStage, Context.changeState, Context.emit]

/-- The progress of a stage set by `setStage`, followed by the change of state and the
request of the stage. -/
theorem progressOK_stage {es : List Effect} {st st2 : AuthStage} (h : ProgressOK es st)
    (hle : st.toInt ≤ st2.toInt) (state : AccountTaskState) (msg : String) (r : Request) :
    ProgressOK (es ++ [.progress st2.toInt AuthStage.Complete.toInt,
      .stateChanged state msg, .request r]) st2 := by
  apply progressOK_advance h hle
  · simp [progressOf]
  · intro i t hit
    simp at hit
    exact hit.2

/-- The completion of the migration check keeps the invariant. -/
theorem deliver_migrationDone (fromStringISO : String → QDateTime) (start : Context)
    (sig : Signal) (s : Session) (h : s.Inv start sig) (error : NetworkError)
    (data : Option QJsonDocument) :
    Session.deliver fromStringISO s (.migrationEligibilityCheckDone error data) =
        .error .notInFlight ∨
      ∃ s2, Session.deliver fromStringISO s (.migrationEligibilityCheckDone error data) =
          .ok s2 ∧ s2.Inv start sig := by
  obtain ⟨es, pa, pb, htr, hfl, hprog, hst⟩ := h
  rcases deliver_cases fromStringISO (.migrationEligibilityCheckDone error data) hfl hst with
    h0 | ⟨hs, -, hd⟩
  · exact Or.inl h0
  · right
    have hs2 : s.task.m_stage = AuthStage.MigrationEligibility := hs
    rw [stageInv_migrationEligibility hs2] at hst
    obtain ⟨hpa, hpb, hbusy, hval, hu⟩ := hst
    rw [hd]
    simp only [step]
    have hc2 : ∃ c1 : Context, onMigrationEligibilityCheckDone s.task error data =
        doGetSkin c1 ∧ c1.trace = s.task.trace ∧ c1.m_activity = s.task.m_activity ∧
        c1.m_data.minecraftProfile = s.task.m_data.minecraftProfile ∧
        c1.m_data.userToken = s.task.m_data.userToken ∧
        c1.m_data.mojangservicesToken = s.task.m_data.mojangservicesToken ∧
        c1.m_data.xboxApiToken = s.task.m_data.xboxApiToken := by
      by_cases he : error = NetworkError.NoError
      · exact ⟨{ s.task with m_data := { s.task.m_data with
            canMigrateToMSA := (parseRolloutResponse data s.task.m_data.canMigrateToMSA).2 } },
          by simp [onMigrationEligibilityCheckDone, he], rfl, rfl, rfl, rfl, rfl, rfl⟩
      · have hb : (error == NetworkError.NoError) = false := by simpa using he
        exact ⟨s.task, by simp [onMigrationEligibilityCheckDone, hb], rfl, rfl, rfl, rfl,
          rfl, rfl⟩
    obtain ⟨c1, e1, e2, e3, e4, e5, e6, e7⟩ := hc2
    obtain ⟨g1, g2, g3, g4⟩ := doGetSkin_eq c1
    rw [e1]
    have ktr : (doGetSkin c1).trace = s.task.trace ++
        [.progress AuthStage.Skin.toInt AuthStage.Complete.toInt,
          .stateChanged AccountTaskState.STATE_WORKING "Fetching player skin",
          .request (.skin c1.m_data.minecraftProfile.skin.url)] := by
      rw [g4, e2]
    refine ⟨_, rfl, inv_intro _ (some Slot.onSkinDone) none htr ktr ?_ ?_ ?_⟩
    · rw [hfl, hpa, hpb]
      funext k
      cases k <;> simp [flight, issuedTo, Event.slot, Request.slot]
    · rw [g1]
      exact progressOK_stage hprog (by rw [hs2]; decide) _ _ _
    · rw [stageInv_skin g1]
      refine ⟨rfl, rfl, by simpa [Context.isBusy, g2, e3] using hbusy,
        by rw [g3, e4]; exact hval, ?_⟩
      apply uhsAgree_or_mono hu (by rw [g3, e5]) (by rw [g3, e6]) (by rw [g3, e7])
      intro e he
      simp at he
      rcases he with he | he | he <;> rw [he] <;> rfl

theorem flight_single_answered (k0 : Slot) :
    ∀ k, flight (some k0) none k - (if some k0 = some k then 1 else 0) = 0 := by
  intro k
  by_cases h : k0 = k <;> simp [flight, h]

theorem onMinecraftProfileDone_rejected (c : Context) (data : Option QJsonDocument)
    (h : (parseMinecraftProfile data c.m_data.minecraftProfile).1 = false) :
    onMinecraftProfileDone c .NoError data =
      (finishActivity { c with m_data := { c.m_data with
          minecraftProfile := MinecraftProfile.empty } }).bind
        (fun c3 => some (c3.changeState AccountTaskState.STATE_FAILED_HARD
          "Minecraft Java profile response could not be parsed")) := by
  simp [onMinecraftProfileDone, h]

theorem onMinecraftProfileDone_error (c : Context) (error : NetworkError)
    (data : Option QJsonDocument) (h1 : error ≠ NetworkError.ContentNotFoundError)
    (h2 : error ≠ NetworkError.NoError) :
    onMinecraftProfileDone c error data =
      (finishActivity c).bind
        (fun c3 => some (c3.changeState AccountTaskState.STATE_FAILED_HARD
          "Minecraft Java profile acquisition failed.")) := by
  simp [onMinecraftProfileDone, h1, h2]

theorem onMinecraftProfileDone_missing (c : Context) (data : Option QJsonDocument) :
    onMinecraftProfileDone c .ContentNotFoundError data =
      (finishActivity { c with m_data := { c.m_data with
          minecraftProfile := MinecraftProfile.empty } }).bind
        (fun c3 => some (c3.changeState AccountTaskState.STATE_FAILED_HARD
          msgNoJavaProfile)) := by
  simp [onMinecraftProfileDone]

/-- The completion of the profile request keeps the invariant. -/
theorem deliver_profileDone (fromStringISO : String → QDateTime) (start : Context)
    (sig : Signal) (s : Session) (h : s.Inv start sig) (error : NetworkError)
    (data : Option QJsonDocument) :
    Session.deliver fromStringISO s (.minecraftProfileDone error data) =
        .error .notInFlight ∨
      ∃ s2, Session.deliver fromStringISO s (.minecraftProfileDone error data) = .ok s2 ∧
        s2.Inv start sig := by
  obtain ⟨es, pa, pb, htr, hfl, hprog, hst⟩ := h
  rcases deliver_cases fromStringISO (.minecraftProfileDone error data) hfl hst with
    h0 | ⟨hs, -, hd⟩
  · exact Or.inl h0
  · right
    have hs2 : s.task.m_stage = AuthStage.MinecraftProfile := hs
    rw [stageInv_minecraftProfile hs2] at hst
    obtain ⟨hpa, hpb, hbusy, hprof, hu⟩ := hst
    rw [hd]
    simp only [step, Event.slot]
    have hflz : ∀ k, s.inFlight k -
        (if some Slot.onMinecraftProfileDone = some k then 1 else 0) = 0 := by
      rw [hfl, hpa, hpb]
      exact flight_single_answered _
    have hreset : ∀ msg : String,
        ∃ c2, (finishActivity { s.task with m_data := { s.task.m_data with
            minecraftProfile := MinecraftProfile.empty } }).bind
          (fun c3 => some (c3.changeState AccountTaskState.STATE_FAILED_HARD msg)) =
            some c2 ∧
        (Session.advance s.inFlight s.task c2 (some Slot.onMinecraftProfileDone)).Inv
          start sig := by
      intro msg
      obtain ⟨c2, k1, k2⟩ := finishThen_ends { s.task with m_data := { s.task.m_data with
        minecraftProfile := MinecraftProfile.empty } } hbusy
        AccountTaskState.STATE_FAILED_HARD msg
      refine ⟨c2, k1, ?_⟩
      exact ends_inv start sig s.task { s.task with m_data := { s.task.m_data with
        minecraftProfile := MinecraftProfile.empty } } c2 es [] s.inFlight _ _ htr
        (by simp) (by simp) hprog hflz (Or.inl rfl) (Or.inr rfl) k2
    by_cases h404 : error = NetworkError.ContentNotFoundError
    · obtain ⟨c2, k1, k2⟩ := hreset msgNoJavaProfile
      refine ⟨_, ?_, k2⟩
      rw [h404, onMinecraftProfileDone_missing, k1]
    · have hb404 : (error == NetworkError.ContentNotFoundError) = false := by
        simpa using h404
      by_cases herr : error = NetworkError.NoError
      · subst herr
        by_cases hok : (parseMinecraftProfile data s.task.m_data.minecraftProfile).1 = true
        · rw [onMinecraftProfileDone_accepted s.task data hok]
          have hv := (parseMinecraftProfile_accepted_result data
            s.task.m_data.minecraftProfile hok).1
          by_cases ht : s.task.m_data.type = AccountType.Mojang
          · rw [if_pos ht]
            obtain ⟨g1, g2, g3, g4⟩ := doMigrationEligibilityCheck_eq
              { s.task with m_data := { s.task.m_data with minecraftProfile :=
                (parseMinecraftProfile data s.task.m_data.minecraftProfile).2 } }
            refine ⟨_, rfl, inv_intro _ (some Slot.onMigrationEligibilityCheckDone) none
              htr g4 ?_ ?_ ?_⟩
            · rw [hfl, hpa, hpb]
              funext k
              cases k <;> simp [flight, issuedTo, Request.slot]
            · rw [g1]
              exact progressOK_stage hprog (by rw [hs2]; decide) _ _ _
            · rw [stageInv_migrationEligibility g1]
              refine ⟨rfl, rfl, by simpa [Context.isBusy, g2] using hbusy,
                by rw [g3]; exact hv, ?_⟩
              apply uhsAgree_or_mono hu (by rw [g3]) (by rw [g3]) (by rw [g3])
              intro e he
              simp at he
              rcases he with he | he | he <;> rw [he] <;> rfl
          · rw [if_neg ht]
            obtain ⟨g1, g2, g3, g4⟩ := doGetSkin_eq
              { s.task with m_data := { s.task.m_data with minecraftProfile :=
                (parseMinecraftProfile data s.task.m_data.minecraftProfile).2 } }
            refine ⟨_, rfl, inv_intro _ (some Slot.onSkinDone) none htr g4 ?_ ?_ ?_⟩
            · rw [hfl, hpa, hpb]
              funext k
              cases k <;> simp [flight, issuedTo, Request.slot]
            · rw [g1]
              exact progressOK_stage hprog (by rw [hs2]; decide) _ _ _
            · rw [stageInv_skin g1]
              refine ⟨rfl, rfl, by simpa [Context.isBusy, g2] using hbusy,
                by rw [g3]; exact hv, ?_⟩
              apply uhsAgree_or_mono hu (by rw [g3]) (by rw [g3]) (by rw [g3])
              intro e he
              simp at he
              rcases he with he | he | he <;> rw [he] <;> rfl
        · have hok2 : (parseMinecraftProfile data s.task.m_data.minecraftProfile).1 = false := by
            simpa using hok
          obtain ⟨c2, k1, k2⟩ := hreset "Minecraft Java profile response could not be parsed"
          refine ⟨_, ?_, k2⟩
          rw [onMinecraftProfileDone_rejected s.task data hok2, k1]
      · have hberr : (error != NetworkError.NoError) = true := by simpa using herr
        obtain ⟨c2, k1, k2⟩ := finishThen_ends s.task hbusy
          AccountTaskState.STATE_FAILED_HARD "Minecraft Java profile acquisition failed."
        refine ⟨_, ?_, ends_inv start sig s.task s.task c2 es [] s.inFlight _ _ htr (by simp)
          (by simp) hprog hflz (Or.inl rfl) (Or.inl (by rw [hprof])) k2⟩
        rw [onMinecraftProfileDone_error s.task error data h404 herr, k1]

/-- A token that parseXTokenResponse accepts into an empty token has a string `uhs`. -/
theorem parseXTokenResponse_uhs (fromStringISO : String → QDateTime)
    (data : Option QJsonDocument)
    (h : (parseXTokenResponse fromStringISO data Token.empty).1 = true) :
    ∃ u, (parseXTokenResponse fromStringISO data Token.empty).2.uhs = .string u := by
  obtain ⟨doc, si, ti, sn, tn, tok, arr, out2, -, -, -, -, -, -, -, h5, hres⟩ :=
    parseXTokenResponse_accepted fromStringISO data Token.empty h
  obtain ⟨pre, o, post, -, -, ho, hc⟩ := xuiLoop_found arr _ out2 h5
  obtain ⟨-, -, -, -, -, hex⟩ := consumeClaims_true o o _ out2 hc
  have hmem : "uhs" ∈ o.map Prod.fst := by
    rw [← lookup_isSome_iff]
    exact ho
  have hl := hex "uhs"
  rw [if_pos hmem] at hl
  refine ⟨(QJsonObject.value o "uhs").toStr, ?_⟩
  rw [hres]
  simp [Token.uhs, QVariantMap.index, hl]

theorem onUserAuthDone_error (fromStringISO : String → QDateTime) (c : Context)
    (error : NetworkError) (data : Option QJsonDocument) (h : error ≠ NetworkError.NoError) :
    onUserAuthDone fromStringISO c error data =
      (finishActivity c).bind
        (fun c3 => some (c3.changeState AccountTaskState.STATE_FAILED_HARD
          "XBox user authentication failed.")) := by
  simp [onUserAuthDone, h]

theorem onUserAuthDone_rejected (fromStringISO : String → QDateTime) (c : Context)
    (data : Option QJsonDocument)
    (h : (parseXTokenResponse fromStringISO data Token.empty).1 = false) :
    onUserAuthDone fromStringISO c .NoError data =
      (finishActivity c).bind
        (fun c3 => some (c3.changeState AccountTaskState.STATE_FAILED_HARD
          "XBox user authentication response could not be understood.")) := by
  simp [onUserAuthDone, h]

theorem onUserAuthDone_accepted (fromStringISO : String → QDateTime) (c : Context)
    (data : Option QJsonDocument)
    (h : (parseXTokenResponse fromStringISO data Token.empty).1 = true) :
    ∃ c2, onUserAuthDone fromStringISO c .NoError data = some c2 ∧
      c2.m_stage = AuthStage.XboxAuth ∧ c2.m_activity = c.m_activity ∧
      c2.m_requestsDone = c.m_requestsDone ∧
      c2.m_data = { c.m_data with
        userToken := (parseXTokenResponse fromStringISO data Token.empty).2 } ∧
      c2.trace = c.trace ++
        [.progress AuthStage.XboxAuth.toInt AuthStage.Complete.toInt,
          .stateChanged AccountTaskState.STATE_WORKING "Starting XBox authentication",
          .request (.xstsAuthorizeMinecraft
            (parseXTokenResponse fromStringISO data Token.empty).2.token),
          .request (.xstsAuthorizeGeneric
            (parseXTokenResponse fromStringISO data Token.empty).2.token)] := by
  simp [onUserAuthDone, h, setStage, Context.changeState, Context.emit, doSTSAuthMinecraft,
    doSTSAuthGeneric]

/-- The completion of the user-authentication request keeps the invariant. -/
theorem deliver_userAuthDone (fromStringISO : String → QDateTime) (start : Context)
    (sig : Signal) (s : Session) (h : s.Inv start sig) (error : NetworkError)
    (data : Option QJsonDocument) :
    Session.deliver fromStringISO s (.userAuthDone error data) = .error .notInFlight ∨
      ∃ s2, Session.deliver fromStringISO s (.userAuthDone error data) = .ok s2 ∧
        s2.Inv start sig := by
  obtain ⟨es, pa, pb, htr, hfl, hprog, hst⟩ := h
  rcases deliver_cases fromStringISO (.userAuthDone error data) hfl hst with
    h0 | ⟨hs, -, hd⟩
  · exact Or.inl h0
  · right
    have hs2 : s.task.m_stage = AuthStage.UserAuth := hs
    rw [stageInv_userAuth hs2] at hst
    obtain ⟨hpa, hpb, hbusy, hcount, hprof, hnone⟩ := hst
    rw [hd]
    simp only [step, Event.slot]
    have hflz : ∀ k, s.inFlight k -
        (if some Slot.onUserAuthDone = some k then 1 else 0) = 0 := by
      rw [hfl, hpa, hpb]
      exact flight_single_answered _
    have hend : ∀ msg : String,
        ∃ c2, (finishActivity s.task).bind
          (fun c3 => some (c3.changeState AccountTaskState.STATE_FAILED_HARD msg)) =
            some c2 ∧
        (Session.advance s.inFlight s.task c2 (some Slot.onUserAuthDone)).Inv start sig := by
      intro msg
      obtain ⟨c2, k1, k2⟩ := finishThen_ends s.task hbusy
        AccountTaskState.STATE_FAILED_HARD msg
      exact ⟨c2, k1, ends_inv start sig s.task s.task c2 es [] s.inFlight _ _ htr (by simp)
        (by simp) hprog hflz (Or.inl rfl) (Or.inl (by rw [hprof])) k2⟩
    by_cases herr : error = NetworkError.NoError
    · subst herr
      by_cases hok : (parseXTokenResponse fromStringISO data Token.empty).1 = true
      · obtain ⟨c2, k1, k2, k3, k4, k5, k6⟩ :=
          onUserAuthDone_accepted fromStringISO s.task data hok
        obtain ⟨u, hu⟩ := parseXTokenResponse_uhs fromStringISO data hok
        rw [k1]
        refine ⟨_, rfl, inv_intro _ (some Slot.onSTSAuthMinecraftDone)
          (some Slot.onSTSAuthGenericDone) htr k6 ?_ ?_ ?_⟩
        · rw [hfl, hpa, hpb]
          funext k
          cases k <;> simp [flight, issuedTo, Request.slot]
        · rw [k2]
          apply progressOK_advance hprog (by rw [hs2]; decide)
          · simp [progressOf]
          · intro i t hit
            simp at hit
            exact hit.2
        · rw [stageInv_xboxAuth k2]
          have hnew : ∀ e ∈ es ++
              [.progress AuthStage.XboxAuth.toInt AuthStage.Complete.toInt,
                .stateChanged AccountTaskState.STATE_WORKING "Starting XBox authentication",
                .request (.xstsAuthorizeMinecraft
                  (parseXTokenResponse fromStringISO data Token.empty).2.token),
                .request (.xstsAuthorizeGeneric
                  (parseXTokenResponse fromStringISO data Token.empty).2.token)],
              Effect.isBranchRequest e = false := by
            intro e he
            rcases List.mem_append.mp he with he | he
            · exact hnone e he
            · simp at he
              rcases he with he | he | he | he <;> rw [he] <;> rfl
          refine ⟨by simpa [Context.isBusy, k3] using hbusy, by rw [k5]; exact hprof,
            Or.inr (Or.inl rfl), Or.inr (Or.inl rfl), by simp, by simp [k4, hcount],
            u, by rw [k5]; exact hu, ?_, ?_, ?_, ?_⟩
          · intro _ e he
            exact (isLoginRequest_of_not_branch (hnew e he)).1
          · intro hx
            simp at hx
          · intro _ e he
            exact (isLoginRequest_of_not_branch (hnew e he)).2
          · intro hx
            simp at hx
      · have hok2 : (parseXTokenResponse fromStringISO data Token.empty).1 = false := by
          simpa using hok
        obtain ⟨c2, k1, k2⟩ :=
          hend "XBox user authentication response could not be understood."
        exact ⟨_, by rw [onUserAuthDone_rejected fromStringISO s.task data hok2, k1], k2⟩
    · obtain ⟨c2, k1, k2⟩ := hend "XBox user authentication failed."
      exact ⟨_, by rw [onUserAuthDone_error fromStringISO s.task error data herr, k1], k2⟩

/-- The effect of a branch completion leaves the profile of the bundle alone. -/
theorem effect_profile (fromStringISO : String → QDateTime) (c : Context) (ev : Event) :
    (ev.effect fromStringISO c).m_data.minecraftProfile = c.m_data.minecraftProfile := by
  cases ev with
  | stsAuthMinecraftDone error replyData =>
    obtain ⟨p1, -⟩ := processSTSError_frame c error replyData
    simp only [Event.effect]
    split
    · rw [p1]
    · split
      · rfl
      · split
        · rfl
        · simp [doMinecraftAuth, Context.emit]
  | stsAuthGenericDone error replyData =>
    obtain ⟨p1, -⟩ := processSTSError_frame c error replyData
    simp only [Event.effect]
    split
    · rw [p1]
    · split
      · rfl
      · split
        · rfl
        · simp [doXBoxProfile, Context.emit]
  | minecraftAuthDone now error replyData =>
    simp only [Event.effect]
    split <;> rfl
  | _ => rfl

/-- A branch completion that reports issues no request and stores no branch token. -/
theorem effect_reporting (fromStringISO : String → QDateTime) (c : Context) (ev : Event)
    (b : Bool) (h : ev.report fromStringISO c.userUhs = some b) :
    (ev.effect fromStringISO c).trace = c.trace ∧
    (ev.effect fromStringISO c).m_data.mojangservicesToken = c.m_data.mojangservicesToken ∧
    (ev.effect fromStringISO c).m_data.xboxApiToken = c.m_data.xboxApiToken := by
  cases ev with
  | stsAuthMinecraftDone error replyData =>
    obtain ⟨p1, -, -, -, -, -, -, -, p9⟩ := processSTSError_frame c error replyData
    simp only [Event.report] at h
    have hacc : stsAccepted fromStringISO c.userUhs error replyData = false := by
      cases hs : stsAccepted fromStringISO c.userUhs error replyData with
      | false => rfl
      | true => simp [hs] at h
    simp only [stsAccepted, Context.userUhs] at hacc
    simp only [Event.effect]
    split
    · exact ⟨p9, by rw [p1], by rw [p1]⟩
    · rename_i he
      have he2 : error = NetworkError.NoError := by simpa using he
      split
      · exact ⟨rfl, rfl, rfl⟩
      · rename_i hok
        split
        · exact ⟨rfl, rfl, rfl⟩
        · rename_i hu
          simp [he2, hok] at hacc
          simp at hok hu
          simp [hok, hu] at hacc
  | stsAuthGenericDone error replyData =>
    obtain ⟨p1, -, -, -, -, -, -, -, p9⟩ := processSTSError_frame c error replyData
    simp only [Event.report] at h
    have hacc : stsAccepted fromStringISO c.userUhs error replyData = false := by
      cases hs : stsAccepted fromStringISO c.userUhs error replyData with
      | false => rfl
      | true => simp [hs] at h
    simp only [stsAccepted, Context.userUhs] at hacc
    simp only [Event.effect]
    split
    · exact ⟨p9, by rw [p1], by rw [p1]⟩
    · rename_i he
      have he2 : error = NetworkError.NoError := by simpa using he
      split
      · exact ⟨rfl, rfl, rfl⟩
      · rename_i hok
        split
        · exact ⟨rfl, rfl, rfl⟩
        · rename_i hu
          simp [he2, hok] at hacc
          simp at hok hu
          simp [hok, hu] at hacc
  | minecraftAuthDone now error replyData =>
    simp only [Event.effect]
    split <;> exact ⟨rfl, rfl, rfl⟩
  | _ => exact ⟨rfl, rfl, rfl⟩

/-- Branch A's XSTS reply that lets the branch go on: the token is stored with the user
hash, and the login request carries that hash and the value of the token. -/
theorem effect_stsMinecraft_accepted (fromStringISO : String → QDateTime) (c : Context)
    (error : NetworkError) (replyData : Option QJsonDocument) (u : String)
    (h : stsAccepted fromStringISO c.userUhs error replyData = true)
    (hu : c.m_data.userToken.uhs = .string u) :
    (Event.effect fromStringISO c (.stsAuthMinecraftDone error replyData)).trace =
      c.trace ++ [.request (.loginWithXbox u
        (Event.effect fromStringISO c
          (.stsAuthMinecraftDone error replyData)).m_data.mojangservicesToken.token)] ∧
    (Event.effect fromStringISO c
      (.stsAuthMinecraftDone error replyData)).m_data.mojangservicesToken.uhs = .string u ∧
    (Event.effect fromStringISO c
      (.stsAuthMinecraftDone error replyData)).m_data.xboxApiToken = c.m_data.xboxApiToken := by
  simp only [stsAccepted, Bool.and_eq_true, beq_iff_eq] at h
  obtain ⟨⟨he, hok⟩, hm⟩ := h
  have hm2 : ((parseXTokenResponse fromStringISO replyData Token.empty).2.extra.index
      "uhs").1 = .string u := by
    rw [hm]
    exact hu
  have hm3 : ((parseXTokenResponse fromStringISO replyData Token.empty).2.extra.index
      "uhs").1 = (c.m_data.userToken.extra.index "uhs").1 := hm
  simp [Event.effect, he, hok, hm3, doMinecraftAuth, Context.emit, index_fst_index,
    Token.uhs]
  simp [← hm3, hm2, QVariant.toStr]

/-- Branch B's XSTS reply that lets the branch go on: the token is stored with the user
hash, and the Xbox profile request carries that hash and the value of the token. -/
theorem effect_stsGeneric_accepted (fromStringISO : String → QDateTime) (c : Context)
    (error : NetworkError) (replyData : Option QJsonDocument) (u : String)
    (h : stsAccepted fromStringISO c.userUhs error replyData = true)
    (hu : c.m_data.userToken.uhs = .string u) :
    (Event.effect fromStringISO c (.stsAuthGenericDone error replyData)).trace =
      c.trace ++ [.request (.xboxProfileSettings u
        (Event.effect fromStringISO c
          (.stsAuthGenericDone error replyData)).m_data.xboxApiToken.token)] ∧
    (Event.effect fromStringISO c
      (.stsAuthGenericDone error replyData)).m_data.xboxApiToken.uhs = .string u ∧
    (Event.effect fromStringISO c
      (.stsAuthGenericDone error replyData)).m_data.mojangservicesToken =
        c.m_data.mojangservicesToken := by
  simp only [stsAccepted, Bool.and_eq_true, beq_iff_eq] at h
  obtain ⟨⟨he, hok⟩, hm⟩ := h
  have hm2 : ((parseXTokenResponse fromStringISO replyData Token.empty).2.extra.index
      "uhs").1 = .string u := by
    rw [hm]
    exact hu
  have hm3 : ((parseXTokenResponse fromStringISO replyData Token.empty).2.extra.index
      "uhs").1 = (c.m_data.userToken.extra.index "uhs").1 := hm
  have hu2 : (c.m_data.userToken.extra.index "uhs").1 = .string u := hu
  simp [Event.effect, he, hok, hm3, doXBoxProfile, Context.emit, index_fst_index,
    Token.uhs]
  simp [← hm3, hm2, hu2, QVariant.toStr]

theorem flight_answered_left (k : Slot) (pb : Option Slot) (hpb : pb ≠ some k) :
    (fun k2 => flight (some k) pb k2 - (if some k = some k2 then 1 else 0) +
      issuedTo [] k2) = flight none pb := by
  funext k2
  by_cases h : k = k2
  · subst h
    simp [flight, issuedTo, hpb]
  · simp [flight, issuedTo, h]

theorem flight_answered_right (k : Slot) (pa : Option Slot) (hpa : pa ≠ some k) :
    (fun k2 => flight pa (some k) k2 - (if some k = some k2 then 1 else 0) +
      issuedTo [] k2) = flight pa none := by
  funext k2
  by_cases h : k = k2
  · subst h
    simp [flight, issuedTo, hpa]
  · simp [flight, issuedTo, h]

/-- A report of Branch A during the fork keeps the invariant: the join waits while Branch B
is unfinished, and decides when it has finished. -/
theorem reportA_inv (start : Context) (sig : Signal) (s : Session) (es : List Effect)
    (pa pb : Option Slot) (k : Slot) (c1 : Context) (b : Bool)
    (htr : s.task.trace = start.trace ++ es) (hfl : s.inFlight = flight pa pb)
    (hprog : ProgressOK es s.task.m_stage) (hs : s.task.m_stage = AuthStage.XboxAuth)
    (hst : StageInv start sig es s.task pa pb) (hk : pa = some k)
    (h1 : c1.trace = s.task.trace) (h2 : c1.m_stage = s.task.m_stage)
    (h3 : c1.m_activity = s.task.m_activity)
    (h4 : c1.m_requestsDone = s.task.m_requestsDone)
    (h5 : c1.m_xboxProfileSucceeded = s.task.m_xboxProfileSucceeded)
    (h6 : c1.m_data.minecraftProfile = s.task.m_data.minecraftProfile)
    (h7 : c1.m_data.userToken.uhs = s.task.m_data.userToken.uhs)
    (h8 : c1.m_data.mojangservicesToken = s.task.m_data.mojangservicesToken)
    (h9 : c1.m_data.xboxApiToken = s.task.m_data.xboxApiToken)
    (hb : b = true → k = Slot.onMinecraftAuthDone) :
    ∃ c2, checkResult (c1.countResult Flag.m_mcAuthSucceeded b) = some c2 ∧
      (Session.advance s.inFlight s.task c2 (some k)).Inv start sig := by
  rw [stageInv_xboxAuth hs] at hst
  obtain ⟨hbusy, hprof, hpaC, hpbC, hnn, hcount, u, hu, hA1, hA2, hB1, hB2⟩ := hst
  have hpane : pa ≠ none := by rw [hk]; simp
  have hbusy1 : (c1.countResult Flag.m_mcAuthSucceeded b).isBusy = true := by
    simpa [Context.isBusy, Context.countResult, Context.setFlag, h3] using hbusy
  have hkA : k = Slot.onSTSAuthMinecraftDone ∨ k = Slot.onMinecraftAuthDone := by
    rcases hpaC with h | h | h
    · exact absurd h hpane
    · rw [hk] at h
      exact Or.inl (Option.some.inj h)
    · rw [hk] at h
      exact Or.inr (Option.some.inj h)
  have hpbk : pb ≠ some k := by
    intro hx
    rcases hpbC with h | h | h
    · rw [hx] at h
      cases h
    · rw [hx] at h
      have h3 := Option.some.inj h
      rcases hkA with h4 | h4 <;> rw [h4] at h3 <;> cases h3
    · rw [hx] at h
      have h3 := Option.some.inj h
      rcases hkA with h4 | h4 <;> rw [h4] at h3 <;> cases h3
  by_cases hpb : pb = none
  · -- Branch B has finished: the join decides
    have hdone : (c1.countResult Flag.m_mcAuthSucceeded b).m_requestsDone = 2 := by
      simp [Context.countResult, Context.setFlag, h4, hcount, hpane, hpb]
    have hflz : ∀ k2, s.inFlight k2 - (if some k = some k2 then 1 else 0) = 0 := by
      rw [hfl, hk, hpb]
      exact flight_single_answered k
    by_cases hboth : b = true ∧ s.task.m_xboxProfileSucceeded = true
    · have hsucc := checkResult_success (c1.countResult Flag.m_mcAuthSucceeded b) hdone
        (by simp [Context.countResult, Context.setFlag, hboth.1])
        (by simp [Context.countResult, Context.setFlag, h5, hboth.2])
      obtain ⟨g1, g2, g3, g4⟩ := doMinecraftProfile_eq
        (c1.countResult Flag.m_mcAuthSucceeded b)
      have hd : (c1.countResult Flag.m_mcAuthSucceeded b).m_data = c1.m_data := by
        simp [Context.countResult, Context.setFlag]
      have ktr : (doMinecraftProfile (c1.countResult Flag.m_mcAuthSucceeded b)).trace =
          s.task.trace ++
            [.progress AuthStage.MinecraftProfile.toInt AuthStage.Complete.toInt,
              .stateChanged AccountTaskState.STATE_WORKING
                "Starting minecraft profile acquisition",
              .request (.minecraftProfile
                (c1.countResult Flag.m_mcAuthSucceeded b).m_data.yggdrasilToken.token)] := by
        rw [g4]
        simp [Context.countResult, Context.setFlag, h1]
      refine ⟨_, hsucc, inv_intro _ (some Slot.onMinecraftProfileDone) none htr ktr ?_ ?_ ?_⟩
      · rw [hfl, hk, hpb]
        funext k2
        have := flight_single_answered k k2
        cases k2 <;> simp [flight, issuedTo, Request.slot] at this ⊢
      · rw [g1]
        exact progressOK_stage hprog (by rw [hs]; decide) _ _ _
      · rw [stageInv_minecraftProfile g1]
        have hnb : ∀ e ∈ [Effect.progress AuthStage.MinecraftProfile.toInt
            AuthStage.Complete.toInt,
            .stateChanged AccountTaskState.STATE_WORKING
              "Starting minecraft profile acquisition",
            .request (.minecraftProfile
              (c1.countResult Flag.m_mcAuthSucceeded b).m_data.yggdrasilToken.token)],
            Effect.isBranchRequest e = false := by
          intro e he
          simp at he
          rcases he with he | he | he <;> rw [he] <;> rfl
        refine ⟨rfl, rfl, by simpa [Context.isBusy, g2] using hbusy1,
          by rw [g3, hd, h6]; exact hprof, Or.inr ⟨u, by rw [g3, hd, h7]; exact hu, ?_, ?_⟩⟩
        · exact storedA_mono (hA2 (Or.inl (by rw [hk, hb hboth.1])))
            (by rw [g3, hd, h8]) _ (fun e he => (isLoginRequest_of_not_branch (hnb e he)).1)
        · exact storedB_mono (hB2 (Or.inr ⟨hpb, hboth.2⟩))
            (by rw [g3, hd, h9]) _ (fun e he => (isLoginRequest_of_not_branch (hnb e he)).2)
    · have hfail : ((c1.countResult Flag.m_mcAuthSucceeded b).m_mcAuthSucceeded &&
          (c1.countResult Flag.m_mcAuthSucceeded b).m_xboxProfileSucceeded) = false := by
        simp only [Context.countResult, Context.setFlag, h5]
        cases hb1 : b
        · rfl
        · cases hb2 : s.task.m_xboxProfileSucceeded
          · rfl
          · exact absurd ⟨hb1, hb2⟩ hboth
      obtain ⟨c2, k1, k2⟩ := checkResult_ends _ hbusy1 hdone hfail
      refine ⟨c2, k1, ?_⟩
      exact ends_inv start sig s.task (c1.countResult Flag.m_mcAuthSucceeded b) c2 es []
        s.inFlight _ _ htr (by simp [Context.countResult, Context.setFlag, h1]) (by simp)
        (by simpa [Context.countResult, Context.setFlag, h2] using hprog) hflz (Or.inl rfl)
        (Or.inl (by simp [Context.countResult, Context.setFlag, h6, hprof])) k2
  · -- Branch B is unfinished: the join waits
    have hwait : (c1.countResult Flag.m_mcAuthSucceeded b).m_requestsDone ≠ 2 := by
      simp [Context.countResult, Context.setFlag, h4, hcount, hpane, hpb]
    refine ⟨_, checkResult_waiting _ hwait, inv_intro [] none pb htr
      (by simp [Context.countResult, Context.setFlag, h1]) ?_ ?_ ?_⟩
    · rw [hfl, hk]
      exact flight_answered_left k pb hpbk
    · rw [List.append_nil]
      simpa [Context.countResult, Context.setFlag, h2] using hprog
    · have hs1 : (c1.countResult Flag.m_mcAuthSucceeded b).m_stage = AuthStage.XboxAuth := by
        simp [Context.countResult, Context.setFlag, h2, hs]
      rw [stageInv_xboxAuth hs1, List.append_nil]
      refine ⟨hbusy1, by simp [Context.countResult, Context.setFlag, h6, hprof],
        Or.inl rfl, hpbC, by simp [hpb],
        by simp [Context.countResult, Context.setFlag, h4, hcount, hpane, hpb],
        u, by simp [Context.countResult, Context.setFlag, h7, hu], ?_, ?_, ?_, ?_⟩
      · intro hx
        cases hx
      · intro hx
        rcases hx with hx | ⟨-, hx⟩
        · cases hx
        · have hbt : b = true := by
            simpa [Context.countResult, Context.setFlag] using hx
          have hst := hA2 (Or.inl (by rw [hk, hb hbt]))
          exact ⟨by simp [Context.countResult, Context.setFlag, h8, hst.1],
            by simpa [Context.countResult, Context.setFlag, h8] using hst.2⟩
      · exact hB1
      · intro hx
        have hx2 : pb = some Slot.onXBoxProfileDone ∨
            (pb = none ∧ s.task.m_xboxProfileSucceeded = true) := by
          rcases hx with hx | ⟨hx, -⟩
          · exact Or.inl hx
          · exact absurd hx hpb
        have hst := hB2 hx2
        exact ⟨by simp [Context.countResult, Context.setFlag, h9, hst.1],
          by simpa [Context.countResult, Context.setFlag, h9] using hst.2⟩

theorem flight_single_answered_right (k0 : Slot) :
    ∀ k, flight none (some k0) k - (if some k0 = some k then 1 else 0) = 0 := by
  intro k
  by_cases h : k0 = k <;> simp [flight, h]

/-- A report of Branch B during the fork keeps the invariant: the join waits while Branch A
is unfinished, and decides when it has finished. -/
theorem reportB_inv (start : Context) (sig : Signal) (s : Session) (es : List Effect)
    (pa pb : Option Slot) (k : Slot) (c1 : Context) (b : Bool)
    (htr : s.task.trace = start.trace ++ es) (hfl : s.inFlight = flight pa pb)
    (hprog : ProgressOK es s.task.m_stage) (hs : s.task.m_stage = AuthStage.XboxAuth)
    (hst : StageInv start sig es s.task pa pb) (hk : pb = some k)
    (h1 : c1.trace = s.task.trace) (h2 : c1.m_stage = s.task.m_stage)
    (h3 : c1.m_activity = s.task.m_activity)
    (h4 : c1.m_requestsDone = s.task.m_requestsDone)
    (h5 : c1.m_mcAuthSucceeded = s.task.m_mcAuthSucceeded)
    (h6 : c1.m_data.minecraftProfile = s.task.m_data.minecraftProfile)
    (h7 : c1.m_data.userToken.uhs = s.task.m_data.userToken.uhs)
    (h8 : c1.m_data.mojangservicesToken = s.task.m_data.mojangservicesToken)
    (h9 : c1.m_data.xboxApiToken = s.task.m_data.xboxApiToken)
    (hb : b = true → k = Slot.onXBoxProfileDone) :
    ∃ c2, checkResult (c1.countResult Flag.m_xboxProfileSucceeded b) = some c2 ∧
      (Session.advance s.inFlight s.task c2 (some k)).Inv start sig := by
  rw [stageInv_xboxAuth hs] at hst
  obtain ⟨hbusy, hprof, hpaC, hpbC, hnn, hcount, u, hu, hA1, hA2, hB1, hB2⟩ := hst
  have hpbne : pb ≠ none := by rw [hk]; simp
  have hbusy1 : (c1.countResult Flag.m_xboxProfileSucceeded b).isBusy = true := by
    simpa [Context.isBusy, Context.countResult, Context.setFlag, h3] using hbusy
  have hkB : k = Slot.onSTSAuthGenericDone ∨ k = Slot.onXBoxProfileDone := by
    rcases hpbC with h | h | h
    · exact absurd h hpbne
    · rw [hk] at h
      exact Or.inl (Option.some.inj h)
    · rw [hk] at h
      exact Or.inr (Option.some.inj h)
  have hpak : pa ≠ some k := by
    intro hx
    rcases hpaC with h | h | h
    · rw [hx] at h
      cases h
    · rw [hx] at h
      have h3 := Option.some.inj h
      rcases hkB with h4 | h4 <;> rw [h4] at h3 <;> cases h3
    · rw [hx] at h
      have h3 := Option.some.inj h
      rcases hkB with h4 | h4 <;> rw [h4] at h3 <;> cases h3
  by_cases hpa : pa = none
  · -- Branch A has finished: the join decides
    have hdone : (c1.countResult Flag.m_xboxProfileSucceeded b).m_requestsDone = 2 := by
      simp [Context.countResult, Context.setFlag, h4, hcount, hpbne, hpa]
    have hflz : ∀ k2, s.inFlight k2 - (if some k = some k2 then 1 else 0) = 0 := by
      rw [hfl, hk, hpa]
      exact flight_single_answered_right k
    by_cases hboth : s.task.m_mcAuthSucceeded = true ∧ b = true
    · have hsucc := checkResult_success (c1.countResult Flag.m_xboxProfileSucceeded b) hdone
        (by simp [Context.countResult, Context.setFlag, h5, hboth.1])
        (by simp [Context.countResult, Context.setFlag, hboth.2])
      obtain ⟨g1, g2, g3, g4⟩ := doMinecraftProfile_eq
        (c1.countResult Flag.m_xboxProfileSucceeded b)
      have hd : (c1.countResult Flag.m_xboxProfileSucceeded b).m_data = c1.m_data := by
        simp [Context.countResult, Context.setFlag]
      have ktr : (doMinecraftProfile (c1.countResult Flag.m_xboxProfileSucceeded b)).trace =
          s.task.trace ++
            [.progress AuthStage.MinecraftProfile.toInt AuthStage.Complete.toInt,
              .stateChanged AccountTaskState.STATE_WORKING
                "Starting minecraft profile acquisition",
              .request (.minecraftProfile
                (c1.countResult
                  Flag.m_xboxProfileSucceeded b).m_data.yggdrasilToken.token)] := by
        rw [g4]
        simp [Context.countResult, Context.setFlag, h1]
      refine ⟨_, hsucc, inv_intro _ (some Slot.onMinecraftProfileDone) none htr ktr ?_ ?_ ?_⟩
      · rw [hfl, hk, hpa]
        funext k2
        have := flight_single_answered_right k k2
        cases k2 <;> simp [flight, issuedTo, Request.slot] at this ⊢
      · rw [g1]
        exact progressOK_stage hprog (by rw [hs]; decide) _ _ _
      · rw [stageInv_minecraftProfile g1]
        have hnb : ∀ e ∈ [Effect.progress AuthStage.MinecraftProfile.toInt
            AuthStage.Complete.toInt,
            .stateChanged AccountTaskState.STATE_WORKING
              "Starting minecraft profile acquisition",
            .request (.minecraftProfile
              (c1.countResult Flag.m_xboxProfileSucceeded b).m_data.yggdrasilToken.token)],
            Effect.isBranchRequest e = false := by
          intro e he
          simp at he
          rcases he with he | he | he <;> rw [he] <;> rfl
        refine ⟨rfl, rfl, by simpa [Context.isBusy, g2] using hbusy1,
          by rw [g3, hd, h6]; exact hprof, Or.inr ⟨u, by rw [g3, hd, h7]; exact hu, ?_, ?_⟩⟩
        · exact storedA_mono (hA2 (Or.inr ⟨hpa, hboth.1⟩))
            (by rw [g3, hd, h8]) _ (fun e he => (isLoginRequest_of_not_branch (hnb e he)).1)
        · exact storedB_mono (hB2 (Or.inl (by rw [hk, hb hboth.2])))
            (by rw [g3, hd, h9]) _ (fun e he => (isLoginRequest_of_not_branch (hnb e he)).2)
    · have hfail : ((c1.countResult Flag.m_xboxProfileSucceeded b).m_mcAuthSucceeded &&
          (c1.countResult Flag.m_xboxProfileSucceeded b).m_xboxProfileSucceeded) = false := by
        simp only [Context.countResult, Context.setFlag, h5]
        cases hb1 : s.task.m_mcAuthSucceeded
        · rfl
        · cases hb2 : b
          · rfl
          · exact absurd ⟨hb1, hb2⟩ hboth
      obtain ⟨c2, k1, k2⟩ := checkResult_ends _ hbusy1 hdone hfail
      refine ⟨c2, k1, ?_⟩
      exact ends_inv start sig s.task (c1.countResult Flag.m_xboxProfileSucceeded b) c2 es []
        s.inFlight _ _ htr (by simp [Context.countResult, Context.setFlag, h1]) (by simp)
        (by simpa [Context.countResult, Context.setFlag, h2] using hprog) hflz (Or.inl rfl)
        (Or.inl (by simp [Context.countResult, Context.setFlag, h6, hprof])) k2
  · -- Branch A is unfinished: the join waits
    have hwait : (c1.countResult Flag.m_xboxProfileSucceeded b).m_requestsDone ≠ 2 := by
      simp [Context.countResult, Context.setFlag, h4, hcount, hpbne, hpa]
    refine ⟨_, checkResult_waiting _ hwait, inv_intro [] pa none htr
      (by simp [Context.countResult, Context.setFlag, h1]) ?_ ?_ ?_⟩
    · rw [hfl, hk]
      exact flight_answered_right k pa hpak
    · rw [List.append_nil]
      simpa [Context.countResult, Context.setFlag, h2] using hprog
    · have hs1 : (c1.countResult Flag.m_xboxProfileSucceeded b).m_stage =
          AuthStage.XboxAuth := by
        simp [Context.countResult, Context.setFlag, h2, hs]
      rw [stageInv_xboxAuth hs1, List.append_nil]
      refine ⟨hbusy1, by simp [Context.countResult, Context.setFlag, h6, hprof],
        hpaC, Or.inl rfl, by simp [hpa],
        by simp [Context.countResult, Context.setFlag, h4, hcount, hpbne, hpa],
        u, by simp [Context.countResult, Context.setFlag, h7, hu], ?_, ?_, ?_, ?_⟩
      · exact hA1
      · intro hx
        have hx2 : pa = some Slot.onMinecraftAuthDone ∨
            (pa = none ∧ s.task.m_mcAuthSucceeded = true) := by
          rcases hx with hx | ⟨hx, -⟩
          · exact Or.inl hx
          · exact absurd hx hpa
        have hst := hA2 hx2
        exact ⟨by simp [Context.countResult, Context.setFlag, h8, hst.1],
          by simpa [Context.countResult, Context.setFlag, h8] using hst.2⟩
      · intro hx
        cases hx
      · intro hx
        rcases hx with hx | ⟨-, hx⟩
        · cases hx
        · have hbt : b = true := by
            simpa [Context.countResult, Context.setFlag] using hx
          have hst := hB2 (Or.inl (by rw [hk, hb hbt]))
          exact ⟨by simp [Context.countResult, Context.setFlag, h9, hst.1],
            by simpa [Context.countResult, Context.setFlag, h9] using hst.2⟩

/-- The completion of Branch A's XSTS request keeps the invariant. -/
theorem deliver_stsAuthMinecraftDone (fromStringISO : String → QDateTime) (start : Context)
    (sig : Signal) (s : Session) (h : s.Inv start sig) (error : NetworkError)
    (data : Option QJsonDocument) :
    Session.deliver fromStringISO s (.stsAuthMinecraftDone error data) =
        .error .notInFlight ∨
      ∃ s2, Session.deliver fromStringISO s (.stsAuthMinecraftDone error data) = .ok s2 ∧
        s2.Inv start sig := by
  obtain ⟨es, pa, pb, htr, hfl, hprog, hst⟩ := h
  rcases deliver_cases fromStringISO (.stsAuthMinecraftDone error data) hfl hst with
    h0 | ⟨hs, hk, hd⟩
  · exact Or.inl h0
  · right
    have hs2 : s.task.m_stage = AuthStage.XboxAuth := hs
    have hst0 := hst
    rw [stageInv_xboxAuth hs2] at hst
    obtain ⟨hbusy, hprof, hpaC, hpbC, hnn, hcount, u, hu, hA1, hA2, hB1, hB2⟩ := hst
    have hpa : pa = some Slot.onSTSAuthMinecraftDone := by
      rcases hk with hk | hk
      · exact hk
      · rcases hpbC with h | h | h <;> rw [h] at hk <;> cases hk
    obtain ⟨f1, f2, -, -, f5, f6, f7, f8, -⟩ :=
      effect_frame fromStringISO s.task (.stsAuthMinecraftDone error data)
    have fp := effect_profile fromStringISO s.task (.stsAuthMinecraftDone error data)
    rw [hd, step_eq fromStringISO s.task (.stsAuthMinecraftDone error data) (Or.inl rfl)]
    cases hr : Event.report fromStringISO s.task.userUhs
        (.stsAuthMinecraftDone error data) with
    | none =>
      have hacc : stsAccepted fromStringISO s.task.userUhs error data = true := by
        cases hs : stsAccepted fromStringISO s.task.userUhs error data with
        | true => rfl
        | false => simp [Event.report, hs] at hr
      obtain ⟨a1, a2, a3⟩ :=
        effect_stsMinecraft_accepted fromStringISO s.task error data u hacc hu
      refine ⟨_, rfl, inv_intro _ (some Slot.onMinecraftAuthDone) pb htr a1 ?_ ?_ ?_⟩
      · rw [hfl, hpa]
        funext k2
        cases k2 <;> simp [flight, issuedTo, Request.slot, Event.slot]
        omega
      · rw [f2]
        apply progressOK_same hprog
        intro i t hit
        simp at hit
      · rw [stageInv_xboxAuth (f2.trans hs2)]
        refine ⟨by simpa [Context.isBusy, f1] using hbusy, by rw [fp]; exact hprof,
          Or.inr (Or.inr rfl), hpbC, by simp, by rw [f5, hcount, hpa]; simp,
          u, by rw [← hu]; exact f8, ?_, ?_, ?_, ?_⟩
        · intro hx
          cases hx
        · intro _
          refine ⟨a2, ?_⟩
          intro u2 t hm
          rcases List.mem_append.mp hm with hm | hm
          · have := hA1 hpa _ hm
            simp [Effect.isLoginRequest] at this
          · simp at hm
            exact ⟨hm.1, hm.2⟩
        · intro hx e he
          rcases List.mem_append.mp he with he | he
          · exact hB1 hx e he
          · simp at he
            rw [he]
            rfl
        · intro hx
          rw [f7] at hx
          apply storedB_mono (hB2 hx) a3
          intro e he
          simp at he
          rw [he]
          rfl
    | some b =>
      have hbf : b = false := by
        cases hs : stsAccepted fromStringISO s.task.userUhs error data with
        | true => simp [Event.report, hs] at hr
        | false =>
          simp [Event.report, hs] at hr
          exact hr
      obtain ⟨r1, r2, r3⟩ := effect_reporting fromStringISO s.task _ b hr
      obtain ⟨c2, k1, k2⟩ := reportA_inv start sig s es pa pb Slot.onSTSAuthMinecraftDone
        (Event.effect fromStringISO s.task (.stsAuthMinecraftDone error data)) b htr hfl hprog
        hs2 hst0 hpa r1 f2 f1 f5 f7 fp f8 r2 r3 (by rw [hbf]; intro hx; cases hx)
      have hflag : (Event.stsAuthMinecraftDone error data).flag = Flag.m_mcAuthSucceeded :=
        rfl
      simp only [hflag]
      rw [k1]
      exact ⟨_, rfl, k2⟩

/-- The completion of the `login_with_xbox` request keeps the invariant. -/
theorem deliver_minecraftAuthDone (fromStringISO : String → QDateTime) (start : Context)
    (sig : Signal) (s : Session) (h : s.Inv start sig) (now : Int) (error : NetworkError)
    (data : Option QJsonDocument) :
    Session.deliver fromStringISO s (.minecraftAuthDone now error data) =
        .error .notInFlight ∨
      ∃ s2, Session.deliver fromStringISO s (.minecraftAuthDone now error data) = .ok s2 ∧
        s2.Inv start sig := by
  obtain ⟨es, pa, pb, htr, hfl, hprog, hst⟩ := h
  rcases deliver_cases fromStringISO (.minecraftAuthDone now error data) hfl hst with
    h0 | ⟨hs, hk, hd⟩
  · exact Or.inl h0
  · right
    have hs2 : s.task.m_stage = AuthStage.XboxAuth := hs
    have hst0 := hst
    rw [stageInv_xboxAuth hs2] at hst
    obtain ⟨-, -, -, hpbC, -⟩ := hst
    have hpa : pa = some Slot.onMinecraftAuthDone := by
      rcases hk with hk | hk
      · exact hk
      · rcases hpbC with h | h | h <;> rw [h] at hk <;> cases hk
    obtain ⟨f1, f2, -, -, f5, f6, f7, f8, -⟩ :=
      effect_frame fromStringISO s.task (.minecraftAuthDone now error data)
    have fp := effect_profile fromStringISO s.task (.minecraftAuthDone now error data)
    rw [hd, step_eq fromStringISO s.task (.minecraftAuthDone now error data) (Or.inl rfl)]
    have hr : Event.report fromStringISO s.task.userUhs (.minecraftAuthDone now error data) =
        some (error == NetworkError.NoError &&
          (parseMojangResponse now data Token.empty).1) := rfl
    obtain ⟨r1, r2, r3⟩ := effect_reporting fromStringISO s.task _ _ hr
    obtain ⟨c2, k1, k2⟩ := reportA_inv start sig s es pa pb Slot.onMinecraftAuthDone
      (Event.effect fromStringISO s.task (.minecraftAuthDone now error data))
      (error == NetworkError.NoError && (parseMojangResponse now data Token.empty).1)
      htr hfl hprog hs2 hst0 hpa r1 f2 f1 f5 f7 fp f8 r2 r3 (fun _ => rfl)
    have hflag : (Event.minecraftAuthDone now error data).flag = Flag.m_mcAuthSucceeded :=
      rfl
    simp only [hr, hflag]
    rw [k1]
    exact ⟨_, rfl, k2⟩

/-- The completion of Branch B's XSTS request keeps the invariant. -/
theorem deliver_stsAuthGenericDone (fromStringISO : String → QDateTime) (start : Context)
    (sig : Signal) (s : Session) (h : s.Inv start sig) (error : NetworkError)
    (data : Option QJsonDocument) :
    Session.deliver fromStringISO s (.stsAuthGenericDone error data) =
        .error .notInFlight ∨
      ∃ s2, Session.deliver fromStringISO s (.stsAuthGenericDone error data) = .ok s2 ∧
        s2.Inv start sig := by
  obtain ⟨es, pa, pb, htr, hfl, hprog, hst⟩ := h
  rcases deliver_cases fromStringISO (.stsAuthGenericDone error data) hfl hst with
    h0 | ⟨hs, hk, hd⟩
  · exact Or.inl h0
  · right
    have hs2 : s.task.m_stage = AuthStage.XboxAuth := hs
    have hst0 := hst
    rw [stageInv_xboxAuth hs2] at hst
    obtain ⟨hbusy, hprof, hpaC, hpbC, hnn, hcount, u, hu, hA1, hA2, hB1, hB2⟩ := hst
    have hpb : pb = some Slot.onSTSAuthGenericDone := by
      rcases hk with hk | hk
      · rcases hpaC with h | h | h <;> rw [h] at hk <;> cases hk
      · exact hk
    obtain ⟨f1, f2, -, -, f5, f6, f7, f8, -⟩ :=
      effect_frame fromStringISO s.task (.stsAuthGenericDone error data)
    have fp := effect_profile fromStringISO s.task (.stsAuthGenericDone error data)
    rw [hd, step_eq fromStringISO s.task (.stsAuthGenericDone error data) (Or.inr rfl)]
    cases hr : Event.report fromStringISO s.task.userUhs
        (.stsAuthGenericDone error data) with
    | none =>
      have hacc : stsAccepted fromStringISO s.task.userUhs error data = true := by
        cases hs : stsAccepted fromStringISO s.task.userUhs error data with
        | true => rfl
        | false => simp [Event.report, hs] at hr
      obtain ⟨a1, a2, a3⟩ :=
        effect_stsGeneric_accepted fromStringISO s.task error data u hacc hu
      refine ⟨_, rfl, inv_intro _ pa (some Slot.onXBoxProfileDone) htr a1 ?_ ?_ ?_⟩
      · rw [hfl, hpb]
        funext k2
        cases k2 <;> simp [flight, issuedTo, Request.slot, Event.slot]
      · rw [f2]
        apply progressOK_same hprog
        intro i t hit
        simp at hit
      · rw [stageInv_xboxAuth (f2.trans hs2)]
        refine ⟨by simpa [Context.isBusy, f1] using hbusy, by rw [fp]; exact hprof,
          hpaC, Or.inr (Or.inr rfl), by simp, by rw [f5, hcount, hpb]; simp,
          u, by rw [← hu]; exact f8, ?_, ?_, ?_, ?_⟩
        · intro hx e he
          rcases List.mem_append.mp he with he | he
          · exact hA1 hx e he
          · simp at he
            rw [he]
            rfl
        · intro hx
          rw [f6] at hx
          apply storedA_mono (hA2 hx) a3
          intro e he
          simp at he
          rw [he]
          rfl
        · intro hx
          cases hx
        · intro _
          refine ⟨a2, ?_⟩
          intro u2 t hm
          rcases List.mem_append.mp hm with hm | hm
          · have := hB1 hpb _ hm
            simp [Effect.isXboxProfileRequest] at this
          · simp at hm
            exact ⟨hm.1, hm.2⟩
    | some b =>
      have hbf : b = false := by
        cases hs : stsAccepted fromStringISO s.task.userUhs error data with
        | true => simp [Event.report, hs] at hr
        | false =>
          simp [Event.report, hs] at hr
          exact hr
      obtain ⟨r1, r2, r3⟩ := effect_reporting fromStringISO s.task _ b hr
      obtain ⟨c2, k1, k2⟩ := reportB_inv start sig s es pa pb Slot.onSTSAuthGenericDone
        (Event.effect fromStringISO s.task (.stsAuthGenericDone error data)) b htr hfl hprog
        hs2 hst0 hpb r1 f2 f1 f5 f6 fp f8 r2 r3 (by rw [hbf]; intro hx; cases hx)
      have hflag : (Event.stsAuthGenericDone error data).flag =
          Flag.m_xboxProfileSucceeded := rfl
      simp only [hflag]
      rw [k1]
      exact ⟨_, rfl, k2⟩

/-- The completion of the Xbox profile request keeps the invariant. -/
theorem deliver_xboxProfileDone (fromStringISO : String → QDateTime) (start : Context)
    (sig : Signal) (s : Session) (h : s.Inv start sig) (error : NetworkError) :
    Session.deliver fromStringISO s (.xboxProfileDone error) = .error .notInFlight ∨
      ∃ s2, Session.deliver fromStringISO s (.xboxProfileDone error) = .ok s2 ∧
        s2.Inv start sig := by
  obtain ⟨es, pa, pb, htr, hfl, hprog, hst⟩ := h
  rcases deliver_cases fromStringISO (.xboxProfileDone error) hfl hst with
    h0 | ⟨hs, hk, hd⟩
  · exact Or.inl h0
  · right
    have hs2 : s.task.m_stage = AuthStage.XboxAuth := hs
    have hst0 := hst
    rw [stageInv_xboxAuth hs2] at hst
    obtain ⟨-, -, hpaC, -⟩ := hst
    have hpb : pb = some Slot.onXBoxProfileDone := by
      rcases hk with hk | hk
      · rcases hpaC with h | h | h <;> rw [h] at hk <;> cases hk
      · exact hk
    obtain ⟨f1, f2, -, -, f5, f6, f7, f8, -⟩ :=
      effect_frame fromStringISO s.task (.xboxProfileDone error)
    have fp := effect_profile fromStringISO s.task (.xboxProfileDone error)
    rw [hd, step_eq fromStringISO s.task (.xboxProfileDone error) (Or.inr rfl)]
    have hr : Event.report fromStringISO s.task.userUhs (.xboxProfileDone error) =
        some (error == NetworkError.NoError) := rfl
    obtain ⟨r1, r2, r3⟩ := effect_reporting fromStringISO s.task _ _ hr
    obtain ⟨c2, k1, k2⟩ := reportB_inv start sig s es pa pb Slot.onXBoxProfileDone
      (Event.effect fromStringISO s.task (.xboxProfileDone error))
      (error == NetworkError.NoError)
      htr hfl hprog hs2 hst0 hpb r1 f2 f1 f5 f6 fp f8 r2 r3 (fun _ => rfl)
    have hflag : (Event.xboxProfileDone error).flag = Flag.m_xboxProfileSucceeded := rfl
    simp only [hr, hflag]
    rw [k1]
    exact ⟨_, rfl, k2⟩

/-- Every delivery keeps the invariant, and no slot throws. -/
theorem deliver_inv (fromStringISO : String → QDateTime) (start : Context) (sig : Signal)
    (s : Session) (h : s.Inv start sig) (ev : Event) :
    Session.deliver fromStringISO s ev = .error .notInFlight ∨
      ∃ s2, Session.deliver fromStringISO s ev = .ok s2 ∧ s2.Inv start sig := by
  cases ev with
  | userAuthDone error data => exact deliver_userAuthDone fromStringISO start sig s h _ _
  | stsAuthMinecraftDone error data =>
    exact deliver_stsAuthMinecraftDone fromStringISO start sig s h _ _
  | minecraftAuthDone now error data =>
    exact deliver_minecraftAuthDone fromStringISO start sig s h _ _ _
  | stsAuthGenericDone error data =>
    exact deliver_stsAuthGenericDone fromStringISO start sig s h _ _
  | xboxProfileDone error => exact deliver_xboxProfileDone fromStringISO start sig s h _
  | minecraftProfileDone error data =>
    exact deliver_profileDone fromStringISO start sig s h _ _
  | migrationEligibilityCheckDone error data =>
    exact deliver_migrationDone fromStringISO start sig s h _ _
  | skinDone error data => exact deliver_skinDone fromStringISO start sig s h _ _

theorem deliverAll_inv (fromStringISO : String → QDateTime) (start : Context) (sig : Signal)
    (evs : List Event) (s : Session) (h : s.Inv start sig) :
    Session.deliverAll fromStringISO s evs = .error .notInFlight ∨
      ∃ s2, Session.deliverAll fromStringISO s evs = .ok s2 ∧ s2.Inv start sig := by
  induction evs generalizing s with
  | nil => exact Or.inr ⟨s, rfl, h⟩
  | cons ev rest ih =>
    rcases deliver_inv fromStringISO start sig s h ev with h0 | ⟨s2, h1, h2⟩
    · left
      simp [Session.deliverAll, h0]
    · rcases ih s2 h2 with h3 | ⟨s3, h3, h4⟩
      · left
        simp [Session.deliverAll, h1, h3]
      · right
        exact ⟨s3, by simp [Session.deliverAll, h1, h3], h4⟩

/-- A run from a fresh task never throws: it ends in a session that satisfies the
invariant, unless a completion is delivered for a request that is not in flight. -/
theorem session_inv (fromStringISO : String → QDateTime) (start : Context) (sig : Signal)
    (evs : List Event) (h : Fresh start) :
    session fromStringISO start sig evs = .error .notInFlight ∨
      ∃ s, session fromStringISO start sig evs = .ok s ∧ s.Inv start sig := by
  obtain ⟨s0, h1, h2⟩ := start_inv start sig h
  rcases deliverAll_inv fromStringISO start sig evs s0 h2 with h3 | ⟨s, h3, h4⟩
  · left
    simp [session, h1, h3]
  · right
    exact ⟨s, by simp [session, h1, h3], h4⟩

theorem session_not_thrown (fromStringISO : String → QDateTime) (start : Context)
    (sig : Signal) (evs : List Event) (h : Fresh start) :
    session fromStringISO start sig evs ≠ .error .thrown := by
  rcases session_inv fromStringISO start sig evs h with h1 | ⟨s, h1, -⟩
  · rw [h1]
    intro hx
    cases hx
  · rw [h1]
    intro hx
    cases hx

theorem session_ok_inv (fromStringISO : String → QDateTime) (start : Context)
    (sig : Signal) (evs : List Event) (h : Fresh start) (s : Session)
    (hs : session fromStringISO start sig evs = .ok s) : s.Inv start sig := by
  rcases session_inv fromStringISO start sig evs h with h1 | ⟨s2, h1, h2⟩
  · rw [h1] at hs
    cases hs
  · rw [h1] at hs
    cases hs
    exact h2

/-- A task that is not busy at the end of a run is at the final stage. -/
theorem inv_idle {start : Context} {sig : Signal} {es : List Effect} {c : Context}
    {pa pb : Option Slot} (h : StageInv start sig es c pa pb) (hidle : c.isBusy = false) :
    c.m_stage = AuthStage.Complete := by
  cases hst : c.m_stage
  · exact absurd h (by rw [stageInv_initial hst]; exact id)
  · rw [stageInv_userAuth hst] at h
    rw [h.2.2.1] at hidle
    cases hidle
  · rw [stageInv_xboxAuth hst] at h
    rw [h.1] at hidle
    cases hidle
  · rw [stageInv_minecraftProfile hst] at h
    rw [h.2.2.1] at hidle
    cases hidle
  · rw [stageInv_migrationEligibility hst] at h
    rw [h.2.2.1] at hidle
    cases hidle
  · rw [stageInv_skin hst] at h
    rw [h.2.2.1] at hidle
    cases hidle
  · rfl

set_option maxRecDepth 100000 in
theorem sampleCompletions_run :
    ∃ s, session isoDateTimeUTC (sampleStart AccountType.MSA) (.oauthLinkingSucceeded true)
        sampleCompletions = .ok s ∧
      s.task.m_accountState = AccountTaskState.STATE_SUCCEEDED ∧ s.task.isBusy = false := by
  have h : (session isoDateTimeUTC (sampleStart AccountType.MSA)
      (.oauthLinkingSucceeded true) sampleCompletions).toOption.map
        (fun s => (s.task.m_accountState, s.task.isBusy)) =
          some (AccountTaskState.STATE_SUCCEEDED, false) := by decide
  cases hs : session isoDateTimeUTC (sampleStart AccountType.MSA)
      (.oauthLinkingSucceeded true) sampleCompletions with
  | error f =>
    rw [hs] at h
    cases h
  | ok s =>
    rw [hs] at h
    simp only [Except.toOption, Option.map_some', Option.some.injEq, Prod.mk.injEq] at h
    exact ⟨s, rfl, h.1, h.2⟩

theorem sampleStart_fresh (type : AccountType) : Fresh (sampleStart type) :=
  ⟨rfl, rfl, rfl⟩

/-- C21: in a run that starts from a fresh task, whose stage is the initial one, with the
signal of a collaborator and goes on with network completions, each answering a request in
flight, no slot throws, and the stage indices of the progress updates emitted, preceded by
the index of the initial stage, never decrease; each update carries the index of the final
stage as its total and an index that is not beyond it, nor beyond the index of the stage
the task is in. -/
theorem stage_never_regresses (fromStringISO : String → QDateTime) (start : Context)
    (sig : Signal) (evs : List Event) (h : Fresh start) :
    session fromStringISO start sig evs ≠ .error .thrown ∧
    ∀ s, session fromStringISO start sig evs = .ok s →
      ∃ es, s.task.trace = start.trace ++ es ∧
        (start.m_stage.toInt :: progressOf es).Pairwise (fun i j => i ≤ j) ∧
        (∀ i ∈ progressOf es, i ≤ s.task.m_stage.toInt) ∧
        ∀ i t, Effect.progress i t ∈ es → t = AuthStage.Complete.toInt ∧ i ≤ t := by
  refine ⟨session_not_thrown fromStringISO start sig evs h, ?_⟩
  intro s hs
  obtain ⟨es, pa, pb, htr, -, ⟨p1, p2, p3⟩, -⟩ :=
    session_ok_inv fromStringISO start sig evs h s hs
  refine ⟨es, htr, ?_, fun i hi => (p2 i hi).2, ?_⟩
  · rw [List.pairwise_cons]
    refine ⟨?_, p1⟩
    intro i hi
    rw [h.1]
    exact (p2 i hi).1
  · intro i t hit
    have ht := p3 i t hit
    have hi : i ∈ progressOf es := by
      unfold progressOf
      rw [List.mem_filterMap]
      exact ⟨_, hit, rfl⟩
    refine ⟨ht, ?_⟩
    rw [ht]
    exact le_trans (p2 i hi).2 (stage_toInt_bounds _).2

/-- Witness for C21: the sample run in which every request succeeds. -/
theorem stage_never_regresses_witness :
    Fresh (sampleStart AccountType.MSA) ∧
    ∃ s es, session isoDateTimeUTC (sampleStart AccountType.MSA)
        (.oauthLinkingSucceeded true) sampleCompletions = .ok s ∧
      s.task.trace = (sampleStart AccountType.MSA).trace ++ es ∧
      ((sampleStart AccountType.MSA).m_stage.toInt :: progressOf es).Pairwise
        (fun i j => i ≤ j) ∧
      ∀ i t, Effect.progress i t ∈ es → t = AuthStage.Complete.toInt ∧ i ≤ t := by
  obtain ⟨s, hs, -, -⟩ := sampleCompletions_run
  obtain ⟨es, h1, h2, -, h4⟩ :=
    (stage_never_regresses isoDateTimeUTC (sampleStart AccountType.MSA)
      (.oauthLinkingSucceeded true) sampleCompletions (sampleStart_fresh _)).2 s hs
  exact ⟨sampleStart_fresh _, s, es, hs, h1, h2, h4⟩

/-- C22: in a run that starts from a fresh task whose profile does not have the validity
Certain, with a signal that is not a failure of the Yggdrasil task reported with the state
Succeeded, no slot throws, and once the task is no longer busy the validity of the bundle is
Certain exactly when the run state is Succeeded; when the run state is Failed-hard or
Failed-soft the validity is not Certain. -/
theorem validity_certain_iff_succeeded (fromStringISO : String → QDateTime)
    (start : Context) (sig : Signal) (evs : List Event) (h : Fresh start)
    (hprofile : start.m_data.minecraftProfile.validity ≠ Validity.Certain)
    (hsig : sig ≠ Signal.mojangFailed AccountTaskState.STATE_SUCCEEDED) :
    session fromStringISO start sig evs ≠ .error .thrown ∧
    ∀ s, session fromStringISO start sig evs = .ok s → s.task.isBusy = false →
      (s.task.m_data.validity_ = Validity.Certain ↔
        s.task.m_accountState = AccountTaskState.STATE_SUCCEEDED) ∧
      (s.task.m_accountState = AccountTaskState.STATE_FAILED_HARD ∨
          s.task.m_accountState = AccountTaskState.STATE_FAILED_SOFT →
        s.task.m_data.validity_ ≠ Validity.Certain) := by
  refine ⟨session_not_thrown fromStringISO start sig evs h, ?_⟩
  intro s hs hidle
  obtain ⟨es, pa, pb, -, -, -, hst⟩ := session_ok_inv fromStringISO start sig evs h s hs
  rw [stageInv_complete (inv_idle hst hidle)] at hst
  obtain ⟨-, -, -, hend⟩ := hst
  rcases hend with ⟨e1, e2, -⟩ | ⟨e1, e2⟩
  · refine ⟨⟨fun _ => e1, fun _ => e2⟩, ?_⟩
    rw [e1]
    intro hx
    rcases hx with hx | hx <;> cases hx
  · have hne : s.task.m_accountState ≠ AccountTaskState.STATE_SUCCEEDED := by
      intro hx
      rcases e1 with e1 | ⟨-, e1⟩ | e1
      · rw [hx] at e1
        cases e1
      · rw [hx] at e1
        cases e1
      · rw [hx] at e1
        exact hsig e1
    have hnv : s.task.m_data.validity_ ≠ Validity.Certain := by
      rcases e2 with e2 | e2
      · rw [e2]
        exact hprofile
      · rw [e2]
        intro hx
        cases hx
    exact ⟨⟨fun hx => absurd hx hnv, fun hx => absurd hx hne⟩, fun _ => hnv⟩

/-- Witness for C22: the sample run in which every request succeeds ends Succeeded with
the validity Certain. -/
theorem validity_certain_iff_succeeded_witness :
    Fresh (sampleStart AccountType.MSA) ∧
    (sampleStart AccountType.MSA).m_data.minecraftProfile.validity ≠ Validity.Certain ∧
    ∃ s, session isoDateTimeUTC (sampleStart AccountType.MSA)
        (.oauthLinkingSucceeded true) sampleCompletions = .ok s ∧
      s.task.isBusy = false ∧
      s.task.m_accountState = AccountTaskState.STATE_SUCCEEDED ∧
      s.task.m_data.validity_ = Validity.Certain := by
  obtain ⟨s, hs, h1, h2⟩ := sampleCompletions_run
  have hv := ((validity_certain_iff_succeeded isoDateTimeUTC (sampleStart AccountType.MSA)
    (.oauthLinkingSucceeded true) sampleCompletions (sampleStart_fresh _) (by decide)
    (by decide)).2 s hs h2).1
  exact ⟨sampleStart_fresh _, by decide, s, hs, h2, h1, hv.mpr h1⟩

/-- C26: in a run that starts from a fresh task with the success of the OAuth2 client, and
so goes through the user authentication, no slot throws, and when the task is no longer busy
and the run state is Succeeded, the user token, Branch A's token and Branch B's token carry
one and the same string as their `uhs` claim; every `login_with_xbox` request issued in the
run carries that string with the value of Branch A's token, and every Xbox profile request
carries it with the value of Branch B's token. -/
theorem uhs_agree_on_success (fromStringISO : String → QDateTime) (start : Context)
    (linked : Bool) (evs : List Event) (h : Fresh start) :
    session fromStringISO start (.oauthLinkingSucceeded linked) evs ≠ .error .thrown ∧
    ∀ s, session fromStringISO start (.oauthLinkingSucceeded linked) evs = .ok s →
      s.task.isBusy = false →
      s.task.m_accountState = AccountTaskState.STATE_SUCCEEDED →
      ∃ es u, s.task.trace = start.trace ++ es ∧
        s.task.m_data.userToken.uhs = .string u ∧
        s.task.m_data.mojangservicesToken.uhs = .string u ∧
        s.task.m_data.xboxApiToken.uhs = .string u ∧
        (∀ u2 t, Effect.request (.loginWithXbox u2 t) ∈ es →
          u2 = u ∧ t = s.task.m_data.mojangservicesToken.token) ∧
        (∀ u2 t, Effect.request (.xboxProfileSettings u2 t) ∈ es →
          u2 = u ∧ t = s.task.m_data.xboxApiToken.token) := by
  refine ⟨session_not_thrown fromStringISO start _ evs h, ?_⟩
  intro s hs hidle hsucc
  obtain ⟨es, pa, pb, htr, -, -, hst⟩ := session_ok_inv fromStringISO start _ evs h s hs
  rw [stageInv_complete (inv_idle hst hidle)] at hst
  obtain ⟨-, -, -, hend⟩ := hst
  rcases hend with ⟨-, -, e3⟩ | ⟨e1, -⟩
  · rcases e3 with e3 | ⟨u, u1, ⟨a1, a2⟩, ⟨b1, b2⟩⟩
    · cases e3
    · exact ⟨es, u, htr, u1, a1, b1, a2, b2⟩
  · rw [hsucc] at e1
    rcases e1 with e1 | ⟨e1, -⟩ | e1 <;> cases e1

/-- Witness for C26: the sample run in which every request succeeds; the three tokens carry
the hash of the sample reply. -/
theorem uhs_agree_on_success_witness :
    Fresh (sampleStart AccountType.MSA) ∧
    ∃ s u, session isoDateTimeUTC (sampleStart AccountType.MSA)
        (.oauthLinkingSucceeded true) sampleCompletions = .ok s ∧
      s.task.isBusy = false ∧
      s.task.m_accountState = AccountTaskState.STATE_SUCCEEDED ∧
      s.task.m_data.userToken.uhs = .string u ∧
      s.task.m_data.mojangservicesToken.uhs = .string u ∧
      s.task.m_data.xboxApiToken.uhs = .string u := by
  obtain ⟨s, hs, h1, h2⟩ := sampleCompletions_run
  obtain ⟨es, u, -, u1, u2, u3, -, -⟩ :=
    (uhs_agree_on_success isoDateTimeUTC (sampleStart AccountType.MSA) true
      sampleCompletions (sampleStart_fresh _)).2 s hs h2 h1
  exact ⟨sampleStart_fresh _, s, u, hs, h2, h1, u1, u2, u3⟩

end AuthContext
